import Mathlib

/-!
# Compositor shadow node (OGRE 2.0, `OgreCompositorShadowNode.cpp`)

A shallow embedding of `Ogre::CompositorShadowNode`:

* `buildClosestLightList`  (source lines 175-270)
* `mergeReceiversBoxes`    (source lines 272-302)
* `setShadowMapsToPass`    (source lines 376-505)
* `getMinMaxDepthRange`    (source lines 507-526)
* the constructor          (source lines 48-169)
* `_update`                (source lines 304-361)

and of three functions of `Ogre::HlmsLowLevel` (`OgreHlmsLowLevel.cpp`):
`createShaderCacheEntry` (lines 60-94), `preparePassHash` (lines 125-141) and
`fillBuffersFor` (lines 143-251).

Conventions of the embedding.

* `Ogre::Real` (a `float`) is embedded as `Ogre.Real`: negative infinity or a
  rational number.  The code only compares distances and takes one difference
  (`Math::Abs( fDist - minMaxDistance ) < EPSILON`); comparisons of floats are
  exact, and the difference is taken exactly here.
* `size_t` is `Nat`.  The sentinel `size_t minIdx = -1` is `Option Nat`.
* `std::vector` is `List`.  A read outside a vector, or an iterator loop whose
  begin lies behind its end, is undefined behaviour in C++; the functions that
  can do so return `Option`, and `none` stands for that.
* Pointers are compared by identity only, so cameras, lights and textures are
  represented by a numeric identity.
* What the camera, its viewport and its scene manager answer during one call is
  gathered in the record `Camera` (the code reaches all of it through the camera
  pointer); the frame counter of the workspace is an argument.
* Constants and classes declared in headers outside the sources at hand
  (`LAYER_SHADOW_CASTER`, `PF_R8G8B8A8`, `AxisAlignedBox`) are parameters.
-/

namespace Ogre

/-! ## Scalars -/

/-- Value of type `Real` as far as this file uses it: `-infinity` or a finite number. -/
inductive Real where
  | negInf
  | fin (q : ℚ)
  deriving DecidableEq

/-- Comparison `a <= b` of two `Real`s. -/
def Real.le : Real → Real → Bool
  | Real.negInf, _ => true
  | Real.fin _, Real.negInf => false
  | Real.fin a, Real.fin b => decide (a ≤ b)

instance : LE Real := ⟨fun a b => Real.le a b = true⟩

instance (a b : Real) : Decidable (a ≤ b) := inferInstanceAs (Decidable (Real.le a b = true))

/-- Literal `1e-6f` of line 185. -/
def EPSILON : ℚ := 1 / 1000000

/-- Value `std::numeric_limits<Real>::max()` (largest finite `float`). -/
def REAL_MAX : ℚ := 340282346638528859811704183484516925440

/-- Test `Math::Abs( a - b ) < EPSILON` (line 227).  With `b = -infinity` and `a` finite the
difference is `+infinity`; with `a = -infinity` it is `-infinity` or NaN: the test is false.
For finite `a`, `b` the test `|a - b| < 1/1000000` is written on numerators and denominators,
which evaluates by computation; `Real.absDiffLtEpsilon_fin` states it as `|a - b| < EPSILON`. -/
def Real.absDiffLtEpsilon : Real → Real → Bool
  | Real.fin a, Real.fin b =>
    decide (Int.natAbs (a.num * b.den - b.num * a.den) * 1000000 < a.den * b.den)
  | _, _ => false

/-! ## Data model -/

/-- One entry of the global light list `LightListInfo` (parallel arrays `lights`,
`visibilityMask`, `boundingSphere`), seen from the camera of the call:
`fDist` is the value of
`camPos.distance( boundingSphere->getCenter() ) - boundingSphere->getRadius()` (lines 221-222). -/
structure GlobalLight where
  light : Nat
  visibilityMask : Nat
  fDist : Real
  deriving DecidableEq

/-- Working variables of the selection loops of `buildClosestLightList` (lines 199-265). -/
structure LightScan where
  minIdx : Option Nat
  minDistance : Real
  minMaxDistance : Real
  mShadowMapLightIndex : List Nat
  mAffectedLights : List Bool
  deriving DecidableEq

/-- Condition of lines 218-219:
`*visibilityMask & combinedVisibilityFlags && *visibilityMask & LAYER_SHADOW_CASTER`. -/
def passesVisibility (layerShadowCaster combinedVisibilityFlags visibilityMask : Nat) : Bool :=
  (visibilityMask &&& combinedVisibilityFlags != 0) && (visibilityMask &&& layerShadowCaster != 0)

/-- Lines 223-252: the candidate test for light `j` at distance `fDist`. -/
def considerLight (j : Nat) (fDist : Real) (st : LightScan) : LightScan :=
  if Real.le fDist st.minDistance && Real.le st.minMaxDistance fDist then
    let bNewIdx : Bool :=
      if fDist == Real.negInf || Real.absDiffLtEpsilon fDist st.minMaxDistance then
        if st.minIdx != some j then
          if st.mShadowMapLightIndex.contains j then false else true
        else
          false
      else
        true
    if bNewIdx then
      { st with minIdx := some j, minDistance := fDist, minMaxDistance := fDist }
    else st
  else st

/-- Lines 255-260: push `minIdx` unless it is the last pushed index. -/
def pushMinIdx (st : LightScan) : LightScan :=
  match st.minIdx with
  | none => st
  | some m =>
    if st.mShadowMapLightIndex.isEmpty || st.mShadowMapLightIndex.getLast? != some m then
      { st with mAffectedLights := st.mAffectedLights.set m true,
                mShadowMapLightIndex := st.mShadowMapLightIndex ++ [m] }
    else st

/-- Body of the inner loop (lines 217-264) for index `j`. -/
def scanStep (layerShadowCaster combinedVisibilityFlags : Nat) (j : Nat) (l : GlobalLight)
    (st : LightScan) : LightScan :=
  pushMinIdx
    (if passesVisibility layerShadowCaster combinedVisibilityFlags l.visibilityMask then
      considerLight j l.fDist st
    else st)

/-- Inner loop `for( size_t j=0; j<globalLightList.lights.size(); ++j )` (line 216),
from index `j` on; `rest` are the entries not yet visited. -/
def scanLights (layerShadowCaster combinedVisibilityFlags : Nat) :
    Nat → List GlobalLight → LightScan → LightScan
  | _, [], st => st
  | j, l :: rest, st =>
    scanLights layerShadowCaster combinedVisibilityFlags (j + 1) rest
      (scanStep layerShadowCaster combinedVisibilityFlags j l st)

/-- Outer loop `for( size_t i=0; i<numLights; ++i )` (line 211): `numLights` scans, each
starting with `minDistance = max()` (line 213). -/
def selectLoop (layerShadowCaster combinedVisibilityFlags : Nat) (lights : List GlobalLight) :
    Nat → LightScan → LightScan
  | 0, st => st
  | numLights + 1, st =>
    selectLoop layerShadowCaster combinedVisibilityFlags lights numLights
      (scanLights layerShadowCaster combinedVisibilityFlags 0 lights
        { st with minDistance := Real.fin REAL_MAX })

/-- Lines 198-265: the selection of `buildClosestLightList` on a global light list. -/
def selectLights (layerShadowCaster combinedVisibilityFlags mNumLights : Nat)
    (lights : List GlobalLight) : LightScan :=
  let numLights := min mNumLights lights.length
  selectLoop layerShadowCaster combinedVisibilityFlags lights numLights
    { minIdx := none,
      minDistance := Real.fin REAL_MAX,
      minMaxDistance := Real.negInf,
      mShadowMapLightIndex := [],
      mAffectedLights := List.replicate lights.length false }

/-- Values of `PixelFormat` are used as uninterpreted tags (the enumeration is declared in
`OgrePixelFormat.h`). -/
abbrev PixelFormat := Nat

/-- Enumeration `ShadowMapTechniques` (declared in `OgreCompositorShadowNodeDef.h`): the
enumerators the constructor names in its `switch` (lines 125-157), `SHADOWMAP_PLANEOPTIMAL` being
the one of the commented-out case. -/
inductive ShadowMapTechniques where
  | SHADOWMAP_DEFAULT
  | SHADOWMAP_PLANEOPTIMAL
  | SHADOWMAP_FOCUSED
  | SHADOWMAP_LiPSSM
  | SHADOWMAP_PSSM
  deriving DecidableEq

/-- Shadow camera setup object of a slot (`ShadowCameraSetupPtr`): the class the constructor
instantiates and, for `LiSPSMShadowCameraSetup`, the two settings it makes (lines 143-145). -/
inductive ShadowCameraSetup where
  | DefaultShadowCameraSetup
  | FocusedShadowCameraSetup
  | LiSPSMShadowCameraSetup (optimalAdjustFactor : ℚ) (useSimpleOptimalAdjust : Bool)
  | PSSMShadowCameraSetup
  deriving DecidableEq

/-- Fields of `ShadowMapTexDef` read by the node: the rank `light` of the shadow-casting light the
map is bound to, the `split` index, the list of pixel formats (empty for an atlas) and the
shadow map technique. -/
structure ShadowMapTexDef where
  light : Nat
  split : Nat
  formatList : List PixelFormat
  shadowMapTechnique : ShadowMapTechniques
  deriving DecidableEq

/-- Fields of `CompositorShadowNodeDef` read by the node. -/
structure CompositorShadowNodeDef where
  mShadowMapTexDefinitions : List ShadowMapTexDef
  mNumLights : Nat
  mMinRq : Nat
  mMaxRq : Nat
  deriving DecidableEq

/-- One slot `ShadowMapCamera`: the identity of its camera, its shadow camera setup and the
recorded depth range. -/
structure ShadowMapCamera where
  camera : Nat
  shadowCameraSetup : ShadowCameraSetup
  minDistance : Real
  maxDistance : Real
  deriving DecidableEq

/-- Textures of a `CompositorChannel`, by identity. -/
structure CompositorChannel where
  textures : List Nat
  deriving DecidableEq

/-- Element `LightClosest` of a `LightList`. -/
structure LightClosest where
  light : Nat
  globalIndex : Nat
  distance : Real
  deriving DecidableEq

/-- Mutable members of `CompositorShadowNode`; `Box` stands for `AxisAlignedBox`. -/
structure CompositorShadowNode (Box : Type) where
  mDefinition : CompositorShadowNodeDef
  mShadowMapCameras : List ShadowMapCamera
  mLocalTextures : List CompositorChannel
  mLastCamera : Option Nat
  mLastFrame : Nat
  mShadowMapLightIndex : List Nat
  mAffectedLights : List Bool
  mReceiverBox : Box
  mCastersBox : Box
  mCurrentLightList : List LightClosest
  deriving DecidableEq

/-- Operations of `AxisAlignedBox` used by the node (`OgreAxisAlignedBox.h` is not among the
sources at hand, so they are parameters): the box left by `setNull()` and `a.merge( b )`. -/
structure BoxOps (Box : Type) where
  null : Box
  merge : Box → Box → Box

/-- What a `Camera*`, its viewport and its scene manager answer during one call:
pointer identity, `getViewport()->getVisibilityMask()`, `getSceneManager()->getVisibilityMask()`,
`getGlobalLightList()`, `getReceiversBoxPerRq( camera )`, `isRenderedRq( i )`, the effect of
`_cullReceiversBox( camera, i, j )` on the per-queue boxes, and
`_calculateCurrentCastersBox( mask, minRq, maxRq )`. -/
structure Camera (Box : Type) where
  id : Nat
  viewportVisibilityMask : Nat
  sceneVisibilityMask : Nat
  globalLightList : List GlobalLight
  receiversBoxPerRq : List Box
  isRenderedRq : Nat → Bool
  cullReceiversBox : List Box → Nat → Nat → List Box
  calculateCurrentCastersBox : Nat → Nat → Nat → Box

/-! ## mergeReceiversBoxes -/

/-- Lines 288-290: `while( j<maxRq && camera->isRenderedRq( j ) ) ++j;`.  The loop ends after at
most `maxRq - j` rounds, which is the fuel given by the caller. -/
def skipRendered (isRenderedRq : Nat → Bool) (maxRq : Nat) : Nat → Nat → Nat
  | 0, j => j
  | fuel + 1, j =>
    if j < maxRq && isRenderedRq j then skipRendered isRenderedRq maxRq fuel (j + 1) else j

/-- Lines 284-295: the loop `for( size_t i=minRq; i<maxRq; ++i )`.  The state is the list of
calls `_cullReceiversBox( camera, i, j )` issued so far and the per-queue boxes.  After a call the
body sets `i = j` and the loop header adds one.  `none`: the fuel ran out. -/
def cullLoop {Box : Type} (camera : Camera Box) (maxRq : Nat) :
    Nat → Nat → List (Nat × Nat) × List Box → Option (List (Nat × Nat) × List Box)
  | 0, i, st => if i < maxRq then none else some st
  | fuel + 1, i, st =>
    if i < maxRq then
      if !camera.isRenderedRq i then
        let j := skipRendered camera.isRenderedRq maxRq (maxRq - (i + 1)) (i + 1)
        cullLoop camera maxRq fuel (j + 1) (st.1 ++ [(i, j)], camera.cullReceiversBox st.2 i j)
      else
        cullLoop camera maxRq fuel (i + 1) st
    else some st

/-- Lines 297-301: `while( itor != end ) mReceiverBox.merge( *itor++ );` with the iterators as
indices into `boxesVec`.  `none`: the iterator left the vector (or the fuel ran out). -/
def mergeLoop {Box : Type} (ops : BoxOps Box) (boxesVec : List Box) (endIdx : Nat) :
    Nat → Nat → Box → Option Box
  | 0, itor, box => if itor = endIdx then some box else none
  | fuel + 1, itor, box =>
    if itor = endIdx then some box
    else
      match boxesVec[itor]? with
      | none => none
      | some b => mergeLoop ops boxesVec endIdx fuel (itor + 1) (ops.merge box b)

/-- Lines 272-302: `mergeReceiversBoxes`.  Returns the node and the list of receiver-culling
calls `(i, j)`, in the order issued. -/
def mergeReceiversBoxes {Box : Type} (ops : BoxOps Box) (s : CompositorShadowNode Box)
    (camera : Camera Box) : Option (CompositorShadowNode Box × List (Nat × Nat)) :=
  let boxesVec := camera.receiversBoxPerRq
  let minRq := min s.mDefinition.mMinRq boxesVec.length
  let maxRq := min s.mDefinition.mMaxRq boxesVec.length
  match cullLoop camera maxRq (maxRq - minRq) minRq ([], boxesVec) with
  | none => none
  | some (calls, boxes) =>
    match mergeLoop ops boxes maxRq (boxes.length + 1) minRq ops.null with
    | none => none
    | some box => some ({ s with mReceiverBox := box }, calls)

/-! ## buildClosestLightList -/

/-- Lines 175-270: `buildClosestLightList`; `currentFrameCount` is
`mWorkspace->getFrameCount()`.  The receiver-culling calls issued on the way are those of
`mergeReceiversBoxes`. -/
def buildClosestLightList {Box : Type} (ops : BoxOps Box) (layerShadowCaster : Nat)
    (s : CompositorShadowNode Box) (newCamera : Camera Box) (currentFrameCount : Nat) :
    Option (CompositorShadowNode Box) :=
  if s.mLastCamera = some newCamera.id ∧ s.mLastFrame = currentFrameCount then some s
  else
    match mergeReceiversBoxes ops
        { s with mLastFrame := currentFrameCount, mLastCamera := some newCamera.id } newCamera with
    | none => none
    | some (s1, _) =>
      let combinedVisibilityFlags := newCamera.viewportVisibilityMask &&& newCamera.sceneVisibilityMask
      let scan := selectLights layerShadowCaster combinedVisibilityFlags s1.mDefinition.mNumLights
        newCamera.globalLightList
      some { s1 with
        mShadowMapLightIndex := scan.mShadowMapLightIndex,
        mAffectedLights := scan.mAffectedLights,
        mCastersBox := newCamera.calculateCurrentCastersBox newCamera.viewportVisibilityMask
          s1.mDefinition.mMinRq s1.mDefinition.mMaxRq }

/-! ## setShadowMapsToPass -/

/-- Fields of `Pass` read by `setShadowMapsToPass`: `getMaxSimultaneousLights()` and
`getNumShadowContentTextures()`. -/
structure Pass where
  maxSimultaneousLights : Nat
  numShadowContentTextures : Nat
  deriving DecidableEq

/-- Texture handed to `texUnit->_setTexturePtr`: the slot texture
`mLocalTextures[shadowIdx].textures[0]` or `compoMgr->getNullShadowTexture( format )`. -/
inductive ShadowTexture where
  | localTexture (tex : Nat)
  | nullShadowTexture (format : PixelFormat)
  deriving DecidableEq

/-- What one shadow texture unit receives: its texture and the camera given to
`setTextureProjector` (`none` for the null pointer). -/
structure ShadowTexUnit where
  texture : ShadowTexture
  projector : Option Nat
  deriving DecidableEq

/-- Lines 427-432 (`wanted = true`) and 437-442 (`wanted = false`): one pass over the window
`[itor, endLight)` of the renderable lights, pushing the lights whose affected bit is `wanted`.
`none`: the iterator left the list, a global index lies outside `mAffectedLights`, or the fuel
ran out. -/
def pushLights (mAffectedLights : List Bool) (renderableLights : List LightClosest)
    (wanted : Bool) (endLight : Nat) : Nat → Nat → List LightClosest → Option (List LightClosest)
  | 0, itor, cur => if itor = endLight then some cur else none
  | fuel + 1, itor, cur =>
    if itor = endLight then some cur
    else
      match renderableLights[itor]? with
      | none => none
      | some l =>
        match mAffectedLights[l.globalIndex]? with
        | none => none
        | some a =>
          pushLights mAffectedLights renderableLights wanted endLight fuel (itor + 1)
            (if a == wanted then cur ++ [l] else cur)

/-- Lines 380-442: the light list `mCurrentLightList` built by `setShadowMapsToPass`. -/
def filterLightList (mAffectedLights : List Bool) (renderableLights : List LightClosest)
    (lightsPerPass startLight : Nat) : Option (List LightClosest) :=
  let endLight := min lightsPerPass renderableLights.length
  match pushLights mAffectedLights renderableLights true endLight
      (renderableLights.length + 1) startLight [] with
  | none => none
  | some cur =>
    pushLights mAffectedLights renderableLights false endLight
      (renderableLights.length + 1) startLight cur

/-- Lines 455-481: the body of the first texture loop for unit `shadowIdx` and definition
`texDef`.  `none`: a read outside `mShadowMapCameras`, `mLocalTextures`, `textures`,
`formatList` or `mAffectedLights`. -/
def bindShadowMap {Box : Type} (s : CompositorShadowNode Box) (cur : List LightClosest)
    (shadowIdx : Nat) (texDef : ShadowMapTexDef) : Option ShadowTexUnit :=
  match s.mShadowMapCameras[shadowIdx]? with
  | none => none
  | some smc =>
    let affected : Option Bool :=
      if texDef.light < cur.length then
        match cur[texDef.light]? with
        | none => none
        | some l => s.mAffectedLights[l.globalIndex]?
      else some false
    match affected with
    | none => none
    | some true =>
      match s.mLocalTextures[shadowIdx]? with
      | none => none
      | some channel =>
        match channel.textures[0]? with
        | none => none
        | some shadowTex =>
          some { texture := ShadowTexture.localTexture shadowTex, projector := some smc.camera }
    | some false =>
      match texDef.formatList[0]? with
      | none => none
      | some format =>
        some { texture := ShadowTexture.nullShadowTexture format, projector := some smc.camera }

/-- Lines 453-484: `while( itor != end && shadowIdx < pass->getNumShadowContentTextures() )`.
Returns the units bound so far, in the order of `shadowIdx`. -/
def bindShadowMaps {Box : Type} (s : CompositorShadowNode Box) (cur : List LightClosest)
    (numShadowContentTextures : Nat) :
    Nat → List ShadowMapTexDef → List ShadowTexUnit → Option (List ShadowTexUnit)
  | _, [], units => some units
  | shadowIdx, texDef :: rest, units =>
    if shadowIdx < numShadowContentTextures then
      match bindShadowMap s cur shadowIdx texDef with
      | none => none
      | some unit =>
        bindShadowMaps s cur numShadowContentTextures (shadowIdx + 1) rest (units ++ [unit])
    else some units

/-- Lines 486-501: `for( ; shadowIdx<pass->getNumShadowContentTextures(); ++shadowIdx )`, the
units left over receive the null shadow texture of format `PF_R8G8B8A8` and no projector. -/
def bindBlankShadowMaps (pfR8G8B8A8 : PixelFormat) (numShadowContentTextures : Nat)
    (units : List ShadowTexUnit) : List ShadowTexUnit :=
  units ++ List.replicate (numShadowContentTextures - units.length)
    { texture := ShadowTexture.nullShadowTexture pfR8G8B8A8, projector := none }

/-- Lines 376-505: `setShadowMapsToPass`.  Returns the node (with `mCurrentLightList`, which is
the list the C++ function returns a pointer to) and, for every shadow texture unit index below
`getNumShadowContentTextures()`, what was bound to it. -/
def setShadowMapsToPass {Box : Type} (pfR8G8B8A8 : PixelFormat) (s : CompositorShadowNode Box)
    (renderableLights : List LightClosest) (pass : Pass) (startLight : Nat) :
    Option (CompositorShadowNode Box × List ShadowTexUnit) :=
  match filterLightList s.mAffectedLights renderableLights pass.maxSimultaneousLights
      startLight with
  | none => none
  | some cur =>
    match bindShadowMaps s cur pass.numShadowContentTextures 0
        s.mDefinition.mShadowMapTexDefinitions [] with
    | none => none
    | some units =>
      some ({ s with mCurrentLightList := cur },
        bindBlankShadowMaps pfR8G8B8A8 pass.numShadowContentTextures units)

/-! ## getMinMaxDepthRange -/

/-- Lines 510-525: the search loop of `getMinMaxDepthRange` over the slots not yet visited;
the result is `(outMin, outMax)`. -/
def getMinMaxDepthRangeLoop (shadowMapCamera : Nat) : List ShadowMapCamera → Real × Real
  | [] => (Real.fin 0, Real.fin 100000)
  | slot :: rest =>
    if slot.camera = shadowMapCamera then (slot.minDistance, slot.maxDistance)
    else getMinMaxDepthRangeLoop shadowMapCamera rest

/-- Lines 507-526: `getMinMaxDepthRange` (a `const` member: it reads the node and writes only its
two output parameters). -/
def getMinMaxDepthRange {Box : Type} (s : CompositorShadowNode Box) (shadowMapCamera : Nat) :
    Real × Real :=
  getMinMaxDepthRangeLoop shadowMapCamera s.mShadowMapCameras

/-! ## Constructor -/

/-- Exception codes raised by the code at hand (`Exception::ERR_...`). -/
inductive Exception where
  | ERR_NOT_IMPLEMENTED
  | ERR_ITEM_NOT_FOUND
  | ERR_RENDERINGAPI_ERROR
  deriving DecidableEq

/-- Lines 125-157: the `switch` over `itor->shadowMapTechnique`, with the two settings made on a
`LiSPSMShadowCameraSetup` (`setOptimalAdjustFactor( 5.0f )`, `setUseSimpleOptimalAdjust( false )`);
every other value reaches `default:` and raises `ERR_NOT_IMPLEMENTED`. -/
def createShadowCameraSetup : ShadowMapTechniques → Except Exception ShadowCameraSetup
  | ShadowMapTechniques.SHADOWMAP_DEFAULT =>
    Except.ok ShadowCameraSetup.DefaultShadowCameraSetup
  | ShadowMapTechniques.SHADOWMAP_FOCUSED =>
    Except.ok ShadowCameraSetup.FocusedShadowCameraSetup
  | ShadowMapTechniques.SHADOWMAP_LiPSSM =>
    Except.ok (ShadowCameraSetup.LiSPSMShadowCameraSetup 5 false)
  | ShadowMapTechniques.SHADOWMAP_PSSM =>
    Except.ok ShadowCameraSetup.PSSMShadowCameraSetup
  | _ => Except.error Exception.ERR_NOT_IMPLEMENTED

/-- Lines 67-111: the channel of the definition at `shadowMapIdx`.  `createManual` stands for
`TextureManager::createManual`; it is given the index of the definition, the number of the
render target (`none` for the single texture of a normal render target, whose name has no
number) and the pixel format, and returns the identity of the texture.  An empty format list
(atlas) gives a channel without textures. -/
def createLocalTextures (createManual : Nat → Option Nat → PixelFormat → Nat)
    (shadowMapIdx : Nat) (texDef : ShadowMapTexDef) : CompositorChannel :=
  match texDef.formatList with
  | [] => { textures := [] }
  | [format] => { textures := [createManual shadowMapIdx none format] }
  | formats =>
    { textures := formats.enum.map (fun p => createManual shadowMapIdx (some p.1) p.2) }

/-- Lines 65-162: the loop of the constructor over the definitions from `shadowMapIdx` on; the
state is `mLocalTextures` and `mShadowMapCameras` as filled so far.  `createCamera` stands for
`sceneManager->createCamera` and returns the identity of the camera of slot `shadowMapIdx`. -/
def createShadowMaps (createManual : Nat → Option Nat → PixelFormat → Nat)
    (createCamera : Nat → Nat) :
    Nat → List ShadowMapTexDef → List CompositorChannel × List ShadowMapCamera →
      Except Exception (List CompositorChannel × List ShadowMapCamera)
  | _, [], st => Except.ok st
  | shadowMapIdx, texDef :: rest, st =>
    match createShadowCameraSetup texDef.shadowMapTechnique with
    | Except.error e => Except.error e
    | Except.ok setup =>
      createShadowMaps createManual createCamera (shadowMapIdx + 1) rest
        (st.1 ++ [createLocalTextures createManual shadowMapIdx texDef],
          st.2 ++ [{ camera := createCamera shadowMapIdx,
                     shadowCameraSetup := setup,
                     minDistance := Real.fin 0,
                     maxDistance := Real.fin 100000 }])

/-- Value of `mLastFrame( -1 )`: all bits set, for a 64-bit `size_t`. -/
def LAST_FRAME_NONE : Nat := 18446744073709551615

/-- Lines 48-169: the constructor `CompositorShadowNode::CompositorShadowNode`.  `defaultBox` is
a default-constructed `AxisAlignedBox`.  The call `createPasses()` of line 168 touches none of
the members represented here. -/
def newCompositorShadowNode {Box : Type} (createManual : Nat → Option Nat → PixelFormat → Nat)
    (createCamera : Nat → Nat) (defaultBox : Box) (definition : CompositorShadowNodeDef) :
    Except Exception (CompositorShadowNode Box) :=
  match createShadowMaps createManual createCamera 0 definition.mShadowMapTexDefinitions
      ([], []) with
  | Except.error e => Except.error e
  | Except.ok (localTextures, shadowMapCameras) =>
    Except.ok
      { mDefinition := definition,
        mShadowMapCameras := shadowMapCameras,
        mLocalTextures := localTextures,
        mLastCamera := none,
        mLastFrame := LAST_FRAME_NONE,
        mShadowMapLightIndex := [],
        mAffectedLights := [],
        mReceiverBox := defaultBox,
        mCastersBox := defaultBox,
        mCurrentLightList := [] }

/-! ## _update -/

/-- Value of type `Vector3`. -/
structure Vector3 where
  x : ℚ
  y : ℚ
  z : ℚ
  deriving DecidableEq

/-- Modelled from the spec: the type of a light is point, directional or spot
(`Light::LightTypes` is declared in `OgreLight.h`; `_update` names `LT_POINT` and
`LT_DIRECTIONAL`). -/
inductive LightTypes where
  | LT_POINT
  | LT_DIRECTIONAL
  | LT_SPOTLIGHT
  deriving DecidableEq

/-- What `_update` reads from a `Light`: `getType()`, `getDerivedDirection()` and
`getDerivedPosition()`. -/
structure Light where
  lightType : LightTypes
  derivedDirection : Vector3
  derivedPosition : Vector3
  deriving DecidableEq

/-- State of the camera of a slot (`itShadowCamera->camera`, one camera per map) as far as
`_update` writes it: the material scheme of its viewport (`none`: the camera has no
viewport), its LOD camera, its direction and its position. -/
structure TexCamera where
  viewportMaterialScheme : Option Nat
  lodCamera : Option Nat
  direction : Vector3
  position : Vector3
  deriving DecidableEq

/-- Outcome of the sub-render `CompositorNode::_update()`: the exception it throws, if any, and
the illumination render stage the scene manager holds when control leaves it. -/
structure SubRenderResult where
  failure : Option Exception
  currentRenderStage : Nat
  deriving DecidableEq

/-- Collaborators of `_update` outside the sources at hand: the value of
`SceneManager::IRS_RENDER_TO_TEXTURE`, the material scheme of the main viewport, the `Light`
behind a light pointer, the camera setup call
`shadowCameraSetup->getShadowCamera( sceneManager, camera, light, texCamera, split )` together
with the `getMinDistance()` and `getMaxDistance()` read after it, and the sub-render entered
with a given render stage. -/
structure UpdateEnv (Box : Type) where
  irsRenderToTexture : Nat
  materialScheme : Nat
  lightAt : Nat → Light
  getShadowCamera : ShadowCameraSetup → Camera Box → Light → TexCamera → Nat →
    TexCamera × Real × Real
  subRender : Nat → SubRenderResult

/-- State of the loop of lines 320-352: the slots, the cameras of the slots (by slot index) and
the calls of `getShadowCamera` made so far, each as (slot index, global light index, split). -/
structure CameraSetupState where
  slots : List ShadowMapCamera
  texCameras : List TexCamera
  setupCalls : List (Nat × Nat × Nat)
  deriving DecidableEq

/-- Lines 322-346: one round of the loop of `_update`, for the definition `texDef` and the slot
at `idx` (`itShadowCamera`).  `none`: a read outside `mShadowMapLightIndex`, the global light
list or the slots, or a slot camera without viewport. -/
def setupCamera {Box : Type} (env : UpdateEnv Box) (camera : Camera Box)
    (mShadowMapLightIndex : List Nat) (idx : Nat) (texDef : ShadowMapTexDef)
    (st : CameraSetupState) : Option CameraSetupState :=
  if texDef.light < mShadowMapLightIndex.length then
    match mShadowMapLightIndex[texDef.light]? with
    | none => none
    | some lightIdx =>
      match camera.globalLightList[lightIdx]? with
      | none => none
      | some globalLight =>
        match st.slots[idx]?, st.texCameras[idx]? with
        | some slot, some texCamera =>
          match texCamera.viewportMaterialScheme with
          | none => none
          | some _ =>
            let light := env.lightAt globalLight.light
            let c1 : TexCamera :=
              { texCamera with
                viewportMaterialScheme := some env.materialScheme,
                lodCamera := some camera.id }
            let c2 : TexCamera :=
              if light.lightType != LightTypes.LT_POINT then
                { c1 with direction := light.derivedDirection }
              else c1
            let c3 : TexCamera :=
              if light.lightType != LightTypes.LT_DIRECTIONAL then
                { c2 with position := light.derivedPosition }
              else c2
            let r := env.getShadowCamera slot.shadowCameraSetup camera light c3 texDef.split
            some
              { slots := st.slots.set idx
                  { slot with minDistance := r.2.1, maxDistance := r.2.2 },
                texCameras := st.texCameras.set idx r.1,
                setupCalls := st.setupCalls ++ [(idx, lightIdx, texDef.split)] }
        | _, _ => none
  else some st

/-- Lines 320-352: the loop of `_update` over the definitions from `idx` on. -/
def setupCameras {Box : Type} (env : UpdateEnv Box) (camera : Camera Box)
    (mShadowMapLightIndex : List Nat) :
    Nat → List ShadowMapTexDef → CameraSetupState → Option CameraSetupState
  | _, [], st => some st
  | idx, texDef :: rest, st =>
    match setupCamera env camera mShadowMapLightIndex idx texDef st with
    | none => none
    | some st1 => setupCameras env camera mShadowMapLightIndex (idx + 1) rest st1

/-- What `_update` leaves: the node, the cameras of the slots, the calls of `getShadowCamera`,
the render stage with which the sub-render was entered, the render stage the scene manager
holds when control leaves `_update`, and the exception propagated to the caller, if any. -/
structure UpdateResult (Box : Type) where
  node : CompositorShadowNode Box
  texCameras : List TexCamera
  setupCalls : List (Nat × Nat × Nat)
  subRenderStage : Nat
  currentRenderStage : Nat
  failure : Option Exception
  deriving DecidableEq

/-- Lines 304-361: `_update`.  `currentRenderStage` is what
`sceneManager->_getCurrentRenderStage()` returns at line 354.  An exception of the sub-render
leaves the function at line 358, so that line 360 is not reached. -/
def _update {Box : Type} (ops : BoxOps Box) (layerShadowCaster : Nat) (env : UpdateEnv Box)
    (s : CompositorShadowNode Box) (texCameras : List TexCamera) (currentRenderStage : Nat)
    (camera : Camera Box) (currentFrameCount : Nat) : Option (UpdateResult Box) :=
  match buildClosestLightList ops layerShadowCaster s camera currentFrameCount with
  | none => none
  | some s1 =>
    match setupCameras env camera s1.mShadowMapLightIndex 0
        s1.mDefinition.mShadowMapTexDefinitions
        { slots := s1.mShadowMapCameras, texCameras := texCameras, setupCalls := [] } with
    | none => none
    | some st =>
      let previous := currentRenderStage
      let sub := env.subRender env.irsRenderToTexture
      match sub.failure with
      | some e =>
        some { node := { s1 with mShadowMapCameras := st.slots },
               texCameras := st.texCameras,
               setupCalls := st.setupCalls,
               subRenderStage := env.irsRenderToTexture,
               currentRenderStage := sub.currentRenderStage,
               failure := some e }
      | none =>
        some { node := { s1 with mShadowMapCameras := st.slots },
               texCameras := st.texCameras,
               setupCalls := st.setupCalls,
               subRenderStage := env.irsRenderToTexture,
               currentRenderStage := previous,
               failure := none }

/-! ## HlmsLowLevel::fillBuffersFor (`OgreHlmsLowLevel.cpp`) -/

/-- Content type of a texture unit (`TextureUnitState::ContentType`): the two values
`fillBuffersFor` names, and `CONTENT_NAMED` for a unit of any other content. -/
inductive ContentType where
  | CONTENT_NAMED
  | CONTENT_SHADOW
  | CONTENT_COMPOSITOR
  deriving DecidableEq

/-- What `fillBuffersFor` reads and writes of a `TextureUnitState`: `getContentType()`,
`getReferencedTextureName()`, `getReferencedMRTIndex()`, the frustum of its
`ET_PROJECTIVE_TEXTURE` effect if it has one, and the texture given to `_setTexturePtr`. -/
structure TextureUnitState where
  contentType : ContentType
  referencedTextureName : Nat
  referencedMRTIndex : Nat
  projectiveTextureFrustum : Option Nat
  texturePtr : Option Nat
  deriving DecidableEq

/-- Element of `SceneManager::CompositorTextureVec`: a name and its textures; `std::find`
compares an element with a name by the name. -/
structure CompositorTexture where
  name : Nat
  textures : List Nat
  deriving DecidableEq

/-- State of the loop of lines 180-215 of `OgreHlmsLowLevel.cpp`: the units handed to
`_setTextureUnitSettings`, in the order of `unit`, and the calls
`setTextureProjector( frustum, unit )`. -/
structure TextureUnitsBound where
  textureUnits : List TextureUnitState
  projectors : List (Nat × Nat)
  deriving DecidableEq

/-- Lines 180-215 of `OgreHlmsLowLevel.cpp`: the loop over the texture units of the pass from
`unit` on.  `none`: the MRT index lies outside the textures of the compositor texture.  What
was done before an exception is not part of the result. -/
def fillTextureUnits (casterPass : Bool) (compositorTextures : List CompositorTexture) :
    Nat → List TextureUnitState → TextureUnitsBound →
      Option (Except Exception TextureUnitsBound)
  | _, [], st => some (Except.ok st)
  | unit, pTex :: rest, st =>
    let projectors : List (Nat × Nat) :=
      if !casterPass && pTex.contentType != ContentType.CONTENT_SHADOW then
        match pTex.projectiveTextureFrustum with
        | some frustum => st.projectors ++ [(frustum, unit)]
        | none => st.projectors
      else st.projectors
    if pTex.contentType == ContentType.CONTENT_COMPOSITOR then
      match compositorTextures.find? (fun t => t.name == pTex.referencedTextureName) with
      | none => some (Except.error Exception.ERR_ITEM_NOT_FOUND)
      | some found =>
        match found.textures[pTex.referencedMRTIndex]? with
        | none => none
        | some tex =>
          fillTextureUnits casterPass compositorTextures (unit + 1) rest
            { textureUnits := st.textureUnits ++ [{ pTex with texturePtr := some tex }],
              projectors := projectors }
    else
      fillTextureUnits casterPass compositorTextures (unit + 1) rest
        { textureUnits := st.textureUnits ++ [pTex], projectors := projectors }

/-- Lines 143-251 of `OgreHlmsLowLevel.cpp`: `HlmsLowLevel::fillBuffersFor` for a pass with the
given texture units and a scene manager with the given compositor textures; the result is the
returned value `0` together with what the loop over the texture units bound.  The calls into
the render system and the auto-parameter source around the loop are not represented. -/
def fillBuffersFor (casterPass : Bool) (compositorTextures : List CompositorTexture)
    (textureUnitStates : List TextureUnitState) :
    Option (Except Exception (Nat × TextureUnitsBound)) :=
  match fillTextureUnits casterPass compositorTextures 0 textureUnitStates
      { textureUnits := [], projectors := [] } with
  | none => none
  | some (Except.error e) => some (Except.error e)
  | some (Except.ok bound) => some (Except.ok (0, bound))

/-! ## HlmsLowLevel::createShaderCacheEntry and preparePassHash (`OgreHlmsLowLevel.cpp`) -/

/-- Fields of `HlmsCache` that `createShaderCacheEntry` sets: the hash and the type given to the
constructor, and the five shaders (`none`: left unset). -/
structure HlmsCache where
  hash : Nat
  type : Nat
  vertexShader : Option Nat
  geometryShader : Option Nat
  tesselationHullShader : Option Nat
  tesselationDomainShader : Option Nat
  pixelShader : Option Nat
  deriving DecidableEq

/-- What `createShaderCacheEntry` reads of the pass `technique->getPass( 0 )` of the
renderable's material: `isProgrammable()` and, for each kind of program, the program if the
pass has one. -/
structure PassPrograms where
  isProgrammable : Bool
  vertexProgram : Option Nat
  geometryProgram : Option Nat
  tessellationHullProgram : Option Nat
  tessellationDomainProgram : Option Nat
  fragmentProgram : Option Nat
  deriving DecidableEq

/-- Members of `HlmsLowLevel` written by `createShaderCacheEntry` and `preparePassHash`: the
vector `mShaderCache`, `mCurrentSceneManager`, and the camera, scene manager and shadow node
current in `mAutoParamDataSource`. -/
structure HlmsLowLevel where
  mShaderCache : List HlmsCache
  mCurrentSceneManager : Option Nat
  autoParamCamera : Option Nat
  autoParamSceneManager : Option Nat
  autoParamShadowNode : Option Nat
  deriving DecidableEq

/-- Lines 60-94 of `OgreHlmsLowLevel.cpp`: `createShaderCacheEntry` for a renderable whose
material's pass is `pass`; `hlmsLowLevel` is the value of `HLMS_LOW_LEVEL`.  The returned
pointer `&mShaderCache.back()` is given as the position of the entry in `mShaderCache`. -/
def createShaderCacheEntry (hlmsLowLevel : Nat) (s : HlmsLowLevel) (pass : PassPrograms) :
    Except Exception (HlmsLowLevel × Nat) :=
  if !pass.isProgrammable then Except.error Exception.ERR_RENDERINGAPI_ERROR
  else
    let cache : HlmsCache :=
      { hash := 0, type := hlmsLowLevel,
        vertexShader := pass.vertexProgram,
        geometryShader := pass.geometryProgram,
        tesselationHullShader := pass.tessellationHullProgram,
        tesselationDomainShader := pass.tessellationDomainProgram,
        pixelShader := pass.fragmentProgram }
    let mShaderCache := s.mShaderCache ++ [cache]
    Except.ok ({ s with mShaderCache := mShaderCache }, mShaderCache.length - 1)

/-- Lines 125-141 of `OgreHlmsLowLevel.cpp`: `preparePassHash`.  Line 128 is the call
`mShaderCache.empty()`, the query of `std::vector`, whose result is discarded.  The base class
function `Hlms::preparePassHash` is not among the sources at hand: what it does to the members
and what it returns is the parameter `hlmsPreparePassHash`.  `cameraInProgress` is
`sceneManager->getCameraInProgress()`. -/
def preparePassHash
    (hlmsPreparePassHash : HlmsLowLevel → Option Nat → Bool → Bool → Nat → HlmsLowLevel × HlmsCache)
    (s : HlmsLowLevel) (shadowNode : Option Nat) (casterPass dualParaboloid : Bool)
    (sceneManager cameraInProgress : Nat) : HlmsLowLevel × HlmsCache :=
  let _ := s.mShaderCache.isEmpty
  let s1 := { s with mCurrentSceneManager := some sceneManager }
  let r := hlmsPreparePassHash s1 shadowNode casterPass dualParaboloid sceneManager
  ({ r.1 with
      autoParamCamera := some cameraInProgress,
      autoParamSceneManager := some sceneManager,
      autoParamShadowNode := shadowNode },
    r.2)

/-! ## Notions used in the statements -/

/-- Distance of the global light at index `k` (`-infinity` outside the list). -/
def fDistAt (lights : List GlobalLight) (k : Nat) : Real :=
  match lights[k]? with
  | some l => l.fDist
  | none => Real.negInf

/-- Invariant of the loops of lines 211-265, relative to the global light list. -/
structure ScanInv (lights : List GlobalLight) (st : LightScan) : Prop where
  nodup : st.mShadowMapLightIndex.Nodup
  inRange : ∀ k ∈ st.mShadowMapLightIndex, k < lights.length
  last : st.minIdx = st.mShadowMapLightIndex.getLast?
  bound : ∀ k ∈ st.mShadowMapLightIndex, fDistAt lights k ≤ st.minMaxDistance
  sorted : (st.mShadowMapLightIndex.map (fDistAt lights)).Pairwise (fun a b => a ≤ b)
  affLen : st.mAffectedLights.length = lights.length
  aff : ∀ i, st.mAffectedLights[i]? = some true ↔ i ∈ st.mShadowMapLightIndex

/-- State after light `j` at distance `d` has been selected and pushed. -/
def selected (j : Nat) (d : Real) (st : LightScan) : LightScan :=
  { minIdx := some j, minDistance := d, minMaxDistance := d,
    mShadowMapLightIndex := st.mShadowMapLightIndex ++ [j],
    mAffectedLights := st.mAffectedLights.set j true }

/-- Per-queue boxes after the receiver-culling calls `calls` have run on `boxes`. -/
def boxesAfterCulling {Box : Type} (camera : Camera Box) (calls : List (Nat × Nat))
    (boxes : List Box) : List Box :=
  calls.foldl (fun v c => camera.cullReceiversBox v c.1 c.2) boxes

/-- Boxes at the indices `[a, b)` of a vector. -/
def boxesInRange {Box : Type} (boxes : List Box) (a b : Nat) : List Box :=
  (boxes.drop a).take (b - a)

/-- Lights of the renderable at the positions `[startLight, endLight)`. -/
def lightWindow (renderableLights : List LightClosest) (startLight endLight : Nat) :
    List LightClosest :=
  (renderableLights.drop startLight).take (endLight - startLight)

/-- Affected bit of a light: `mAffectedLights[light.globalIndex]` (false outside the bitset). -/
def isAffected (mAffectedLights : List Bool) (l : LightClosest) : Bool :=
  mAffectedLights.getD l.globalIndex false

/-- Stable partition of a window by the affected bit: the affected lights in their original
relative order, followed by the non-affected lights in their original relative order. -/
def affectedFirst (mAffectedLights : List Bool) (window : List LightClosest) :
    List LightClosest :=
  window.filter (fun l => isAffected mAffectedLights l) ++
    window.filter (fun l => !isAffected mAffectedLights l)

/-- What the constructor (lines 56-162) establishes when it returns: one camera and one channel
per shadow-map definition, and in each channel one texture per pixel format of its definition. -/
def wellFormed {Box : Type} (s : CompositorShadowNode Box) : Bool :=
  s.mShadowMapCameras.length == s.mDefinition.mShadowMapTexDefinitions.length &&
    s.mLocalTextures.length == s.mDefinition.mShadowMapTexDefinitions.length &&
    (s.mDefinition.mShadowMapTexDefinitions.zip s.mLocalTextures).all
      (fun p => p.2.textures.length == p.1.formatList.length)

/-- Whether the list has a light at rank `r` and that light is marked affected: the condition
of lines 466-467. -/
def affectedAtRank (mAffectedLights : List Bool) (cur : List LightClosest) (r : Nat) : Bool :=
  match cur[r]? with
  | some l => isAffected mAffectedLights l
  | none => false

/-- Texture a unit of content type compositor refers to: of the first compositor texture with
the referenced name, the texture at the unit's MRT index. -/
def referencedCompositorTexture (compositorTextures : List CompositorTexture)
    (pTex : TextureUnitState) : Option Nat :=
  match compositorTextures.find? (fun t => t.name == pTex.referencedTextureName) with
  | some found => found.textures[pTex.referencedMRTIndex]?
  | none => none

/-- A unit of content type compositor whose referenced name no compositor texture has. -/
def referencesUnknownTexture (compositorTextures : List CompositorTexture)
    (pTex : TextureUnitState) : Prop :=
  pTex.contentType = ContentType.CONTENT_COMPOSITOR ∧
    ∀ t ∈ compositorTextures, t.name ≠ pTex.referencedTextureName

/-- The MRT index of every unit of content type compositor lies inside the textures of the
compositor texture it names. -/
def mrtIndicesInRange (compositorTextures : List CompositorTexture)
    (units : List TextureUnitState) : Prop :=
  ∀ u ∈ units, u.contentType = ContentType.CONTENT_COMPOSITOR →
    ∀ found, compositorTextures.find? (fun t => t.name == u.referencedTextureName) = some found →
      u.referencedMRTIndex < found.textures.length


/-- What the loop of lines 320-352 does for the slot `t` of definition `texDef` whose rank is
below the number of selected lights: the light is the global light at the selected index of
that rank; the camera `handed` to `getShadowCamera` is the camera of the slot with the material
scheme of the main viewport, the main camera as LOD camera, the direction of the light unless
the light is a point light and the position of the light unless it is directional; the slot
records the depth range reported by the call and the camera is as the call leaves it. -/
def slotConfigured {Box : Type} (env : UpdateEnv Box) (camera : Camera Box) (index : List Nat)
    (t : Nat) (texDef : ShadowMapTexDef) (slotsBefore : List ShadowMapCamera)
    (camerasBefore : List TexCamera) (slotsAfter : List ShadowMapCamera)
    (camerasAfter : List TexCamera) (setupCalls : List (Nat × Nat × Nat)) : Prop :=
  ∃ lightIdx globalLight slot texCamera handed,
    index[texDef.light]? = some lightIdx ∧
    camera.globalLightList[lightIdx]? = some globalLight ∧
    slotsBefore[t]? = some slot ∧ camerasBefore[t]? = some texCamera ∧
    handed.viewportMaterialScheme = some env.materialScheme ∧
    handed.lodCamera = some camera.id ∧
    handed.direction =
      (if (env.lightAt globalLight.light).lightType = LightTypes.LT_POINT then
        texCamera.direction
      else (env.lightAt globalLight.light).derivedDirection) ∧
    handed.position =
      (if (env.lightAt globalLight.light).lightType = LightTypes.LT_DIRECTIONAL then
        texCamera.position
      else (env.lightAt globalLight.light).derivedPosition) ∧
    slotsAfter[t]? = some
      { slot with
        minDistance := (env.getShadowCamera slot.shadowCameraSetup camera
          (env.lightAt globalLight.light) handed texDef.split).2.1,
        maxDistance := (env.getShadowCamera slot.shadowCameraSetup camera
          (env.lightAt globalLight.light) handed texDef.split).2.2 } ∧
    camerasAfter[t]? = some (env.getShadowCamera slot.shadowCameraSetup camera
      (env.lightAt globalLight.light) handed texDef.split).1 ∧
    (t, lightIdx, texDef.split) ∈ setupCalls

/-- Indices of the eligible lights of `lights`, in index order, the first light having index
`j`: a light is eligible when it passes the visibility test of lines 218-219. -/
def eligibleIndicesFrom (layerShadowCaster combinedVisibilityFlags : Nat) :
    Nat → List GlobalLight → List Nat
  | _, [] => []
  | j, l :: rest =>
    if passesVisibility layerShadowCaster combinedVisibilityFlags l.visibilityMask then
      j :: eligibleIndicesFrom layerShadowCaster combinedVisibilityFlags (j + 1) rest
    else eligibleIndicesFrom layerShadowCaster combinedVisibilityFlags (j + 1) rest

/-- Indices of the eligible lights of the global light list, in index order. -/
def eligibleIndices (layerShadowCaster combinedVisibilityFlags : Nat)
    (lights : List GlobalLight) : List Nat :=
  eligibleIndicesFrom layerShadowCaster combinedVisibilityFlags 0 lights

/-- Distances of the eligible lights of the global light list, in index order. -/
def eligibleDistances (layerShadowCaster combinedVisibilityFlags : Nat)
    (lights : List GlobalLight) : List Real :=
  (lights.filter
    (fun l => passesVisibility layerShadowCaster combinedVisibilityFlags l.visibilityMask)).map
    (fun l => l.fDist)

/-- A distance is finite: a number not above the largest finite `float`. -/
def finiteDistance : Real → Bool
  | Real.fin q => decide (q ≤ REAL_MAX)
  | Real.negInf => false

/-- Two finite distances `a`, `b` with `a < b` that are not within `EPSILON` of each other (the
test `Math::Abs( b - a ) < EPSILON` fails); for finite `a`, `b` this is `a + EPSILON <= b`
(`distanceStep_fin`). -/
def distanceStep : Real → Real → Bool
  | Real.fin p, Real.fin q => decide (p < q) && !Real.absDiffLtEpsilon (Real.fin q) (Real.fin p)
  | _, _ => false

/-- State of the selection loops between two scans when the lights of `pre`, a prefix of the
global light list that is empty or ends with an eligible light, are behind: the eligible
indices of `pre` are selected, and `minIdx`, `minMaxDistance` are the index and the distance of
the last light of `pre`. -/
def selectedUpTo (layerShadowCaster combinedVisibilityFlags : Nat) (pre : List GlobalLight)
    (st : LightScan) : Prop :=
  st.mShadowMapLightIndex = eligibleIndicesFrom layerShadowCaster combinedVisibilityFlags 0 pre ∧
  ((pre = [] ∧ st.minIdx = none ∧ st.minMaxDistance = Real.negInf) ∨
    ∃ pre0 lm, pre = pre0 ++ [lm] ∧
      passesVisibility layerShadowCaster combinedVisibilityFlags lm.visibilityMask = true ∧
      st.minIdx = some pre0.length ∧ st.minMaxDistance = lm.fDist)

/-- What the selection can see of a global light list if the test of lines 218-219 is what
makes a light a candidate: for each light, its distance if it passes the test, and nothing
otherwise. -/
def candidateView (layerShadowCaster combinedVisibilityFlags : Nat)
    (lights : List GlobalLight) : List (Option Real) :=
  lights.map (fun l =>
    if passesVisibility layerShadowCaster combinedVisibilityFlags l.visibilityMask then
      some l.fDist
    else none)

/-! ## Concrete inputs -/

/-- Box operations of the examples: a box is the list of the tags merged into it. -/
def exampleBoxOps : BoxOps (List Nat) := { null := [], merge := fun a b => a ++ b }

/-- Bit used for `LAYER_SHADOW_CASTER` in the examples. -/
def exampleLayerShadowCaster : Nat := 0x40000000

/-- Camera 7 with all visibility bits set, six per-queue boxes tagged 0 to 5, only render
queue 3 already rendered, culling that leaves the boxes as they are. -/
def exampleCamera (lights : List GlobalLight) : Camera (List Nat) :=
  { id := 7,
    viewportVisibilityMask := 0xFFFFFFFF,
    sceneVisibilityMask := 0xFFFFFFFF,
    globalLightList := lights,
    receiversBoxPerRq := [[0], [1], [2], [3], [4], [5]],
    isRenderedRq := fun i => i == 3,
    cullReceiversBox := fun boxes _ _ => boxes,
    calculateCurrentCastersBox := fun _ _ _ => [9] }

/-- Shadow map definition bound to the light of rank 3, of pixel format 14. -/
def exampleTexDefRank3 : ShadowMapTexDef :=
  { light := 3, split := 0, formatList := [14],
    shadowMapTechnique := ShadowMapTechniques.SHADOWMAP_FOCUSED }

/-- Freshly constructed node with four shadow maps bound to the ranks 0, 1, 2, 3, render-queue
range `[2, 5)` and at most `mNumLights` shadow-casting lights. -/
def exampleNode (mNumLights : Nat) : CompositorShadowNode (List Nat) :=
  { mDefinition :=
      { mShadowMapTexDefinitions :=
          [{ light := 0, split := 0, formatList := [11],
             shadowMapTechnique := ShadowMapTechniques.SHADOWMAP_PSSM },
           { light := 1, split := 0, formatList := [12],
             shadowMapTechnique := ShadowMapTechniques.SHADOWMAP_FOCUSED },
           { light := 2, split := 0, formatList := [13],
             shadowMapTechnique := ShadowMapTechniques.SHADOWMAP_FOCUSED },
           exampleTexDefRank3],
        mNumLights := mNumLights, mMinRq := 2, mMaxRq := 5 },
    mShadowMapCameras :=
      [{ camera := 100, shadowCameraSetup := ShadowCameraSetup.PSSMShadowCameraSetup,
         minDistance := Real.fin 0, maxDistance := Real.fin 100000 },
       { camera := 101, shadowCameraSetup := ShadowCameraSetup.FocusedShadowCameraSetup,
         minDistance := Real.fin 1, maxDistance := Real.fin 50 },
       { camera := 100, shadowCameraSetup := ShadowCameraSetup.FocusedShadowCameraSetup,
         minDistance := Real.fin 2, maxDistance := Real.fin 60 },
       { camera := 103, shadowCameraSetup := ShadowCameraSetup.FocusedShadowCameraSetup,
         minDistance := Real.fin 3, maxDistance := Real.fin 70 }],
    mLocalTextures :=
      [{ textures := [200] }, { textures := [201] }, { textures := [202] },
       { textures := [203] }],
    mLastCamera := none,
    mLastFrame := 18446744073709551615,
    mShadowMapLightIndex := [],
    mAffectedLights := [],
    mReceiverBox := [77],
    mCastersBox := [],
    mCurrentLightList := [] }

/-- Two directional lights (distance `-infinity`), both shadow casters. -/
def twoDirectionalLights : List GlobalLight :=
  [{ light := 0, visibilityMask := 0xFFFFFFFF, fDist := Real.negInf },
   { light := 1, visibilityMask := 0xFFFFFFFF, fDist := Real.negInf }]

/-- Two point lights, the nearer one (distance 5) stored after the farther one (distance 10). -/
def farThenNearLights : List GlobalLight :=
  [{ light := 0, visibilityMask := 0xFFFFFFFF, fDist := Real.fin 10 },
   { light := 1, visibilityMask := 0xFFFFFFFF, fDist := Real.fin 5 }]

/-- A point light at distance 10 stored before a directional light. -/
def pointThenDirectionalLights : List GlobalLight :=
  [{ light := 0, visibilityMask := 0xFFFFFFFF, fDist := Real.fin 10 },
   { light := 1, visibilityMask := 0xFFFFFFFF, fDist := Real.negInf }]

/-- A directional light, then point lights at the distances 3, 3 and 8; the last one is not a
shadow caster. -/
def mixedLights : List GlobalLight :=
  [{ light := 0, visibilityMask := 0xFFFFFFFF, fDist := Real.negInf },
   { light := 1, visibilityMask := 0xFFFFFFFF, fDist := Real.fin 3 },
   { light := 2, visibilityMask := 0xFFFFFFFF, fDist := Real.fin 3 },
   { light := 3, visibilityMask := 0x0FFFFFFF, fDist := Real.fin 8 }]

/-- The node `exampleNode 3` after `buildClosestLightList` for `exampleCamera mixedLights` in
frame 1: the lights 0, 1, 2 are selected, the receiver box merges the queues 2, 3, 4. -/
def exampleBuiltNode : CompositorShadowNode (List Nat) :=
  { exampleNode 3 with
    mLastCamera := some 7,
    mLastFrame := 1,
    mShadowMapLightIndex := [0, 1, 2],
    mAffectedLights := [true, true, true, false],
    mReceiverBox := [2, 3, 4],
    mCastersBox := [9] }

/-- Camera of the examples with three per-queue boxes only. -/
def shortCamera : Camera (List Nat) :=
  { exampleCamera [] with receiversBoxPerRq := [[0], [1], [2]] }

/-- Closest lights of a renderable, by global index 3, 1, 0, 2, and once more 1. -/
def exampleRenderableLights : List LightClosest :=
  [{ light := 3, globalIndex := 3, distance := Real.fin 1 },
   { light := 1, globalIndex := 1, distance := Real.fin 2 },
   { light := 0, globalIndex := 0, distance := Real.fin 3 },
   { light := 2, globalIndex := 2, distance := Real.fin 4 },
   { light := 1, globalIndex := 1, distance := Real.fin 5 }]

/-- Pass with four lights per pass and four shadow texture units. -/
def examplePass : Pass := { maxSimultaneousLights := 4, numShadowContentTextures := 4 }

/-- A directional light followed by six point lights at the distances 1 to 6, all shadow
casters. -/
def sevenLights : List GlobalLight :=
  [{ light := 0, visibilityMask := 0xFFFFFFFF, fDist := Real.negInf },
   { light := 1, visibilityMask := 0xFFFFFFFF, fDist := Real.fin 1 },
   { light := 2, visibilityMask := 0xFFFFFFFF, fDist := Real.fin 2 },
   { light := 3, visibilityMask := 0xFFFFFFFF, fDist := Real.fin 3 },
   { light := 4, visibilityMask := 0xFFFFFFFF, fDist := Real.fin 4 },
   { light := 5, visibilityMask := 0xFFFFFFFF, fDist := Real.fin 5 },
   { light := 6, visibilityMask := 0xFFFFFFFF, fDist := Real.fin 6 }]

/-- The node `exampleNode 3` after `buildClosestLightList` for `exampleCamera sevenLights` in
frame 1: the lights 0, 1, 2 are selected. -/
def sevenLightsNode : CompositorShadowNode (List Nat) :=
  { exampleNode 3 with
    mLastCamera := some 7,
    mLastFrame := 1,
    mShadowMapLightIndex := [0, 1, 2],
    mAffectedLights := [true, true, true, false, false, false, false],
    mReceiverBox := [2, 3, 4],
    mCastersBox := [9] }

/-- Closest lights of a renderable: the seven global lights, in the order of their index. -/
def sevenRenderableLights : List LightClosest :=
  [{ light := 0, globalIndex := 0, distance := Real.fin 0 },
   { light := 1, globalIndex := 1, distance := Real.fin 1 },
   { light := 2, globalIndex := 2, distance := Real.fin 2 },
   { light := 3, globalIndex := 3, distance := Real.fin 3 },
   { light := 4, globalIndex := 4, distance := Real.fin 4 },
   { light := 5, globalIndex := 5, distance := Real.fin 5 },
   { light := 6, globalIndex := 6, distance := Real.fin 6 }]

/-- Pass with four lights per pass and six shadow texture units. -/
def sixUnitPass : Pass := { maxSimultaneousLights := 4, numShadowContentTextures := 6 }

/-- Collaborators of `_update` in the examples: `IRS_RENDER_TO_TEXTURE` is 1, light 0 is
directional and the others are point lights, the camera setup leaves the camera as it is and
reports the depth range `(1, 100 + split)`, and the sub-render leaves the render stage as it
finds it and throws `failure` if that is given. -/
def exampleEnv (failure : Option Exception) : UpdateEnv (List Nat) :=
  { irsRenderToTexture := 1,
    materialScheme := 5,
    lightAt := fun l =>
      if l = 0 then
        { lightType := LightTypes.LT_DIRECTIONAL,
          derivedDirection := { x := 0, y := -1, z := 0 },
          derivedPosition := { x := 0, y := 0, z := 0 } }
      else
        { lightType := LightTypes.LT_POINT,
          derivedDirection := { x := 0, y := 0, z := 1 },
          derivedPosition := { x := 3, y := 4, z := 5 } },
    getShadowCamera := fun _ _ _ texCamera split =>
      (texCamera, Real.fin 1, Real.fin ((100 + split : Nat) : ℚ)),
    subRender := fun stage => { failure := failure, currentRenderStage := stage } }

/-- Camera of a slot with a viewport, at the origin. -/
def exampleTexCamera : TexCamera :=
  { viewportMaterialScheme := some 0,
    lodCamera := none,
    direction := { x := 0, y := 0, z := 0 },
    position := { x := 0, y := 0, z := 0 } }

/-- Cameras of the four slots of `exampleNode`. -/
def exampleTexCameras : List TexCamera :=
  [exampleTexCamera, exampleTexCamera, exampleTexCamera, exampleTexCamera]

/-- Camera and scene whose visibility masks are both 1: the shadow caster bit is in neither. -/
def plainMaskCamera (lights : List GlobalLight) : Camera (List Nat) :=
  { exampleCamera lights with viewportVisibilityMask := 1, sceneVisibilityMask := 1 }

/-- One point light at distance 2 whose visibility mask has the bit 0 and the shadow caster
bit. -/
def oneCasterLight : List GlobalLight :=
  [{ light := 0, visibilityMask := 0x40000001, fDist := Real.fin 2 }]

/-- Compositor textures known to the scene manager: name 40 with two textures, name 41 with
one. -/
def exampleCompositorTextures : List CompositorTexture :=
  [{ name := 40, textures := [400, 401] }, { name := 41, textures := [410] }]

/-- Texture units of a pass: a named unit with a projective texture effect, a shadow unit, and a
compositor unit referring to the texture 1 of name 40. -/
def exampleTextureUnits : List TextureUnitState :=
  [{ contentType := ContentType.CONTENT_NAMED, referencedTextureName := 0,
     referencedMRTIndex := 0, projectiveTextureFrustum := some 9, texturePtr := some 300 },
   { contentType := ContentType.CONTENT_SHADOW, referencedTextureName := 0,
     referencedMRTIndex := 0, projectiveTextureFrustum := none, texturePtr := none },
   { contentType := ContentType.CONTENT_COMPOSITOR, referencedTextureName := 40,
     referencedMRTIndex := 1, projectiveTextureFrustum := none, texturePtr := none }]

/-- Compositor unit referring to the name 42, which no compositor texture has. -/
def unknownCompositorUnit : TextureUnitState :=
  { contentType := ContentType.CONTENT_COMPOSITOR, referencedTextureName := 42,
    referencedMRTIndex := 0, projectiveTextureFrustum := none, texturePtr := none }

/-- A base class `preparePassHash` that writes no member and returns a pass cache of hash 0. -/
def exampleHlmsPreparePassHash (s : HlmsLowLevel) (_shadowNode : Option Nat)
    (_casterPass _dualParaboloid : Bool) (_sceneManager : Nat) : HlmsLowLevel × HlmsCache :=
  (s, { hash := 0, type := 0, vertexShader := none, geometryShader := none,
        tesselationHullShader := none, tesselationDomainShader := none, pixelShader := none })

/-- A freshly constructed `HlmsLowLevel`: no cache entry, no current scene manager. -/
def freshHlmsLowLevel : HlmsLowLevel :=
  { mShaderCache := [], mCurrentSceneManager := none, autoParamCamera := none,
    autoParamSceneManager := none, autoParamShadowNode := none }

/-- Pass with a vertex program 31 and a fragment program 32. -/
def examplePrograms : PassPrograms :=
  { isProgrammable := true, vertexProgram := some 31, geometryProgram := none,
    tessellationHullProgram := none, tessellationDomainProgram := none,
    fragmentProgram := some 32 }

/-- The `HlmsLowLevel` after a first pass: `preparePassHash`, then one call of
`createShaderCacheEntry`. -/
def hlmsAfterFirstPass : Except Exception HlmsLowLevel :=
  (createShaderCacheEntry 0
    (preparePassHash exampleHlmsPreparePassHash freshHlmsLowLevel none false false 1 7).1
    examplePrograms).map Prod.fst

/-- Closest lights of a renderable that is nearer to the global light 2 than to the global
light 1: the directional light 0, then the light 2, then the light 1. -/
def swappedRenderableLights : List LightClosest :=
  [{ light := 0, globalIndex := 0, distance := Real.fin 0 },
   { light := 2, globalIndex := 2, distance := Real.fin 1 },
   { light := 1, globalIndex := 1, distance := Real.fin 2 }]

/-- Five lights of which the lights 0, 2 and 4 are shadow casters, at the distances 1, 2 and
3; the lights 1 and 3, at the distances 0 and 9, are not. -/
def spacedLights : List GlobalLight :=
  [{ light := 0, visibilityMask := 0xFFFFFFFF, fDist := Real.fin 1 },
   { light := 1, visibilityMask := 0x0FFFFFFF, fDist := Real.fin 0 },
   { light := 2, visibilityMask := 0xFFFFFFFF, fDist := Real.fin 2 },
   { light := 3, visibilityMask := 0x0FFFFFFF, fDist := Real.fin 9 },
   { light := 4, visibilityMask := 0xFFFFFFFF, fDist := Real.fin 3 }]

/-- Four lights seen through the masks 1 and 1: light 0 lacks the shadow caster bit, the lights
1 and 2 have the bit 0 and the shadow caster bit, light 3 has the shadow caster bit only. -/
def maskedLights : List GlobalLight :=
  [{ light := 0, visibilityMask := 1, fDist := Real.fin 0 },
   { light := 1, visibilityMask := 0x40000001, fDist := Real.fin 2 },
   { light := 2, visibilityMask := 0x40000001, fDist := Real.fin 3 },
   { light := 3, visibilityMask := 0x40000000, fDist := Real.fin 1 }]


/-! ## Facts about `Real` -/

theorem Real.le_def (a b : Real) : a ≤ b ↔ Real.le a b = true := Iff.rfl

theorem Real.le_self (a : Real) : a ≤ a := by
  cases a <;> simp [Real.le_def, Real.le]

theorem Real.le_chain {a b c : Real} (hab : a ≤ b) (hbc : b ≤ c) : a ≤ c := by
  cases a <;> cases b <;> cases c <;> simp_all [Real.le_def, Real.le]
  exact le_trans hab hbc

theorem Real.eq_of_le_of_ge {a b : Real} (hab : a ≤ b) (hba : b ≤ a) : a = b := by
  cases a <;> cases b <;> simp_all [Real.le_def, Real.le]
  exact le_antisymm hab hba

theorem Real.negInf_le (a : Real) : Real.negInf ≤ a := by
  cases a <;> simp [Real.le_def, Real.le]

theorem Real.fin_le_fin (a b : ℚ) : Real.fin a ≤ Real.fin b ↔ a ≤ b := by
  simp [Real.le_def, Real.le]

/-- The finite case of `Real.absDiffLtEpsilon` is the test `|a - b| < EPSILON`. -/
theorem Real.absDiffLtEpsilon_fin (a b : ℚ) :
    Real.absDiffLtEpsilon (Real.fin a) (Real.fin b) = decide (|a - b| < EPSILON) := by
  have had : (0 : ℚ) < a.den := by exact_mod_cast a.den_pos
  have hbd : (0 : ℚ) < b.den := by exact_mod_cast b.den_pos
  have hd : (0 : ℚ) < ((a.den * b.den : ℕ) : ℚ) := by push_cast; exact mul_pos had hbd
  have hab : a - b = ((a.num * b.den - b.num * a.den : ℤ) : ℚ) / ((a.den * b.den : ℕ) : ℚ) := by
    nth_rewrite 1 [← Rat.num_div_den a, ← Rat.num_div_den b]
    push_cast
    field_simp
    ring
  have hz : ∀ z : ℤ, |(z : ℚ)| = ((z.natAbs : ℕ) : ℚ) := by
    intro z; rw [Nat.cast_natAbs, Int.cast_abs]
  have key : |a - b| < EPSILON ↔
      Int.natAbs (a.num * b.den - b.num * a.den) * 1000000 < a.den * b.den := by
    rw [hab, abs_div, EPSILON, abs_of_pos hd, div_lt_div_iff₀ hd (by norm_num), hz, one_mul]
    norm_cast
  simp only [Real.absDiffLtEpsilon]
  exact decide_eq_decide.mpr key.symm

theorem Real.absDiffLtEpsilon_self (a : ℚ) :
    Real.absDiffLtEpsilon (Real.fin a) (Real.fin a) = true := by
  rw [Real.absDiffLtEpsilon_fin]; simp [EPSILON]


/-! ## Invariant of the selection loops -/

theorem pushMinIdx_of_last {st : LightScan} (h : st.minIdx = st.mShadowMapLightIndex.getLast?) :
    pushMinIdx st = st := by
  unfold pushMinIdx
  cases hm : st.minIdx with
  | none => rfl
  | some m =>
    have hl : st.mShadowMapLightIndex.getLast? = some m := by rw [← h, hm]
    have hne : st.mShadowMapLightIndex ≠ [] := by
      intro h0; rw [h0] at hl; simp at hl
    simp [hl, hne]

theorem pushMinIdx_of_new {st : LightScan} {j : Nat} (hm : st.minIdx = some j)
    (hj : j ∉ st.mShadowMapLightIndex) :
    pushMinIdx st = { st with mAffectedLights := st.mAffectedLights.set j true,
                              mShadowMapLightIndex := st.mShadowMapLightIndex ++ [j] } := by
  unfold pushMinIdx
  rw [hm]
  have : st.mShadowMapLightIndex.getLast? ≠ some j := by
    intro h
    exact hj (List.mem_of_getLast?_eq_some h)
  simp [this]

/-- Under the invariant, one round of the inner loop either leaves the state as it is or
selects and pushes `j`, which was not in the list and is no nearer than `minMaxDistance`. -/
theorem scanStep_cases (lsc cvf : Nat) {lights : List GlobalLight} {st : LightScan}
    (hinv : ScanInv lights st) {j : Nat} {l : GlobalLight} (hl : lights[j]? = some l) :
    scanStep lsc cvf j l st = st ∨
      (scanStep lsc cvf j l st = selected j l.fDist st ∧ j ∉ st.mShadowMapLightIndex ∧
        st.minMaxDistance ≤ l.fDist ∧ passesVisibility lsc cvf l.visibilityMask = true) := by
  unfold scanStep
  by_cases hv : passesVisibility lsc cvf l.visibilityMask = true
  swap
  · left; rw [if_neg hv]; exact pushMinIdx_of_last hinv.last
  rw [if_pos hv]
  unfold considerLight
  by_cases hg : (Real.le l.fDist st.minDistance && Real.le st.minMaxDistance l.fDist) = true
  swap
  · left; rw [if_neg hg]; exact pushMinIdx_of_last hinv.last
  rw [if_pos hg]
  have hge : st.minMaxDistance ≤ l.fDist := by
    simp only [Bool.and_eq_true] at hg; exact hg.2
  have hdist : fDistAt lights j = l.fDist := by simp [fDistAt, hl]
  have hsel : ∀ hc : j ∉ st.mShadowMapLightIndex,
      pushMinIdx { st with minIdx := some j, minDistance := l.fDist, minMaxDistance := l.fDist } =
        selected j l.fDist st := fun hc =>
    @pushMinIdx_of_new
      { st with minIdx := some j, minDistance := l.fDist, minMaxDistance := l.fDist } j
      rfl hc
  by_cases htie : (l.fDist == Real.negInf || Real.absDiffLtEpsilon l.fDist st.minMaxDistance) = true
  · rw [if_pos htie]
    by_cases hmin : st.minIdx = some j
    · left
      have : (st.minIdx != some j) = false := by simp [hmin]
      simp only [this]
      exact pushMinIdx_of_last hinv.last
    · have hne : (st.minIdx != some j) = true := by simp [hmin]
      by_cases hc : j ∈ st.mShadowMapLightIndex
      · left
        have hct : st.mShadowMapLightIndex.contains j = true := by simpa using hc
        simp only [hne, hct, if_true]
        exact pushMinIdx_of_last hinv.last
      · right
        refine ⟨?_, hc, hge, hv⟩
        have hct : st.mShadowMapLightIndex.contains j = false := by simpa using hc
        simp only [hne, hct, if_true]
        exact hsel hc
  · have hc : j ∉ st.mShadowMapLightIndex := by
      intro hmem
      have h1 : l.fDist ≤ st.minMaxDistance := hdist ▸ hinv.bound j hmem
      have h2 : l.fDist = st.minMaxDistance := Real.eq_of_le_of_ge h1 hge
      apply htie
      cases hf : l.fDist with
      | negInf => simp
      | fin a =>
        rw [← h2, hf, Real.absDiffLtEpsilon_self]; simp
    right
    refine ⟨?_, hc, hge, hv⟩
    rw [if_neg htie]
    simp only [if_true]
    exact hsel hc

theorem selected_inv {lights : List GlobalLight} {st : LightScan} (hinv : ScanInv lights st)
    {j : Nat} {l : GlobalLight} (hl : lights[j]? = some l) (hj : j ∉ st.mShadowMapLightIndex)
    (hge : st.minMaxDistance ≤ l.fDist) : ScanInv lights (selected j l.fDist st) := by
  have hdist : fDistAt lights j = l.fDist := by simp [fDistAt, hl]
  have hjlt : j < lights.length := by
    rcases List.getElem?_eq_some_iff.mp hl with ⟨h, _⟩; exact h
  refine ⟨?_, ?_, ?_, ?_, ?_, ?_, ?_⟩
  · simp only [selected]
    exact List.Nodup.append hinv.nodup (List.nodup_singleton j) (by simpa using hj)
  · intro k hk
    simp only [selected, List.mem_append, List.mem_singleton] at hk
    rcases hk with hk | hk
    · exact hinv.inRange k hk
    · exact hk ▸ hjlt
  · simp [selected]
  · intro k hk
    simp only [selected, List.mem_append, List.mem_singleton] at hk ⊢
    rcases hk with hk | hk
    · exact Real.le_chain (hinv.bound k hk) hge
    · rw [hk, hdist]; exact Real.le_self _
  · simp only [selected, List.map_append, List.map_cons, List.map_nil]
    rw [List.pairwise_append]
    refine ⟨hinv.sorted, List.pairwise_singleton _ _, ?_⟩
    intro a ha b hb
    simp only [List.mem_map] at ha
    rcases ha with ⟨k, hk, rfl⟩
    simp only [List.mem_singleton] at hb
    rw [hb, hdist]
    exact Real.le_chain (hinv.bound k hk) hge
  · simp [selected, hinv.affLen]
  · intro i
    simp only [selected, List.mem_append, List.mem_singleton]
    by_cases hij : i = j
    · subst hij
      simp [List.getElem?_set, hinv.affLen, hjlt]
    · rw [List.getElem?_set_ne (Ne.symm hij)]
      simp [hinv.aff i, hij]

theorem scanStep_inv (lsc cvf : Nat) {lights : List GlobalLight} {st : LightScan}
    (hinv : ScanInv lights st) {j : Nat} {l : GlobalLight} (hl : lights[j]? = some l) :
    ScanInv lights (scanStep lsc cvf j l st) := by
  rcases scanStep_cases lsc cvf hinv hl with h | ⟨h, hj, hge, _⟩
  · rw [h]; exact hinv
  · rw [h]; exact selected_inv hinv hl hj hge

theorem scanLights_inv (lsc cvf : Nat) (lights : List GlobalLight) :
    ∀ (rest : List GlobalLight) (j : Nat) (st : LightScan),
      (∀ i l, rest[i]? = some l → lights[j + i]? = some l) → ScanInv lights st →
      ScanInv lights (scanLights lsc cvf j rest st) := by
  intro rest
  induction rest with
  | nil => intro j st _ h; exact h
  | cons l rest ih =>
    intro j st hrest hinv
    simp only [scanLights]
    apply ih
    · intro i l' hi
      have := hrest (i + 1) l' (by simpa using hi)
      rw [← this]; congr 1; omega
    · exact scanStep_inv lsc cvf hinv (by simpa using hrest 0 l (by simp))

theorem selectLoop_inv (lsc cvf : Nat) (lights : List GlobalLight) :
    ∀ (n : Nat) (st : LightScan), ScanInv lights st →
      ScanInv lights (selectLoop lsc cvf lights n st) := by
  intro n
  induction n with
  | zero => intro st h; exact h
  | succ n ih =>
    intro st hinv
    simp only [selectLoop]
    apply ih
    apply scanLights_inv
    · intro i l h; simpa using h
    · exact ⟨hinv.nodup, hinv.inRange, hinv.last, hinv.bound, hinv.sorted, hinv.affLen, hinv.aff⟩

theorem selectLights_inv (lsc cvf mNumLights : Nat) (lights : List GlobalLight) :
    ScanInv lights (selectLights lsc cvf mNumLights lights) := by
  unfold selectLights
  apply selectLoop_inv
  refine ⟨by simp, by simp, by simp, by simp, by simp, by simp, ?_⟩
  intro i
  simp only [List.not_mem_nil, iff_false]
  intro h
  rcases List.getElem?_eq_some_iff.mp h with ⟨hlt, heq⟩
  simp at heq


/-! ## mergeReceiversBoxes: the loops end and stay inside the vector -/

theorem skipRendered_ge (isRenderedRq : Nat → Bool) (maxRq : Nat) :
    ∀ (fuel j : Nat), j ≤ skipRendered isRenderedRq maxRq fuel j := by
  intro fuel
  induction fuel with
  | zero => intro j; simp [skipRendered]
  | succ fuel ih =>
    intro j
    simp only [skipRendered]
    split
    · exact Nat.le_trans (Nat.le_succ j) (ih (j + 1))
    · exact Nat.le_refl j

/-- With fuel `maxRq - j` the loop of lines 288-290 runs to its end: it stops at the first index
from `j` on that is `maxRq` or a render queue not yet rendered. -/
theorem skipRendered_stops (isRenderedRq : Nat → Bool) (maxRq : Nat) :
    ∀ (fuel j : Nat), maxRq - j ≤ fuel →
      ¬(skipRendered isRenderedRq maxRq fuel j < maxRq ∧
          isRenderedRq (skipRendered isRenderedRq maxRq fuel j) = true) ∧
        ∀ k, j ≤ k → k < skipRendered isRenderedRq maxRq fuel j →
          k < maxRq ∧ isRenderedRq k = true := by
  intro fuel
  induction fuel with
  | zero =>
    intro j h
    simp only [skipRendered]
    exact ⟨fun hc => by omega, fun k h1 h2 => by omega⟩
  | succ fuel ih =>
    intro j h
    simp only [skipRendered]
    by_cases hc : (decide (j < maxRq) && isRenderedRq j) = true
    · rw [if_pos hc]
      rcases ih (j + 1) (by omega) with ⟨hstop, hall⟩
      refine ⟨hstop, ?_⟩
      intro k h1 h2
      by_cases hk : k = j
      · subst hk
        simpa using hc
      · exact hall k (by omega) h2
    · rw [if_neg hc]
      refine ⟨fun hcon => hc (by simpa using hcon), fun k h1 h2 => by omega⟩

theorem boxesAfterCulling_length {Box : Type} (camera : Camera Box)
    (hcull : ∀ v i j, v.length ≤ (camera.cullReceiversBox v i j).length) :
    ∀ (calls : List (Nat × Nat)) (boxes : List Box),
      boxes.length ≤ (boxesAfterCulling camera calls boxes).length := by
  intro calls
  induction calls with
  | nil => intro boxes; simp [boxesAfterCulling]
  | cons c calls ih =>
    intro boxes
    simp only [boxesAfterCulling, List.foldl_cons]
    exact Nat.le_trans (hcull boxes c.1 c.2) (ih _)

/-- With fuel `maxRq - i` the loop of lines 284-295 ends. -/
theorem cullLoop_some {Box : Type} (camera : Camera Box) (maxRq : Nat) :
    ∀ (fuel i : Nat) (st : List (Nat × Nat) × List Box), maxRq - i ≤ fuel →
      ∃ calls, cullLoop camera maxRq fuel i st =
        some (st.1 ++ calls, boxesAfterCulling camera calls st.2) := by
  intro fuel
  induction fuel with
  | zero =>
    intro i st h
    refine ⟨[], ?_⟩
    have : ¬ i < maxRq := by omega
    simp [cullLoop, this, boxesAfterCulling]
  | succ fuel ih =>
    intro i st h
    simp only [cullLoop]
    by_cases hi : i < maxRq
    · rw [if_pos hi]
      by_cases hr : camera.isRenderedRq i = true
      · simp only [hr, Bool.not_true, Bool.false_eq_true, if_false]
        exact ih (i + 1) st (by omega)
      · have hr' : (!camera.isRenderedRq i) = true := by simpa using hr
        rw [if_pos hr']
        have hj := skipRendered_ge camera.isRenderedRq maxRq (maxRq - (i + 1)) (i + 1)
        rcases ih (skipRendered camera.isRenderedRq maxRq (maxRq - (i + 1)) (i + 1) + 1)
          (st.1 ++ [(i, skipRendered camera.isRenderedRq maxRq (maxRq - (i + 1)) (i + 1))],
            camera.cullReceiversBox st.2 i
              (skipRendered camera.isRenderedRq maxRq (maxRq - (i + 1)) (i + 1)))
          (by omega) with ⟨calls, hcalls⟩
        refine ⟨(i, skipRendered camera.isRenderedRq maxRq (maxRq - (i + 1)) (i + 1)) :: calls, ?_⟩
        simp only [hcalls, List.append_assoc, List.singleton_append, boxesAfterCulling,
          List.foldl_cons]
    · rw [if_neg hi]
      exact ⟨[], by simp [boxesAfterCulling]⟩

/-- The loop of lines 300-301 merges the boxes at `[itor, endIdx)` into the box, in order. -/
theorem mergeLoop_eq {Box : Type} (ops : BoxOps Box) (boxesVec : List Box) (endIdx : Nat)
    (hend : endIdx ≤ boxesVec.length) :
    ∀ (fuel itor : Nat) (box : Box), itor ≤ endIdx → endIdx - itor ≤ fuel →
      mergeLoop ops boxesVec endIdx fuel itor box =
        some ((boxesInRange boxesVec itor endIdx).foldl ops.merge box) := by
  intro fuel
  induction fuel with
  | zero =>
    intro itor box h1 h2
    have : itor = endIdx := by omega
    simp [mergeLoop, this, boxesInRange]
  | succ fuel ih =>
    intro itor box h1 h2
    simp only [mergeLoop]
    by_cases he : itor = endIdx
    · simp [he, boxesInRange]
    · rw [if_neg he]
      have hlt : itor < boxesVec.length := by omega
      rw [List.getElem?_eq_getElem hlt]
      simp only []
      rw [ih (itor + 1) _ (by omega) (by omega)]
      congr 1
      have hd : boxesVec.drop itor = boxesVec[itor] :: boxesVec.drop (itor + 1) :=
        List.drop_eq_getElem_cons hlt
      have hsub : endIdx - itor = (endIdx - (itor + 1)) + 1 := by omega
      simp only [boxesInRange]
      rw [hd, hsub, List.take_succ_cons, List.foldl_cons]

/-- The call `mergeReceiversBoxes` is defined when `mMinRq <= mMaxRq` and culling does not shrink
the vector of boxes; the receiver box is the merge, from the null box, of the boxes in the clamped
range. -/
theorem mergeReceiversBoxes_eq {Box : Type} (ops : BoxOps Box) (s : CompositorShadowNode Box)
    (camera : Camera Box) (hrq : s.mDefinition.mMinRq ≤ s.mDefinition.mMaxRq)
    (hcull : ∀ v i j, v.length ≤ (camera.cullReceiversBox v i j).length) :
    ∃ calls, mergeReceiversBoxes ops s camera =
      some ({ s with
        mReceiverBox :=
          List.foldl ops.merge ops.null
            (boxesInRange (boxesAfterCulling camera calls camera.receiversBoxPerRq)
              (min s.mDefinition.mMinRq camera.receiversBoxPerRq.length)
              (min s.mDefinition.mMaxRq camera.receiversBoxPerRq.length)) }, calls) := by
  unfold mergeReceiversBoxes
  rcases cullLoop_some camera (min s.mDefinition.mMaxRq camera.receiversBoxPerRq.length)
      (min s.mDefinition.mMaxRq camera.receiversBoxPerRq.length -
        min s.mDefinition.mMinRq camera.receiversBoxPerRq.length)
      (min s.mDefinition.mMinRq camera.receiversBoxPerRq.length)
      ([], camera.receiversBoxPerRq) (Nat.le_refl _) with ⟨calls, hcalls⟩
  refine ⟨calls, ?_⟩
  simp only [hcalls, List.nil_append]
  have hlen := boxesAfterCulling_length camera hcull calls camera.receiversBoxPerRq
  rw [mergeLoop_eq ops _ _ (by omega) _ _ _ (by omega) (by omega)]


/-! ## buildClosestLightList -/

/-- The result of `mergeReceiversBoxes` depends on the node through `mDefinition` only. -/
theorem mergeReceiversBoxes_congr {Box : Type} (ops : BoxOps Box)
    (s t : CompositorShadowNode Box) (camera : Camera Box) (h : s.mDefinition = t.mDefinition) :
    (mergeReceiversBoxes ops s camera).map (fun r => (r.1.mReceiverBox, r.2)) =
      (mergeReceiversBoxes ops t camera).map (fun r => (r.1.mReceiverBox, r.2)) := by
  unfold mergeReceiversBoxes
  simp only [h]
  cases cullLoop camera (min t.mDefinition.mMaxRq camera.receiversBoxPerRq.length)
      (min t.mDefinition.mMaxRq camera.receiversBoxPerRq.length -
        min t.mDefinition.mMinRq camera.receiversBoxPerRq.length)
      (min t.mDefinition.mMinRq camera.receiversBoxPerRq.length)
      ([], camera.receiversBoxPerRq) with
  | none => rfl
  | some r =>
    simp only []
    cases mergeLoop ops r.2 (min t.mDefinition.mMaxRq camera.receiversBoxPerRq.length)
        (r.2.length + 1) (min t.mDefinition.mMinRq camera.receiversBoxPerRq.length) ops.null with
    | none => rfl
    | some b => rfl

/-- A call that does not hit the memo (lines 178-181) and whose `mergeReceiversBoxes` is defined
returns the node with the remembered pair, the boxes and the selection replaced. -/
theorem buildClosestLightList_recompute {Box : Type} (ops : BoxOps Box) (lsc : Nat)
    (s : CompositorShadowNode Box) (camera : Camera Box) (frame : Nat)
    (hnew : ¬(s.mLastCamera = some camera.id ∧ s.mLastFrame = frame))
    (hrq : s.mDefinition.mMinRq ≤ s.mDefinition.mMaxRq)
    (hcull : ∀ v i j, v.length ≤ (camera.cullReceiversBox v i j).length) :
    ∃ s', buildClosestLightList ops lsc s camera frame = some s' ∧
      s'.mLastCamera = some camera.id ∧ s'.mLastFrame = frame ∧
      s'.mDefinition = s.mDefinition ∧
      s'.mShadowMapCameras = s.mShadowMapCameras ∧
      s'.mLocalTextures = s.mLocalTextures ∧
      s'.mShadowMapLightIndex =
        (selectLights lsc (camera.viewportVisibilityMask &&& camera.sceneVisibilityMask)
          s.mDefinition.mNumLights camera.globalLightList).mShadowMapLightIndex ∧
      s'.mAffectedLights =
        (selectLights lsc (camera.viewportVisibilityMask &&& camera.sceneVisibilityMask)
          s.mDefinition.mNumLights camera.globalLightList).mAffectedLights ∧
      s'.mCastersBox = camera.calculateCurrentCastersBox camera.viewportVisibilityMask
        s.mDefinition.mMinRq s.mDefinition.mMaxRq ∧
      (mergeReceiversBoxes ops s camera).map (fun r => r.1.mReceiverBox) =
        some s'.mReceiverBox := by
  rcases mergeReceiversBoxes_eq ops
      { s with mLastFrame := frame, mLastCamera := some camera.id } camera hrq hcull
    with ⟨calls, hm⟩
  have hc := mergeReceiversBoxes_congr ops s
    { s with mLastFrame := frame, mLastCamera := some camera.id } camera rfl
  unfold buildClosestLightList
  rw [if_neg hnew, hm]
  refine ⟨_, rfl, rfl, rfl, rfl, rfl, rfl, rfl, rfl, rfl, ?_⟩
  rw [hm] at hc
  cases hs : mergeReceiversBoxes ops s camera with
  | none => rw [hs] at hc; simp at hc
  | some r =>
    rw [hs] at hc
    simp only [Option.map_some', Option.some.injEq, Prod.mk.injEq] at hc ⊢
    exact hc.1

/-- After a recomputing call the selected indices and the affected bits are those of the
selection loops, which satisfy the loop invariant for the global light list of the call. -/
theorem buildClosestLightList_inv {Box : Type} (ops : BoxOps Box) (lsc : Nat)
    (s0 s : CompositorShadowNode Box) (camera : Camera Box) (frame : Nat)
    (hnew : ¬(s0.mLastCamera = some camera.id ∧ s0.mLastFrame = frame))
    (hbuild : buildClosestLightList ops lsc s0 camera frame = some s) :
    s.mDefinition = s0.mDefinition ∧
    s.mShadowMapLightIndex.Nodup ∧
    (∀ k ∈ s.mShadowMapLightIndex, k < camera.globalLightList.length) ∧
    s.mAffectedLights.length = camera.globalLightList.length ∧
    (∀ i, s.mAffectedLights[i]? = some true ↔ i ∈ s.mShadowMapLightIndex) ∧
    (s.mShadowMapLightIndex.map (fDistAt camera.globalLightList)).Pairwise
      (fun a b => a ≤ b) := by
  have hinv := selectLights_inv lsc
    (camera.viewportVisibilityMask &&& camera.sceneVisibilityMask) s0.mDefinition.mNumLights
    camera.globalLightList
  unfold buildClosestLightList at hbuild
  rw [if_neg hnew] at hbuild
  cases hm : mergeReceiversBoxes ops
      { s0 with mLastFrame := frame, mLastCamera := some camera.id } camera with
  | none => rw [hm] at hbuild; simp at hbuild
  | some r =>
    rw [hm] at hbuild
    simp only [Option.some.injEq] at hbuild
    have hr : r.1.mDefinition = s0.mDefinition := by
      unfold mergeReceiversBoxes at hm
      simp only [] at hm
      split at hm
      · simp at hm
      · split at hm
        · simp at hm
        · simp only [Option.some.injEq] at hm
          rw [← hm]
    rw [← hbuild]
    simp only [hr]
    exact ⟨trivial, hinv.nodup, hinv.inRange, hinv.affLen, hinv.aff, hinv.sorted⟩

/-! ## Claims about buildClosestLightList -/

/-- C1 (evaluation at the failing input): with two directional shadow-casting lights and
`mNumLights = 1`, so that `numLights = min( 1, 2 ) = 1`, the recomputing call leaves the two
indices 0 and 1 in `mShadowMapLightIndex`: more than `numLights`. -/
theorem buildClosestLightList_selects_more_than_numLights :
    (buildClosestLightList exampleBoxOps exampleLayerShadowCaster (exampleNode 1)
        (exampleCamera twoDirectionalLights) 1).map
      (fun s => (s.mShadowMapLightIndex,
        min s.mDefinition.mNumLights twoDirectionalLights.length)) = some ([0, 1], 1) := by
  decide

/-- C3 (evaluation at the failing input): with a point light at distance 10 stored before one
at distance 5, both shadow casters, and `mNumLights = 2`, the recomputing call selects index 0
only: rank 0 is not a nearest eligible light, and the nearer light 1 is never selected. -/
theorem buildClosestLightList_misses_nearer_light :
    (buildClosestLightList exampleBoxOps exampleLayerShadowCaster (exampleNode 2)
        (exampleCamera farThenNearLights) 1).map (fun s => s.mShadowMapLightIndex) = some [0] ∧
      passesVisibility exampleLayerShadowCaster (0xFFFFFFFF &&& 0xFFFFFFFF) 0xFFFFFFFF = true ∧
      fDistAt farThenNearLights 1 ≤ fDistAt farThenNearLights 0 ∧
      ¬ fDistAt farThenNearLights 0 ≤ fDistAt farThenNearLights 1 := by
  decide

/-- C4 (evaluation at the failing input): with a point light at distance 10 stored before a
directional light, both shadow casters, and `mNumLights = 2`, the recomputing call selects
index 0 only: rank 0 is the point light, whose distance is 10 and not `-infinity`. -/
theorem buildClosestLightList_directional_light_not_first :
    (buildClosestLightList exampleBoxOps exampleLayerShadowCaster (exampleNode 2)
        (exampleCamera pointThenDirectionalLights) 1).map
      (fun s => s.mShadowMapLightIndex.map (fDistAt pointThenDirectionalLights)) =
        some [Real.fin 10] ∧
      passesVisibility exampleLayerShadowCaster (0xFFFFFFFF &&& 0xFFFFFFFF) 0xFFFFFFFF = true ∧
      fDistAt pointThenDirectionalLights 1 = Real.negInf := by
  decide

/-- C5: after a recomputing call of `buildClosestLightList` (the camera or the frame differs
from the remembered pair) the selected indices lie inside the global light list and the
distances of the selected lights, read in rank order, are non-decreasing, `-infinity` being the
smallest value.  The call returns when `mMinRq <= mMaxRq` and culling does not shorten the
vector of per-queue boxes. -/
theorem buildClosestLightList_distances_nondecreasing {Box : Type} (ops : BoxOps Box)
    (layerShadowCaster : Nat) (s : CompositorShadowNode Box) (camera : Camera Box) (frame : Nat)
    (hnew : ¬(s.mLastCamera = some camera.id ∧ s.mLastFrame = frame)) :
    (∀ s', buildClosestLightList ops layerShadowCaster s camera frame = some s' →
      (∀ k ∈ s'.mShadowMapLightIndex, k < camera.globalLightList.length) ∧
      (s'.mShadowMapLightIndex.map (fDistAt camera.globalLightList)).Pairwise
        (fun a b => a ≤ b)) ∧
    (s.mDefinition.mMinRq ≤ s.mDefinition.mMaxRq →
      (∀ v i j, v.length ≤ (camera.cullReceiversBox v i j).length) →
      ∃ s', buildClosestLightList ops layerShadowCaster s camera frame = some s') := by
  constructor
  · intro s' hs
    rcases buildClosestLightList_inv ops layerShadowCaster s s' camera frame hnew hs
      with ⟨_, _, hrange, _, _, hsorted⟩
    exact ⟨hrange, hsorted⟩
  · intro hrq hcull
    rcases buildClosestLightList_recompute ops layerShadowCaster s camera frame hnew hrq hcull
      with ⟨s', hs, _⟩
    exact ⟨s', hs⟩

/-- Instance of `buildClosestLightList_distances_nondecreasing`: a directional light and two
point lights at distance 3 are selected, in this order. -/
theorem buildClosestLightList_distances_nondecreasing_witness :
    (¬((exampleNode 3).mLastCamera = some (exampleCamera mixedLights).id ∧
        (exampleNode 3).mLastFrame = 1) ∧
      (buildClosestLightList exampleBoxOps exampleLayerShadowCaster (exampleNode 3)
        (exampleCamera mixedLights) 1).map
          (fun s => s.mShadowMapLightIndex.map (fDistAt mixedLights)) =
        some [Real.negInf, Real.fin 3, Real.fin 3]) ∧
    ((∀ s', buildClosestLightList exampleBoxOps exampleLayerShadowCaster (exampleNode 3)
          (exampleCamera mixedLights) 1 = some s' →
        (∀ k ∈ s'.mShadowMapLightIndex, k < (exampleCamera mixedLights).globalLightList.length) ∧
        (s'.mShadowMapLightIndex.map
          (fDistAt (exampleCamera mixedLights).globalLightList)).Pairwise (fun a b => a ≤ b)) ∧
      ((exampleNode 3).mDefinition.mMinRq ≤ (exampleNode 3).mDefinition.mMaxRq →
        (∀ v i j, v.length ≤ ((exampleCamera mixedLights).cullReceiversBox v i j).length) →
        ∃ s', buildClosestLightList exampleBoxOps exampleLayerShadowCaster (exampleNode 3)
          (exampleCamera mixedLights) 1 = some s')) :=
  ⟨⟨by decide, by decide⟩,
    buildClosestLightList_distances_nondecreasing exampleBoxOps exampleLayerShadowCaster
      (exampleNode 3) (exampleCamera mixedLights) 1 (by decide)⟩

/-- C6: after any call of `buildClosestLightList` with a camera and a frame counter, (1) a
second call with the same camera identity and the same frame counter returns the node exactly
as the first call left it, whatever the scene then holds, and (2) a call whose camera identity
or frame counter differs recomputes: it remembers the new pair and takes the selected indices,
the affected bits, the receiver box and the casters box from the scene of that call. -/
theorem buildClosestLightList_memo {Box : Type} (ops : BoxOps Box) (layerShadowCaster : Nat)
    (s s1 : CompositorShadowNode Box) (camera : Camera Box) (frame : Nat)
    (h1 : buildClosestLightList ops layerShadowCaster s camera frame = some s1) :
    (∀ again : Camera Box, again.id = camera.id →
        buildClosestLightList ops layerShadowCaster s1 again frame = some s1) ∧
    (∀ (other : Camera Box) (frame2 : Nat), ¬(other.id = camera.id ∧ frame2 = frame) →
      s1.mDefinition.mMinRq ≤ s1.mDefinition.mMaxRq →
      (∀ v i j, v.length ≤ (other.cullReceiversBox v i j).length) →
      ∃ s2, buildClosestLightList ops layerShadowCaster s1 other frame2 = some s2 ∧
        s2.mLastCamera = some other.id ∧ s2.mLastFrame = frame2 ∧
        s2.mShadowMapLightIndex =
          (selectLights layerShadowCaster
            (other.viewportVisibilityMask &&& other.sceneVisibilityMask)
            s1.mDefinition.mNumLights other.globalLightList).mShadowMapLightIndex ∧
        s2.mAffectedLights =
          (selectLights layerShadowCaster
            (other.viewportVisibilityMask &&& other.sceneVisibilityMask)
            s1.mDefinition.mNumLights other.globalLightList).mAffectedLights ∧
        s2.mCastersBox = other.calculateCurrentCastersBox other.viewportVisibilityMask
          s1.mDefinition.mMinRq s1.mDefinition.mMaxRq ∧
        (mergeReceiversBoxes ops s1 other).map (fun r => r.1.mReceiverBox) =
          some s2.mReceiverBox) := by
  have hmem : s1.mLastCamera = some camera.id ∧ s1.mLastFrame = frame := by
    unfold buildClosestLightList at h1
    by_cases hhit : s.mLastCamera = some camera.id ∧ s.mLastFrame = frame
    · rw [if_pos hhit] at h1
      cases h1; exact hhit
    · rw [if_neg hhit] at h1
      cases hm : mergeReceiversBoxes ops
          { s with mLastFrame := frame, mLastCamera := some camera.id } camera with
      | none => rw [hm] at h1; simp at h1
      | some r =>
        rw [hm] at h1
        simp only [Option.some.injEq] at h1
        have hr : r.1.mLastCamera = some camera.id ∧ r.1.mLastFrame = frame := by
          unfold mergeReceiversBoxes at hm
          simp only [] at hm
          split at hm
          · simp at hm
          · split at hm
            · simp at hm
            · simp only [Option.some.injEq] at hm
              rw [← hm]; exact ⟨rfl, rfl⟩
        rw [← h1]; exact hr
  constructor
  · intro again hid
    unfold buildClosestLightList
    rw [if_pos (by rw [hid]; exact hmem)]
  · intro other frame2 hdiff hrq hcull
    have hnew : ¬(s1.mLastCamera = some other.id ∧ s1.mLastFrame = frame2) := by
      rintro ⟨hc, hf⟩
      apply hdiff
      rw [hmem.1] at hc
      rw [hmem.2] at hf
      exact ⟨(Option.some.inj hc).symm, hf.symm⟩
    rcases buildClosestLightList_recompute ops layerShadowCaster s1 other frame2 hnew hrq hcull
      with ⟨s2, hs, hcam, hfr, _, _, _, hidx, haff, hcast, hrecv⟩
    exact ⟨s2, hs, hcam, hfr, hidx, haff, hcast, hrecv⟩

/-- Instance of `buildClosestLightList_memo` after the first call of a fresh node. -/
theorem buildClosestLightList_memo_witness :
    buildClosestLightList exampleBoxOps exampleLayerShadowCaster (exampleNode 3)
        (exampleCamera mixedLights) 1 = some exampleBuiltNode ∧
    ((∀ again : Camera (List Nat), again.id = (exampleCamera mixedLights).id →
        buildClosestLightList exampleBoxOps exampleLayerShadowCaster exampleBuiltNode again 1 =
          some exampleBuiltNode) ∧
    (∀ (other : Camera (List Nat)) (frame2 : Nat),
      ¬(other.id = (exampleCamera mixedLights).id ∧ frame2 = 1) →
      exampleBuiltNode.mDefinition.mMinRq ≤ exampleBuiltNode.mDefinition.mMaxRq →
      (∀ v i j, v.length ≤ (other.cullReceiversBox v i j).length) →
      ∃ s2, buildClosestLightList exampleBoxOps exampleLayerShadowCaster exampleBuiltNode other
          frame2 = some s2 ∧
        s2.mLastCamera = some other.id ∧ s2.mLastFrame = frame2 ∧
        s2.mShadowMapLightIndex =
          (selectLights exampleLayerShadowCaster
            (other.viewportVisibilityMask &&& other.sceneVisibilityMask)
            exampleBuiltNode.mDefinition.mNumLights other.globalLightList).mShadowMapLightIndex ∧
        s2.mAffectedLights =
          (selectLights exampleLayerShadowCaster
            (other.viewportVisibilityMask &&& other.sceneVisibilityMask)
            exampleBuiltNode.mDefinition.mNumLights other.globalLightList).mAffectedLights ∧
        s2.mCastersBox = other.calculateCurrentCastersBox other.viewportVisibilityMask
          exampleBuiltNode.mDefinition.mMinRq exampleBuiltNode.mDefinition.mMaxRq ∧
        (mergeReceiversBoxes exampleBoxOps exampleBuiltNode other).map
            (fun r => r.1.mReceiverBox) = some s2.mReceiverBox)) :=
  ⟨by decide,
    buildClosestLightList_memo exampleBoxOps exampleLayerShadowCaster (exampleNode 3)
      exampleBuiltNode (exampleCamera mixedLights) 1 (by decide)⟩

/-! ## setShadowMapsToPass: the light list -/

theorem lightWindow_step (rl : List LightClosest) {itor endLight : Nat}
    (h1 : itor < endLight) (h2 : endLight ≤ rl.length) :
    ∃ l, rl[itor]? = some l ∧ lightWindow rl itor endLight = l :: lightWindow rl (itor + 1) endLight := by
  have hlt : itor < rl.length := by omega
  refine ⟨rl[itor], List.getElem?_eq_getElem hlt, ?_⟩
  have hd : rl.drop itor = rl[itor] :: rl.drop (itor + 1) := List.drop_eq_getElem_cons hlt
  have hsub : endLight - itor = (endLight - (itor + 1)) + 1 := by omega
  simp only [lightWindow]
  rw [hd, hsub, List.take_succ_cons]

/-- One pass of lines 427-432 or 437-442 appends the lights of the window whose affected bit
is the wanted one, in their order. -/
theorem pushLights_eq (aff : List Bool) (rl : List LightClosest) (wanted : Bool)
    (endLight : Nat) (hend : endLight ≤ rl.length) :
    ∀ (fuel itor : Nat) (cur : List LightClosest), itor ≤ endLight → endLight - itor ≤ fuel →
      (∀ l ∈ lightWindow rl itor endLight, l.globalIndex < aff.length) →
      pushLights aff rl wanted endLight fuel itor cur =
        some (cur ++ (lightWindow rl itor endLight).filter (fun l => isAffected aff l == wanted)) := by
  intro fuel
  induction fuel with
  | zero =>
    intro itor cur h1 h2 _
    have : itor = endLight := by omega
    simp [pushLights, this, lightWindow]
  | succ fuel ih =>
    intro itor cur h1 h2 hcover
    simp only [pushLights]
    by_cases he : itor = endLight
    · simp [he, lightWindow]
    · rw [if_neg he]
      rcases lightWindow_step rl (by omega : itor < endLight) hend with ⟨l, hl, hw⟩
      rw [hl]
      simp only []
      have hgi : l.globalIndex < aff.length := hcover l (by rw [hw]; simp)
      rw [List.getElem?_eq_getElem hgi]
      simp only []
      rw [ih (itor + 1) _ (by omega) (by omega)
        (fun l' hl' => hcover l' (by rw [hw]; exact List.mem_cons_of_mem _ hl'))]
      have haff : isAffected aff l = aff[l.globalIndex] := by
        simp [isAffected, List.getD, List.getElem?_eq_getElem hgi]
      rw [hw, List.filter_cons, haff]
      by_cases hb : (aff[l.globalIndex] == wanted) = true
      · simp [hb]
      · simp [hb]

theorem filterLightList_eq (aff : List Bool) (rl : List LightClosest)
    (lightsPerPass startLight : Nat) (hstart : startLight ≤ min lightsPerPass rl.length)
    (hcover : ∀ l ∈ lightWindow rl startLight (min lightsPerPass rl.length),
      l.globalIndex < aff.length) :
    filterLightList aff rl lightsPerPass startLight =
      some (affectedFirst aff (lightWindow rl startLight (min lightsPerPass rl.length))) := by
  unfold filterLightList
  simp only []
  rw [pushLights_eq aff rl true _ (Nat.min_le_right _ _) _ _ _ hstart (by omega) hcover]
  simp only []
  rw [pushLights_eq aff rl false _ (Nat.min_le_right _ _) _ _ _ hstart (by omega) hcover]
  simp [affectedFirst]


/-! ## setShadowMapsToPass: the texture units -/

theorem isAffected_of_getElem? {aff : List Bool} {l : LightClosest} {b : Bool}
    (h : aff[l.globalIndex]? = some b) : isAffected aff l = b := by
  simp [isAffected, h]

/-- The body of the first texture loop on a well-formed node: for a definition with a pixel
format it binds the slot texture when the light at the definition's rank of the current list
is affected, and the null shadow texture of the definition's first format otherwise. -/
theorem bindShadowMap_eq {Box : Type} (s : CompositorShadowNode Box) (cur : List LightClosest)
    (shadowIdx : Nat) (texDef : ShadowMapTexDef) (hwf : wellFormed s = true)
    (hdef : s.mDefinition.mShadowMapTexDefinitions[shadowIdx]? = some texDef)
    (hfmt : texDef.formatList ≠ [])
    (hcur : ∀ l ∈ cur, l.globalIndex < s.mAffectedLights.length) :
    ∃ smc channel tex format,
      s.mShadowMapCameras[shadowIdx]? = some smc ∧ s.mLocalTextures[shadowIdx]? = some channel ∧
      channel.textures[0]? = some tex ∧ texDef.formatList[0]? = some format ∧
      bindShadowMap s cur shadowIdx texDef =
        some (if (match cur[texDef.light]? with
                  | some l => isAffected s.mAffectedLights l
                  | none => false) = true
              then { texture := ShadowTexture.localTexture tex, projector := some smc.camera }
              else { texture := ShadowTexture.nullShadowTexture format,
                     projector := some smc.camera }) := by
  simp only [wellFormed, Bool.and_eq_true, beq_iff_eq, List.all_eq_true] at hwf
  rcases hwf with ⟨⟨hcams, htexs⟩, hall⟩
  have hlt : shadowIdx < s.mDefinition.mShadowMapTexDefinitions.length :=
    (List.getElem?_eq_some_iff.mp hdef).1
  have hd : s.mDefinition.mShadowMapTexDefinitions[shadowIdx] = texDef :=
    (List.getElem?_eq_some_iff.mp hdef).2
  have hc : shadowIdx < s.mShadowMapCameras.length := by omega
  have ht : shadowIdx < s.mLocalTextures.length := by omega
  have hzip : (texDef, s.mLocalTextures[shadowIdx]) ∈
      s.mDefinition.mShadowMapTexDefinitions.zip s.mLocalTextures := by
    have hz : shadowIdx < (s.mDefinition.mShadowMapTexDefinitions.zip s.mLocalTextures).length := by
      simp [List.length_zip]; omega
    have := List.getElem_mem hz
    rwa [List.getElem_zip, hd] at this
  have hlen := hall _ hzip
  simp only [] at hlen
  have hfl : 0 < texDef.formatList.length := List.length_pos.mpr hfmt
  have htl : 0 < (s.mLocalTextures[shadowIdx]).textures.length := by omega
  refine ⟨s.mShadowMapCameras[shadowIdx], s.mLocalTextures[shadowIdx],
    (s.mLocalTextures[shadowIdx]).textures[0], texDef.formatList[0],
    List.getElem?_eq_getElem hc, List.getElem?_eq_getElem ht,
    List.getElem?_eq_getElem htl, List.getElem?_eq_getElem hfl, ?_⟩
  unfold bindShadowMap
  rw [List.getElem?_eq_getElem hc]
  simp only []
  by_cases hr : texDef.light < cur.length
  · rw [if_pos hr, List.getElem?_eq_getElem hr]
    simp only []
    have hgi : (cur[texDef.light]).globalIndex < s.mAffectedLights.length :=
      hcur _ (List.getElem_mem hr)
    rw [List.getElem?_eq_getElem hgi]
    have haff : isAffected s.mAffectedLights cur[texDef.light] =
        s.mAffectedLights[(cur[texDef.light]).globalIndex] :=
      isAffected_of_getElem? (List.getElem?_eq_getElem hgi)
    generalize s.mAffectedLights[(cur[texDef.light]).globalIndex] = b at haff ⊢
    simp only [haff]
    cases b with
    | true =>
      simp only [List.getElem?_eq_getElem ht, List.getElem?_eq_getElem htl, if_true]
    | false =>
      simp only [List.getElem?_eq_getElem hfl]
      simp
  · rw [if_neg hr]
    have hnone : cur[texDef.light]? = none := List.getElem?_eq_none (by omega)
    rw [hnone]
    simp only [List.getElem?_eq_getElem hfl]
    simp

/-- The first texture loop, on a node where every round is defined: it returns the units it
started with followed by one unit per round, round `shadowIdx` binding what `bindShadowMap`
gives for the definition at `shadowIdx`. -/
theorem bindShadowMaps_spec {Box : Type} (s : CompositorShadowNode Box)
    (cur : List LightClosest) (num : Nat)
    (hdefined : ∀ i d, s.mDefinition.mShadowMapTexDefinitions[i]? = some d → i < num →
      ∃ u, bindShadowMap s cur i d = some u) :
    ∀ (rest : List ShadowMapTexDef) (k : Nat) (units : List ShadowTexUnit),
      (∀ i d, rest[i]? = some d → s.mDefinition.mShadowMapTexDefinitions[k + i]? = some d) →
      units.length = k →
      ∃ out, bindShadowMaps s cur num k rest units = some out ∧
        units.length ≤ out.length ∧
        (∀ i, i < k → out[i]? = units[i]?) ∧
        (∀ i d, rest[i]? = some d → k + i < num →
          out[k + i]? = bindShadowMap s cur (k + i) d) := by
  intro rest
  induction rest with
  | nil =>
    intro k units _ _
    exact ⟨units, rfl, Nat.le_refl _, fun _ _ => rfl, fun i d h _ => by simp at h⟩
  | cons texDef rest ih =>
    intro k units hrest hlen
    simp only [bindShadowMaps]
    by_cases hk : k < num
    · rw [if_pos hk]
      have h0 := hrest 0 texDef (by simp)
      rcases hdefined k texDef (by simpa using h0) hk with ⟨u, hu⟩
      rw [hu]
      simp only []
      rcases ih (k + 1) (units ++ [u])
          (fun i d hi => by
            have := hrest (i + 1) d (by simpa using hi)
            rw [← this]; congr 1; omega)
          (by simp [hlen]) with ⟨out, hout, hle, hkeep, hnew⟩
      refine ⟨out, hout, ?_, ?_, ?_⟩
      · simp only [List.length_append, List.length_singleton] at hle; omega
      · intro i hi
        rw [hkeep i (by omega), List.getElem?_append_left (by omega)]
      · intro i d hi hlt
        cases i with
        | zero =>
          simp only [List.getElem?_cons_zero, Option.some.injEq] at hi
          rw [Nat.add_zero, hkeep k (by omega), ← hi, hu,
            List.getElem?_append_right (by omega)]
          simp [hlen]
        | succ i =>
          have := hnew i d (by simpa using hi) (by omega)
          rw [show k + (i + 1) = k + 1 + i by omega]
          exact this
    · rw [if_neg hk]
      refine ⟨units, rfl, Nat.le_refl _, fun _ _ => rfl, ?_⟩
      intro i d _ hlt
      omega

/-- On a node as the constructor leaves it whose definitions all have a pixel format, for a
window inside the renderable lights whose global indices the affected bits cover,
`setShadowMapsToPass` is defined: it leaves the stable partition of the window in
`mCurrentLightList` and binds to each unit below the number of definitions what
`bindShadowMap` gives for it. -/
theorem setShadowMapsToPass_eq {Box : Type} (pfR8G8B8A8 : PixelFormat)
    (s : CompositorShadowNode Box) (renderableLights : List LightClosest) (pass : Pass)
    (startLight : Nat) (hwf : wellFormed s = true)
    (hfmt : ∀ d ∈ s.mDefinition.mShadowMapTexDefinitions, d.formatList ≠ [])
    (hstart : startLight ≤ min pass.maxSimultaneousLights renderableLights.length)
    (hcover : ∀ l ∈ lightWindow renderableLights startLight
        (min pass.maxSimultaneousLights renderableLights.length),
      l.globalIndex < s.mAffectedLights.length) :
    ∃ units, setShadowMapsToPass pfR8G8B8A8 s renderableLights pass startLight =
        some ({ s with
          mCurrentLightList :=
            affectedFirst s.mAffectedLights (lightWindow renderableLights startLight
              (min pass.maxSimultaneousLights renderableLights.length)) }, units) ∧
      (∀ l ∈ affectedFirst s.mAffectedLights (lightWindow renderableLights startLight
          (min pass.maxSimultaneousLights renderableLights.length)),
        l.globalIndex < s.mAffectedLights.length) ∧
      ∀ i d, s.mDefinition.mShadowMapTexDefinitions[i]? = some d →
        i < pass.numShadowContentTextures →
        units[i]? = bindShadowMap s (affectedFirst s.mAffectedLights
          (lightWindow renderableLights startLight
            (min pass.maxSimultaneousLights renderableLights.length))) i d := by
  have hf := filterLightList_eq s.mAffectedLights renderableLights pass.maxSimultaneousLights
    startLight hstart hcover
  have hcur : ∀ l ∈ affectedFirst s.mAffectedLights (lightWindow renderableLights startLight
      (min pass.maxSimultaneousLights renderableLights.length)),
      l.globalIndex < s.mAffectedLights.length := by
    intro l hl
    apply hcover
    exact (List.Perm.mem_iff (List.filter_append_perm _ _)).mp hl
  have hdefined : ∀ i d, s.mDefinition.mShadowMapTexDefinitions[i]? = some d →
      i < pass.numShadowContentTextures →
      ∃ u, bindShadowMap s (affectedFirst s.mAffectedLights (lightWindow renderableLights
        startLight (min pass.maxSimultaneousLights renderableLights.length))) i d = some u := by
    intro i d hd _
    rcases bindShadowMap_eq s _ i d hwf hd (hfmt d (List.getElem?_mem hd)) hcur
      with ⟨_, _, _, _, _, _, _, _, h⟩
    exact ⟨_, h⟩
  rcases bindShadowMaps_spec s _ pass.numShadowContentTextures hdefined
      s.mDefinition.mShadowMapTexDefinitions 0 []
      (fun i d hi => by simpa using hi) rfl with ⟨out, hout, _, _, hnewUnits⟩
  refine ⟨bindBlankShadowMaps pfR8G8B8A8 pass.numShadowContentTextures out, ?_, hcur, ?_⟩
  · unfold setShadowMapsToPass
    rw [hf]
    simp only []
    rw [hout]
  · intro i d hd hi
    have hunitAt := hnewUnits i d hd (by omega)
    rw [Nat.zero_add] at hunitAt
    rcases hdefined i d hd hi with ⟨u, hu⟩
    rw [hu] at hunitAt
    unfold bindBlankShadowMaps
    have hlt : i < out.length := by
      rcases List.getElem?_eq_some_iff.mp hunitAt with ⟨h, _⟩
      exact h
    rw [List.getElem?_append_left hlt, hu]
    exact hunitAt

/-- Pigeonhole: when the window has pairwise distinct global indices and the affected bits mark
exactly the members of a duplicate-free index list, the window holds no more affected lights
than the index list has members. -/
theorem affected_in_window_le (aff : List Bool) (index : List Nat)
    (window : List LightClosest)
    (haff : ∀ i, aff[i]? = some true ↔ i ∈ index)
    (hdistinct : (window.map (fun l => l.globalIndex)).Nodup) :
    (window.filter (fun l => isAffected aff l)).length ≤ index.length := by
  have hnd : ((window.filter (fun l => isAffected aff l)).map (fun l => l.globalIndex)).Nodup :=
    List.Nodup.sublist ((List.filter_sublist window).map _) hdistinct
  have hsub : (window.filter (fun l => isAffected aff l)).map (fun l => l.globalIndex) ⊆ index := by
    intro g hg
    rcases List.mem_map.mp hg with ⟨l, hl, rfl⟩
    have hl2 := (List.mem_filter.mp hl).2
    apply (haff l.globalIndex).mp
    simp only [isAffected, List.getD_eq_getElem?_getD] at hl2
    cases hx : aff[l.globalIndex]? with
    | none => rw [hx] at hl2; simp at hl2
    | some b => rw [hx] at hl2; simp at hl2; rw [hl2]
  have := (List.subperm_of_subset hnd hsub).length_le
  simpa using this

/-- In the stable partition, a position at or beyond the number of affected lights holds a
non-affected light or nothing. -/
theorem affectedFirst_not_affected (aff : List Bool) (window : List LightClosest) (r : Nat)
    (hr : (window.filter (fun l => isAffected aff l)).length ≤ r) :
    (match (affectedFirst aff window)[r]? with
      | some l => isAffected aff l
      | none => false) = false := by
  unfold affectedFirst
  rw [List.getElem?_append_right hr]
  cases hx : (window.filter (fun l => !isAffected aff l))[r -
      (window.filter (fun l => isAffected aff l)).length]? with
  | none => rfl
  | some l =>
    have hmem := List.getElem?_mem hx
    have := (List.mem_filter.mp hmem).2
    simpa using this


/-! ## Claims about setShadowMapsToPass -/

/-- C2: for a window `[startLight, endLight)` of the renderable lights, with
`endLight = min( lightsPerPass, size )` as `setShadowMapsToPass` takes it, and an affected
bitset covering the global indices of the window, the light list built by
`setShadowMapsToPass` is the window's affected lights in their original order followed by the
window's non-affected lights in their original order; it is a permutation of the window and
no non-affected light precedes an affected one.  The call as a whole is defined on a node as the
constructor leaves it whose definitions all have a pixel format. -/
theorem setShadowMapsToPass_stable_partition {Box : Type} (pfR8G8B8A8 : PixelFormat)
    (s : CompositorShadowNode Box) (renderableLights : List LightClosest) (pass : Pass)
    (startLight : Nat)
    (hstart : startLight ≤ min pass.maxSimultaneousLights renderableLights.length)
    (hcover : ∀ l ∈ lightWindow renderableLights startLight
        (min pass.maxSimultaneousLights renderableLights.length),
      l.globalIndex < s.mAffectedLights.length) :
    filterLightList s.mAffectedLights renderableLights pass.maxSimultaneousLights startLight =
        some (affectedFirst s.mAffectedLights (lightWindow renderableLights startLight
          (min pass.maxSimultaneousLights renderableLights.length))) ∧
      (∀ s' units, setShadowMapsToPass pfR8G8B8A8 s renderableLights pass startLight =
          some (s', units) →
        s'.mCurrentLightList = affectedFirst s.mAffectedLights (lightWindow renderableLights
          startLight (min pass.maxSimultaneousLights renderableLights.length))) ∧
      (affectedFirst s.mAffectedLights (lightWindow renderableLights startLight
          (min pass.maxSimultaneousLights renderableLights.length))).Perm
        (lightWindow renderableLights startLight
          (min pass.maxSimultaneousLights renderableLights.length)) ∧
      (affectedFirst s.mAffectedLights (lightWindow renderableLights startLight
          (min pass.maxSimultaneousLights renderableLights.length))).Pairwise
        (fun a b => isAffected s.mAffectedLights b = true →
          isAffected s.mAffectedLights a = true) ∧
      (wellFormed s = true →
        (∀ d ∈ s.mDefinition.mShadowMapTexDefinitions, d.formatList ≠ []) →
        ∃ s' units, setShadowMapsToPass pfR8G8B8A8 s renderableLights pass startLight =
          some (s', units)) := by
  have hf := filterLightList_eq s.mAffectedLights renderableLights pass.maxSimultaneousLights
    startLight hstart hcover
  refine ⟨hf, ?_, ?_, ?_, ?_⟩
  rotate_right
  · intro hwf hfmt
    rcases setShadowMapsToPass_eq pfR8G8B8A8 s renderableLights pass startLight hwf hfmt
      hstart hcover with ⟨units, h, _⟩
    exact ⟨_, units, h⟩
  · intro s' units h
    unfold setShadowMapsToPass at h
    rw [hf] at h
    simp only [] at h
    split at h
    · simp at h
    · simp only [Option.some.injEq, Prod.mk.injEq] at h
      rw [← h.1]
  · exact List.filter_append_perm _ _
  · unfold affectedFirst
    rw [List.pairwise_append]
    refine ⟨?_, ?_, ?_⟩
    · apply List.Pairwise.imp_of_mem (R := fun _ _ => True)
      · intro a b ha _ _ _
        simpa using (List.mem_filter.mp ha).2
      · exact List.pairwise_of_forall (fun _ _ => trivial)
    · apply List.Pairwise.imp_of_mem (R := fun _ _ => True)
      · intro a b _ hb _ hab
        have := (List.mem_filter.mp hb).2
        simp [hab] at this
      · exact List.pairwise_of_forall (fun _ _ => trivial)
    · intro a ha b _ _
      simpa using (List.mem_filter.mp ha).2

/-- Instance of `setShadowMapsToPass_stable_partition`: the window with the global indices
3, 1, 0, 2, of which 3 is not affected, becomes 1, 0, 2, 3. -/
theorem setShadowMapsToPass_stable_partition_witness :
    (0 ≤ min examplePass.maxSimultaneousLights exampleRenderableLights.length ∧
      (∀ l ∈ lightWindow exampleRenderableLights 0
          (min examplePass.maxSimultaneousLights exampleRenderableLights.length),
        l.globalIndex < exampleBuiltNode.mAffectedLights.length) ∧
      (setShadowMapsToPass 28 exampleBuiltNode exampleRenderableLights examplePass 0).map
          (fun r => r.1.mCurrentLightList.map (fun l => l.globalIndex)) = some [1, 0, 2, 3]) ∧
    (filterLightList exampleBuiltNode.mAffectedLights exampleRenderableLights
          examplePass.maxSimultaneousLights 0 =
        some (affectedFirst exampleBuiltNode.mAffectedLights (lightWindow exampleRenderableLights 0
          (min examplePass.maxSimultaneousLights exampleRenderableLights.length))) ∧
      (∀ s' units, setShadowMapsToPass 28 exampleBuiltNode exampleRenderableLights examplePass 0 =
          some (s', units) →
        s'.mCurrentLightList = affectedFirst exampleBuiltNode.mAffectedLights
          (lightWindow exampleRenderableLights 0
            (min examplePass.maxSimultaneousLights exampleRenderableLights.length))) ∧
      (affectedFirst exampleBuiltNode.mAffectedLights (lightWindow exampleRenderableLights 0
          (min examplePass.maxSimultaneousLights exampleRenderableLights.length))).Perm
        (lightWindow exampleRenderableLights 0
          (min examplePass.maxSimultaneousLights exampleRenderableLights.length)) ∧
      (affectedFirst exampleBuiltNode.mAffectedLights (lightWindow exampleRenderableLights 0
          (min examplePass.maxSimultaneousLights exampleRenderableLights.length))).Pairwise
        (fun a b => isAffected exampleBuiltNode.mAffectedLights b = true →
          isAffected exampleBuiltNode.mAffectedLights a = true) ∧
      (wellFormed exampleBuiltNode = true →
        (∀ d ∈ exampleBuiltNode.mDefinition.mShadowMapTexDefinitions, d.formatList ≠ []) →
        ∃ s' units, setShadowMapsToPass 28 exampleBuiltNode exampleRenderableLights examplePass
          0 = some (s', units))) :=
  ⟨⟨by decide, by decide, by decide⟩,
    setShadowMapsToPass_stable_partition 28 exampleBuiltNode exampleRenderableLights examplePass 0
      (by decide) (by decide)⟩

/-- C7: on a node left by a recomputing `buildClosestLightList` and well formed as the
constructor leaves it, with every definition having a pixel format, for a renderable whose
window entries have pairwise distinct global indices inside the global light list, and for a
shadow-map definition at `shadowIdx` (below the pass's number of shadow texture units) whose
light rank is not below the number of selected lights: `setShadowMapsToPass` is defined and
binds to unit `shadowIdx` the null shadow texture of the definition's first format, not the
slot's rendered texture. -/
theorem setShadowMapsToPass_null_beyond_selected {Box : Type} (ops : BoxOps Box)
    (layerShadowCaster : Nat) (pfR8G8B8A8 : PixelFormat) (s0 s : CompositorShadowNode Box)
    (camera : Camera Box) (frame : Nat) (renderableLights : List LightClosest) (pass : Pass)
    (startLight shadowIdx : Nat) (texDef : ShadowMapTexDef)
    (hnew : ¬(s0.mLastCamera = some camera.id ∧ s0.mLastFrame = frame))
    (hbuild : buildClosestLightList ops layerShadowCaster s0 camera frame = some s)
    (hwf : wellFormed s = true)
    (hfmt : ∀ d ∈ s.mDefinition.mShadowMapTexDefinitions, d.formatList ≠ [])
    (hstart : startLight ≤ min pass.maxSimultaneousLights renderableLights.length)
    (hrange : ∀ l ∈ lightWindow renderableLights startLight
        (min pass.maxSimultaneousLights renderableLights.length),
      l.globalIndex < camera.globalLightList.length)
    (hdistinct : ((lightWindow renderableLights startLight
        (min pass.maxSimultaneousLights renderableLights.length)).map
          (fun l => l.globalIndex)).Nodup)
    (hdef : s.mDefinition.mShadowMapTexDefinitions[shadowIdx]? = some texDef)
    (hunit : shadowIdx < pass.numShadowContentTextures)
    (hrank : s.mShadowMapLightIndex.length ≤ texDef.light) :
    ∃ s' units format slot,
      setShadowMapsToPass pfR8G8B8A8 s renderableLights pass startLight = some (s', units) ∧
      texDef.formatList[0]? = some format ∧
      s.mShadowMapCameras[shadowIdx]? = some slot ∧
      units[shadowIdx]? = some { texture := ShadowTexture.nullShadowTexture format,
                                 projector := some slot.camera } := by
  rcases buildClosestLightList_inv ops layerShadowCaster s0 s camera frame hnew hbuild
    with ⟨_, _, _, hlen, haff, _⟩
  have hcover : ∀ l ∈ lightWindow renderableLights startLight
      (min pass.maxSimultaneousLights renderableLights.length),
      l.globalIndex < s.mAffectedLights.length := by
    intro l hl; rw [hlen]; exact hrange l hl
  rcases setShadowMapsToPass_eq pfR8G8B8A8 s renderableLights pass startLight hwf hfmt hstart
    hcover with ⟨units, hset, hcur, hunits⟩
  rcases bindShadowMap_eq s _ shadowIdx texDef hwf hdef (hfmt texDef (List.getElem?_mem hdef))
      hcur with ⟨slot, _, _, format, hslot, _, _, hformat, hbind⟩
  have hle := affected_in_window_le s.mAffectedLights s.mShadowMapLightIndex
    (lightWindow renderableLights startLight
      (min pass.maxSimultaneousLights renderableLights.length)) haff hdistinct
  have hna := affectedFirst_not_affected s.mAffectedLights
    (lightWindow renderableLights startLight
      (min pass.maxSimultaneousLights renderableLights.length)) texDef.light (by omega)
  rw [hna] at hbind
  simp only [Bool.false_eq_true, if_false] at hbind
  have hunitAt := hunits shadowIdx texDef hdef hunit
  rw [hbind] at hunitAt
  exact ⟨_, units, format, slot, hset, hformat, hslot, hunitAt⟩

/-- Instance of `setShadowMapsToPass_null_beyond_selected`: three lights are selected; the
shadow map at index 3 is bound to rank 3 and its unit receives the null texture of format 14. -/
theorem setShadowMapsToPass_null_beyond_selected_witness :
    (¬((exampleNode 3).mLastCamera = some (exampleCamera mixedLights).id ∧
        (exampleNode 3).mLastFrame = 1) ∧
      buildClosestLightList exampleBoxOps exampleLayerShadowCaster (exampleNode 3)
        (exampleCamera mixedLights) 1 = some exampleBuiltNode ∧
      wellFormed exampleBuiltNode = true ∧
      (∀ d ∈ exampleBuiltNode.mDefinition.mShadowMapTexDefinitions, d.formatList ≠ []) ∧
      0 ≤ min examplePass.maxSimultaneousLights exampleRenderableLights.length ∧
      (∀ l ∈ lightWindow exampleRenderableLights 0
          (min examplePass.maxSimultaneousLights exampleRenderableLights.length),
        l.globalIndex < (exampleCamera mixedLights).globalLightList.length) ∧
      ((lightWindow exampleRenderableLights 0
          (min examplePass.maxSimultaneousLights exampleRenderableLights.length)).map
            (fun l => l.globalIndex)).Nodup ∧
      exampleBuiltNode.mDefinition.mShadowMapTexDefinitions[3]? =
        some exampleTexDefRank3 ∧
      3 < examplePass.numShadowContentTextures ∧
      exampleBuiltNode.mShadowMapLightIndex.length ≤ 3 ∧
      (setShadowMapsToPass 28 exampleBuiltNode exampleRenderableLights examplePass 0).map
          (fun r => r.2) =
        some [{ texture := ShadowTexture.localTexture 200, projector := some 100 },
              { texture := ShadowTexture.localTexture 201, projector := some 101 },
              { texture := ShadowTexture.localTexture 202, projector := some 100 },
              { texture := ShadowTexture.nullShadowTexture 14, projector := some 103 }]) ∧
    ∃ s' units format slot,
      setShadowMapsToPass 28 exampleBuiltNode exampleRenderableLights examplePass 0 =
        some (s', units) ∧
      exampleTexDefRank3.formatList[0]? =
        some format ∧
      exampleBuiltNode.mShadowMapCameras[3]? = some slot ∧
      units[3]? = some { texture := ShadowTexture.nullShadowTexture format,
                         projector := some slot.camera } :=
  ⟨⟨by decide, by decide, by decide, by decide, by decide, by decide, by decide, by decide,
      by decide, by decide, by decide⟩,
    setShadowMapsToPass_null_beyond_selected exampleBoxOps exampleLayerShadowCaster 28
      (exampleNode 3) exampleBuiltNode (exampleCamera mixedLights) 1 exampleRenderableLights
      examplePass 0 3 exampleTexDefRank3
      (by decide) (by decide) (by decide) (by decide) (by decide) (by decide) (by decide)
      (by decide) (by decide) (by decide)⟩

/-! ## Claim about getMinMaxDepthRange -/

theorem getMinMaxDepthRangeLoop_none (c : Nat) :
    ∀ slots : List ShadowMapCamera, (∀ slot ∈ slots, slot.camera ≠ c) →
      getMinMaxDepthRangeLoop c slots = (Real.fin 0, Real.fin 100000) := by
  intro slots
  induction slots with
  | nil => intro _; rfl
  | cons slot rest ih =>
    intro h
    simp only [getMinMaxDepthRangeLoop]
    rw [if_neg (h slot (List.mem_cons_self _ _))]
    exact ih (fun x hx => h x (List.mem_cons_of_mem _ hx))

theorem getMinMaxDepthRangeLoop_first (c : Nat) :
    ∀ (slots : List ShadowMapCamera) (i : Nat) (slot : ShadowMapCamera),
      slots[i]? = some slot → slot.camera = c →
      (∀ k sk, k < i → slots[k]? = some sk → sk.camera ≠ c) →
      getMinMaxDepthRangeLoop c slots = (slot.minDistance, slot.maxDistance) := by
  intro slots
  induction slots with
  | nil => intro i slot h; simp at h
  | cons head rest ih =>
    intro i slot hi hc hbefore
    simp only [getMinMaxDepthRangeLoop]
    cases i with
    | zero =>
      simp only [List.getElem?_cons_zero, Option.some.injEq] at hi
      rw [hi, if_pos hc]
    | succ i =>
      rw [if_neg (hbefore 0 head (Nat.succ_pos i) (by simp))]
      apply ih i slot (by simpa using hi) hc
      intro k sk hk hsk
      exact hbefore (k + 1) sk (by omega) (by simpa using hsk)

/-- C8: `getMinMaxDepthRange` returns the recorded `(minDistance, maxDistance)` of the first
slot whose camera is the queried one, and `(0, 100000)` when no slot has that camera.  It is a
total function of the node and the camera: it always returns, and it returns no new node, the
slot table being only read. -/
theorem getMinMaxDepthRange_first_slot {Box : Type} (s : CompositorShadowNode Box)
    (shadowMapCamera : Nat) :
    (∀ (i : Nat) (slot : ShadowMapCamera), s.mShadowMapCameras[i]? = some slot →
        slot.camera = shadowMapCamera →
        (∀ k sk, k < i → s.mShadowMapCameras[k]? = some sk → sk.camera ≠ shadowMapCamera) →
        getMinMaxDepthRange s shadowMapCamera = (slot.minDistance, slot.maxDistance)) ∧
    ((∀ slot ∈ s.mShadowMapCameras, slot.camera ≠ shadowMapCamera) →
        getMinMaxDepthRange s shadowMapCamera = (Real.fin 0, Real.fin 100000)) :=
  ⟨fun i slot hi hc hb => getMinMaxDepthRangeLoop_first shadowMapCamera _ i slot hi hc hb,
    fun h => getMinMaxDepthRangeLoop_none shadowMapCamera _ h⟩

/-! ## Claims about mergeReceiversBoxes -/

/-- C9 (evaluation at the failing input): for the range `[2, 5)`, six per-queue boxes and only
render queue 3 already rendered, `mergeReceiversBoxes` issues the single call
`_cullReceiversBox( camera, 2, 4 )`: the rendered queue 3 is culled and the queue 4, which was
not rendered, is not. -/
theorem mergeReceiversBoxes_culls_rendered_queue :
    (mergeReceiversBoxes exampleBoxOps (exampleNode 1) (exampleCamera [])).map (fun r => r.2) =
        some [(2, 4)] ∧
      (exampleCamera ([] : List GlobalLight)).isRenderedRq 3 = true ∧
      (exampleCamera ([] : List GlobalLight)).isRenderedRq 4 = false ∧
      (exampleCamera ([] : List GlobalLight)).isRenderedRq 2 = false := by
  decide

theorem boxesAfterCulling_id {Box : Type} (camera : Camera Box)
    (hid : ∀ v i j, camera.cullReceiversBox v i j = v) :
    ∀ (calls : List (Nat × Nat)) (boxes : List Box),
      boxesAfterCulling camera calls boxes = boxes := by
  intro calls
  induction calls with
  | nil => intro boxes; rfl
  | cons c calls ih =>
    intro boxes
    simp only [boxesAfterCulling, List.foldl_cons]
    rw [hid]
    exact ih boxes

/-- C10: with `mMinRq <= mMaxRq` and a vector of `n` per-queue boxes that the culling calls do
not shorten, `mergeReceiversBoxes` reads no box outside the vector (it is defined) and leaves
in `mReceiverBox` the merge, starting from the null box, of the boxes at the indices
`[min( mMinRq, n ), min( mMaxRq, n ))` as they are after the culling calls (which are the boxes
of the vector itself when culling leaves them alone); when that range is empty the receiver
box is the null box, whatever it held before. -/
theorem mergeReceiversBoxes_receiverBox {Box : Type} (ops : BoxOps Box)
    (s : CompositorShadowNode Box) (camera : Camera Box)
    (hrq : s.mDefinition.mMinRq ≤ s.mDefinition.mMaxRq)
    (hcull : ∀ v i j, v.length ≤ (camera.cullReceiversBox v i j).length) :
    ∃ s' calls, mergeReceiversBoxes ops s camera = some (s', calls) ∧
      s'.mReceiverBox = List.foldl ops.merge ops.null
        (boxesInRange (boxesAfterCulling camera calls camera.receiversBoxPerRq)
          (min s.mDefinition.mMinRq camera.receiversBoxPerRq.length)
          (min s.mDefinition.mMaxRq camera.receiversBoxPerRq.length)) ∧
      ((∀ v i j, camera.cullReceiversBox v i j = v) →
        s'.mReceiverBox = List.foldl ops.merge ops.null
          (boxesInRange camera.receiversBoxPerRq
            (min s.mDefinition.mMinRq camera.receiversBoxPerRq.length)
            (min s.mDefinition.mMaxRq camera.receiversBoxPerRq.length))) ∧
      (min s.mDefinition.mMinRq camera.receiversBoxPerRq.length =
          min s.mDefinition.mMaxRq camera.receiversBoxPerRq.length →
        s'.mReceiverBox = ops.null) := by
  rcases mergeReceiversBoxes_eq ops s camera hrq hcull with ⟨calls, h⟩
  refine ⟨_, calls, h, rfl, ?_, ?_⟩
  · intro hid
    simp only [boxesAfterCulling_id camera hid]
  · intro hempty
    simp only [boxesInRange, hempty, Nat.sub_self, List.take_zero, List.foldl_nil]

/-- Instance of `mergeReceiversBoxes_receiverBox`: with three boxes the range `[2, 5)` is
clamped to `[2, 3)`; with six boxes the queues 2, 3, 4 are merged. -/
theorem mergeReceiversBoxes_receiverBox_witness :
    ((exampleNode 1).mDefinition.mMinRq ≤ (exampleNode 1).mDefinition.mMaxRq ∧
      (∀ v i j, v.length ≤ (shortCamera.cullReceiversBox v i j).length) ∧
      (mergeReceiversBoxes exampleBoxOps (exampleNode 1) shortCamera).map
          (fun r => r.1.mReceiverBox) = some [2] ∧
      (mergeReceiversBoxes exampleBoxOps (exampleNode 1) (exampleCamera [])).map
          (fun r => r.1.mReceiverBox) = some [2, 3, 4]) ∧
    ∃ s' calls, mergeReceiversBoxes exampleBoxOps (exampleNode 1) shortCamera =
        some (s', calls) ∧
      s'.mReceiverBox = List.foldl exampleBoxOps.merge exampleBoxOps.null
        (boxesInRange (boxesAfterCulling shortCamera calls shortCamera.receiversBoxPerRq)
          (min (exampleNode 1).mDefinition.mMinRq shortCamera.receiversBoxPerRq.length)
          (min (exampleNode 1).mDefinition.mMaxRq shortCamera.receiversBoxPerRq.length)) ∧
      ((∀ v i j, shortCamera.cullReceiversBox v i j = v) →
        s'.mReceiverBox = List.foldl exampleBoxOps.merge exampleBoxOps.null
          (boxesInRange shortCamera.receiversBoxPerRq
            (min (exampleNode 1).mDefinition.mMinRq shortCamera.receiversBoxPerRq.length)
            (min (exampleNode 1).mDefinition.mMaxRq shortCamera.receiversBoxPerRq.length))) ∧
      (min (exampleNode 1).mDefinition.mMinRq shortCamera.receiversBoxPerRq.length =
          min (exampleNode 1).mDefinition.mMaxRq shortCamera.receiversBoxPerRq.length →
        s'.mReceiverBox = exampleBoxOps.null) :=
  ⟨⟨by decide, fun _ _ _ => Nat.le_refl _, by decide, by decide⟩,
    mergeReceiversBoxes_receiverBox exampleBoxOps (exampleNode 1) shortCamera (by decide)
      (fun _ _ _ => Nat.le_refl _)⟩

/-! ## Claims about the texture units and the window of setShadowMapsToPass -/

/-- The first texture loop binds one unit per definition, up to the number of shadow texture
units of the pass. -/
theorem bindShadowMaps_length {Box : Type} (s : CompositorShadowNode Box)
    (cur : List LightClosest) (num : Nat) :
    ∀ (rest : List ShadowMapTexDef) (k : Nat) (units out : List ShadowTexUnit),
      units.length = k → bindShadowMaps s cur num k rest units = some out →
      out.length = k + min rest.length (num - k) := by
  intro rest
  induction rest with
  | nil =>
    intro k units out hlen h
    simp only [bindShadowMaps, Option.some.injEq] at h
    simp [← h, hlen]
  | cons texDef rest ih =>
    intro k units out hlen h
    simp only [bindShadowMaps] at h
    by_cases hk : k < num
    · rw [if_pos hk] at h
      cases hb : bindShadowMap s cur k texDef with
      | none => rw [hb] at h; simp at h
      | some u =>
        rw [hb] at h
        simp only [] at h
        have := ih (k + 1) (units ++ [u]) out (by simp [hlen]) h
        rw [this]
        simp only [List.length_cons]
        omega
    · rw [if_neg hk] at h
      simp only [Option.some.injEq] at h
      rw [← h, hlen]
      omega

/-- Units at or beyond the number of definitions receive the null shadow texture of format
`PF_R8G8B8A8` and no projector (lines 486-501). -/
theorem setShadowMapsToPass_blank {Box : Type} (pfR8G8B8A8 : PixelFormat)
    (s s' : CompositorShadowNode Box) (renderableLights : List LightClosest) (pass : Pass)
    (startLight : Nat) (units : List ShadowTexUnit)
    (h : setShadowMapsToPass pfR8G8B8A8 s renderableLights pass startLight = some (s', units)) :
    units.length = max pass.numShadowContentTextures
        (min s.mDefinition.mShadowMapTexDefinitions.length pass.numShadowContentTextures) ∧
    ∀ u, s.mDefinition.mShadowMapTexDefinitions.length ≤ u →
      u < pass.numShadowContentTextures →
      units[u]? = some { texture := ShadowTexture.nullShadowTexture pfR8G8B8A8,
                         projector := none } := by
  unfold setShadowMapsToPass at h
  cases hf : filterLightList s.mAffectedLights renderableLights pass.maxSimultaneousLights
      startLight with
  | none => rw [hf] at h; simp at h
  | some cur =>
    rw [hf] at h
    simp only [] at h
    cases hb : bindShadowMaps s cur pass.numShadowContentTextures 0
        s.mDefinition.mShadowMapTexDefinitions [] with
    | none => rw [hb] at h; simp at h
    | some out =>
      rw [hb] at h
      simp only [Option.some.injEq, Prod.mk.injEq] at h
      have hlen := bindShadowMaps_length s cur pass.numShadowContentTextures
        s.mDefinition.mShadowMapTexDefinitions 0 [] out rfl hb
      rw [← h.2]
      unfold bindBlankShadowMaps
      constructor
      · simp only [List.length_append, List.length_replicate, hlen]
        omega
      · intro u hu hnum
        rw [List.getElem?_append_right (by omega)]
        rw [List.getElem?_replicate]
        rw [if_pos (by omega)]

/-- C11: on a node as the constructor leaves it whose definitions all have a pixel format, for
a window inside the renderable lights whose global indices the affected bits cover,
`setShadowMapsToPass` is defined and binds to every shadow texture unit index `u` below
`getNumShadowContentTextures()`: (i) the slot texture `mLocalTextures[u].textures[0]` exactly
when `u` is below the number of definitions, the rank of definition `u` is below the length of
the filtered list and the light at that rank is marked affected; (ii) otherwise, for `u` below
the number of definitions, the null shadow texture of the first pixel format of definition `u`;
(iii) for `u` at or beyond the number of definitions, the null shadow texture of format
`PF_R8G8B8A8`. -/
theorem setShadowMapsToPass_texture_units {Box : Type} (pfR8G8B8A8 : PixelFormat)
    (s : CompositorShadowNode Box) (renderableLights : List LightClosest) (pass : Pass)
    (startLight : Nat) (hwf : wellFormed s = true)
    (hfmt : ∀ d ∈ s.mDefinition.mShadowMapTexDefinitions, d.formatList ≠ [])
    (hstart : startLight ≤ min pass.maxSimultaneousLights renderableLights.length)
    (hcover : ∀ l ∈ lightWindow renderableLights startLight
        (min pass.maxSimultaneousLights renderableLights.length),
      l.globalIndex < s.mAffectedLights.length) :
    ∃ s' units,
      setShadowMapsToPass pfR8G8B8A8 s renderableLights pass startLight = some (s', units) ∧
      units.length = pass.numShadowContentTextures ∧
      (∀ u texDef, u < pass.numShadowContentTextures →
        s.mDefinition.mShadowMapTexDefinitions[u]? = some texDef →
        ∃ channel tex format,
          s.mLocalTextures[u]? = some channel ∧ channel.textures[0]? = some tex ∧
          texDef.formatList[0]? = some format ∧
          (affectedAtRank s.mAffectedLights s'.mCurrentLightList texDef.light = true →
            (units[u]?).map (fun unit => unit.texture) = some (ShadowTexture.localTexture tex)) ∧
          (affectedAtRank s.mAffectedLights s'.mCurrentLightList texDef.light = false →
            (units[u]?).map (fun unit => unit.texture) =
              some (ShadowTexture.nullShadowTexture format))) ∧
      (∀ u, u < pass.numShadowContentTextures →
        s.mDefinition.mShadowMapTexDefinitions.length ≤ u →
        (units[u]?).map (fun unit => unit.texture) =
          some (ShadowTexture.nullShadowTexture pfR8G8B8A8)) := by
  rcases setShadowMapsToPass_eq pfR8G8B8A8 s renderableLights pass startLight hwf hfmt hstart
    hcover with ⟨units, hset, hcur, hunits⟩
  rcases setShadowMapsToPass_blank pfR8G8B8A8 s _ renderableLights pass startLight units hset
    with ⟨hlen, hblank⟩
  refine ⟨_, units, hset, ?_, ?_, ?_⟩
  · rw [hlen]; omega
  · intro u texDef hu hdef
    rcases bindShadowMap_eq s _ u texDef hwf hdef (hfmt texDef (List.getElem?_mem hdef)) hcur
      with ⟨slot, channel, tex, format, _, hch, htex, hformat, hbind⟩
    refine ⟨channel, tex, format, hch, htex, hformat, ?_, ?_⟩
    · intro ha
      simp only [affectedAtRank] at ha
      rw [hunits u texDef hdef hu, hbind, if_pos ha]
      rfl
    · intro ha
      simp only [affectedAtRank] at ha
      rw [hunits u texDef hdef hu, hbind, ha]
      rfl
  · intro u hu hge
    rw [hblank u hge hu]
    rfl

/-- Instance of `setShadowMapsToPass_texture_units`: with six shadow texture units, four
definitions and the lights 0, 1, 2 affected, the units 0 to 2 receive the slot textures, unit 3
the null texture of format 14, the units 4 and 5 the null texture of format 28. -/
theorem setShadowMapsToPass_texture_units_witness :
    (wellFormed sevenLightsNode = true ∧
      (∀ d ∈ sevenLightsNode.mDefinition.mShadowMapTexDefinitions, d.formatList ≠ []) ∧
      0 ≤ min sixUnitPass.maxSimultaneousLights sevenRenderableLights.length ∧
      (∀ l ∈ lightWindow sevenRenderableLights 0
          (min sixUnitPass.maxSimultaneousLights sevenRenderableLights.length),
        l.globalIndex < sevenLightsNode.mAffectedLights.length) ∧
      (setShadowMapsToPass 28 sevenLightsNode sevenRenderableLights sixUnitPass 0).map
          (fun r => r.2.map (fun unit => unit.texture)) =
        some [ShadowTexture.localTexture 200, ShadowTexture.localTexture 201,
              ShadowTexture.localTexture 202, ShadowTexture.nullShadowTexture 14,
              ShadowTexture.nullShadowTexture 28, ShadowTexture.nullShadowTexture 28]) ∧
    ∃ s' units,
      setShadowMapsToPass 28 sevenLightsNode sevenRenderableLights sixUnitPass 0 =
        some (s', units) ∧
      units.length = sixUnitPass.numShadowContentTextures ∧
      (∀ u texDef, u < sixUnitPass.numShadowContentTextures →
        sevenLightsNode.mDefinition.mShadowMapTexDefinitions[u]? = some texDef →
        ∃ channel tex format,
          sevenLightsNode.mLocalTextures[u]? = some channel ∧
          channel.textures[0]? = some tex ∧
          texDef.formatList[0]? = some format ∧
          (affectedAtRank sevenLightsNode.mAffectedLights s'.mCurrentLightList texDef.light =
              true →
            (units[u]?).map (fun unit => unit.texture) = some (ShadowTexture.localTexture tex)) ∧
          (affectedAtRank sevenLightsNode.mAffectedLights s'.mCurrentLightList texDef.light =
              false →
            (units[u]?).map (fun unit => unit.texture) =
              some (ShadowTexture.nullShadowTexture format))) ∧
      (∀ u, u < sixUnitPass.numShadowContentTextures →
        sevenLightsNode.mDefinition.mShadowMapTexDefinitions.length ≤ u →
        (units[u]?).map (fun unit => unit.texture) =
          some (ShadowTexture.nullShadowTexture 28)) :=
  ⟨⟨by decide, by decide, by decide, by decide, by decide⟩,
    setShadowMapsToPass_texture_units 28 sevenLightsNode sevenRenderableLights sixUnitPass 0
      (by decide) (by decide) (by decide) (by decide)⟩

set_option maxRecDepth 4096 in
/-- The node `sevenLightsNode` is what `buildClosestLightList` leaves for the seven lights. -/
theorem sevenLightsNode_built :
    buildClosestLightList exampleBoxOps exampleLayerShadowCaster (exampleNode 3)
      (exampleCamera sevenLights) 1 = some sevenLightsNode := by
  decide

/-- C12 (evaluation at the failing input): for a renderable with seven lights, four lights per
pass and `startLight = 4` (the second pass of a multi-pass material), `setShadowMapsToPass`
returns the empty list: line 421 computes `endLight = min( 4, 7 ) = 4`, so the window is
`[4, 4)` and not `[4, 7)`.  With `startLight = 2` it returns the two lights at the positions 2
and 3 and not the four lights at the positions 2 to 5. -/
theorem setShadowMapsToPass_window_ignores_startLight :
    (setShadowMapsToPass 28 sevenLightsNode sevenRenderableLights sixUnitPass 4).map
        (fun r => r.1.mCurrentLightList.map (fun l => l.globalIndex)) = some [] ∧
      (lightWindow sevenRenderableLights 4 (min (4 + 4) 7)).map (fun l => l.globalIndex) =
        [4, 5, 6] ∧
      (setShadowMapsToPass 28 sevenLightsNode sevenRenderableLights sixUnitPass 2).map
        (fun r => r.1.mCurrentLightList.map (fun l => l.globalIndex)) = some [2, 3] ∧
      (lightWindow sevenRenderableLights 2 (min (2 + 4) 7)).map (fun l => l.globalIndex) =
        [2, 3, 4, 5] := by
  decide

/-! ## _update -/

/-- One round of the loop of lines 320-352: a definition whose rank is not below the number of
selected lights leaves the state as it is; any round leaves the slots and cameras at the other
indices as they are, keeps the lengths and adds at most one call, for its own slot. -/
theorem setupCamera_some {Box : Type} (env : UpdateEnv Box) (camera : Camera Box)
    (index : List Nat) (idx : Nat) (texDef : ShadowMapTexDef) (st st1 : CameraSetupState)
    (h : setupCamera env camera index idx texDef st = some st1) :
    (index.length ≤ texDef.light → st1 = st) ∧
    (∀ t, t ≠ idx → st1.slots[t]? = st.slots[t]? ∧ st1.texCameras[t]? = st.texCameras[t]?) ∧
    st1.slots.length = st.slots.length ∧ st1.texCameras.length = st.texCameras.length ∧
    (st1.setupCalls = st.setupCalls ∨
      (texDef.light < index.length ∧
        ∃ lightIdx, st1.setupCalls = st.setupCalls ++ [(idx, lightIdx, texDef.split)])) := by
  unfold setupCamera at h
  by_cases hr : texDef.light < index.length
  · rw [if_pos hr] at h
    split at h
    · simp at h
    · split at h
      · simp at h
      · split at h
        · split at h
          · simp at h
          · simp only [Option.some.injEq] at h
            subst h
            refine ⟨fun hge => by omega, ?_, by simp, by simp, Or.inr ⟨hr, _, rfl⟩⟩
            intro t ht
            simp only []
            rw [List.getElem?_set_ne (Ne.symm ht), List.getElem?_set_ne (Ne.symm ht)]
            exact ⟨rfl, rfl⟩
        · simp at h
  · rw [if_neg hr] at h
    simp only [Option.some.injEq] at h
    subst h
    exact ⟨fun _ => rfl, fun _ _ => ⟨rfl, rfl⟩, rfl, rfl, Or.inl rfl⟩

/-- The loop of lines 320-352 leaves the slot and the camera at `t` as they are when the
definition of `t`, if the loop visits one, has a rank not below the number of selected lights;
the calls it adds are for slots it visits whose rank is below that number. -/
theorem setupCameras_some {Box : Type} (env : UpdateEnv Box) (camera : Camera Box)
    (index : List Nat) :
    ∀ (rest : List ShadowMapTexDef) (idx : Nat) (st out : CameraSetupState),
      setupCameras env camera index idx rest st = some out →
      (∀ t, (∀ d, idx ≤ t → rest[t - idx]? = some d → index.length ≤ d.light) →
        out.slots[t]? = st.slots[t]? ∧ out.texCameras[t]? = st.texCameras[t]?) ∧
      out.slots.length = st.slots.length ∧ out.texCameras.length = st.texCameras.length ∧
      ∃ calls, out.setupCalls = st.setupCalls ++ calls ∧
        ∀ c ∈ calls, idx ≤ c.1 ∧ ∃ d, rest[c.1 - idx]? = some d ∧ d.light < index.length ∧
          c.2.2 = d.split := by
  intro rest
  induction rest with
  | nil =>
    intro idx st out h
    simp only [setupCameras, Option.some.injEq] at h
    subst h
    exact ⟨fun _ _ => ⟨rfl, rfl⟩, rfl, rfl, [], by simp, by simp⟩
  | cons texDef rest ih =>
    intro idx st out h
    simp only [setupCameras] at h
    cases h1 : setupCamera env camera index idx texDef st with
    | none => rw [h1] at h; simp at h
    | some st1 =>
      rw [h1] at h
      simp only [] at h
      rcases setupCamera_some env camera index idx texDef st st1 h1
        with ⟨hsame, hother, hl1, hl2, hcalls⟩
      rcases ih (idx + 1) st1 out h with ⟨hkeep, hl3, hl4, calls, hout, hprop⟩
      refine ⟨?_, by omega, by omega, ?_⟩
      · intro t ht
        have hrest : ∀ d, idx + 1 ≤ t → rest[t - (idx + 1)]? = some d →
            index.length ≤ d.light := by
          intro d hle hd
          apply ht d (by omega)
          rw [show t - idx = (t - (idx + 1)) + 1 by omega]
          simpa using hd
        rcases hkeep t hrest with ⟨hs, hc⟩
        by_cases hti : t = idx
        · subst hti
          have hge : index.length ≤ texDef.light := ht texDef (Nat.le_refl _) (by simp)
          rw [hs, hc, hsame hge]
          exact ⟨rfl, rfl⟩
        · rcases hother t hti with ⟨hs1, hc1⟩
          rw [hs, hc, hs1, hc1]
          exact ⟨rfl, rfl⟩
      · have hshift : ∀ c ∈ calls, idx ≤ c.1 ∧ ∃ d, (texDef :: rest)[c.1 - idx]? = some d ∧
            d.light < index.length ∧ c.2.2 = d.split := by
          intro c hc
          rcases hprop c hc with ⟨hle, d, hd, hlt, hsp⟩
          refine ⟨by omega, d, ?_, hlt, hsp⟩
          rw [show c.1 - idx = (c.1 - (idx + 1)) + 1 by omega]
          simpa using hd
        rcases hcalls with hc0 | ⟨hlt, lightIdx, hc1⟩
        · exact ⟨calls, by rw [hout, hc0], hshift⟩
        · refine ⟨(idx, lightIdx, texDef.split) :: calls, ?_, ?_⟩
          · rw [hout, hc1, List.append_assoc]; rfl
          · intro c hc
            rcases List.mem_cons.mp hc with hc | hc
            · subst hc
              exact ⟨Nat.le_refl _, texDef, by simp, hlt, rfl⟩
            · exact hshift c hc

/-- Anatomy of a returning `_update`: the light list build and the camera loop returned, the
sub-render was entered with `IRS_RENDER_TO_TEXTURE`, and the render stage left behind is the
previous one after a sub-render that returned and the one the sub-render left after a
sub-render that threw. -/
theorem _update_some {Box : Type} (ops : BoxOps Box) (lsc : Nat) (env : UpdateEnv Box)
    (s : CompositorShadowNode Box) (texCameras : List TexCamera) (stage : Nat)
    (camera : Camera Box) (frame : Nat) (r : UpdateResult Box)
    (h : _update ops lsc env s texCameras stage camera frame = some r) :
    ∃ s1 st, buildClosestLightList ops lsc s camera frame = some s1 ∧
      setupCameras env camera s1.mShadowMapLightIndex 0 s1.mDefinition.mShadowMapTexDefinitions
        { slots := s1.mShadowMapCameras, texCameras := texCameras, setupCalls := [] } =
          some st ∧
      r.node = { s1 with mShadowMapCameras := st.slots } ∧
      r.texCameras = st.texCameras ∧ r.setupCalls = st.setupCalls ∧
      r.subRenderStage = env.irsRenderToTexture ∧
      r.failure = (env.subRender env.irsRenderToTexture).failure ∧
      ((env.subRender env.irsRenderToTexture).failure = none → r.currentRenderStage = stage) ∧
      ((env.subRender env.irsRenderToTexture).failure ≠ none →
        r.currentRenderStage = (env.subRender env.irsRenderToTexture).currentRenderStage) := by
  unfold _update at h
  cases hb : buildClosestLightList ops lsc s camera frame with
  | none => rw [hb] at h; simp at h
  | some s1 =>
    rw [hb] at h
    simp only [] at h
    cases hs : setupCameras env camera s1.mShadowMapLightIndex 0
        s1.mDefinition.mShadowMapTexDefinitions
        { slots := s1.mShadowMapCameras, texCameras := texCameras, setupCalls := [] } with
    | none => rw [hs] at h; simp at h
    | some st =>
      rw [hs] at h
      simp only [] at h
      refine ⟨s1, st, rfl, hs, ?_⟩
      cases hf : (env.subRender env.irsRenderToTexture).failure with
      | none =>
        rw [hf] at h
        simp only [Option.some.injEq] at h
        subst h
        exact ⟨rfl, rfl, rfl, rfl, rfl, fun _ => rfl, fun hne => absurd rfl hne⟩
      | some e =>
        rw [hf] at h
        simp only [Option.some.injEq] at h
        subst h
        exact ⟨rfl, rfl, rfl, rfl, rfl, fun hn => by simp at hn, fun _ => rfl⟩

/-- One round of the loop of lines 320-352 is defined when the selected indices lie inside the
global light list and the slot at `idx` and its camera exist, the camera having a viewport. -/
theorem setupCamera_defined {Box : Type} (env : UpdateEnv Box) (camera : Camera Box)
    (index : List Nat) (hidx : ∀ k ∈ index, k < camera.globalLightList.length) (idx : Nat)
    (texDef : ShadowMapTexDef) (st : CameraSetupState) (hs : idx < st.slots.length)
    (hc : idx < st.texCameras.length)
    (hv : ∀ c, st.texCameras[idx]? = some c → c.viewportMaterialScheme ≠ none) :
    ∃ st1, setupCamera env camera index idx texDef st = some st1 := by
  unfold setupCamera
  by_cases hr : texDef.light < index.length
  · rw [if_pos hr, List.getElem?_eq_getElem hr]
    simp only []
    have hl : index[texDef.light] < camera.globalLightList.length :=
      hidx _ (List.getElem_mem hr)
    rw [List.getElem?_eq_getElem hl, List.getElem?_eq_getElem hs, List.getElem?_eq_getElem hc]
    simp only []
    have hv1 := hv _ (List.getElem?_eq_getElem hc)
    cases hvm : (st.texCameras[idx]).viewportMaterialScheme with
    | none => exact absurd hvm hv1
    | some v => exact ⟨_, rfl⟩
  · rw [if_neg hr]
    exact ⟨st, rfl⟩

theorem setupCameras_defined {Box : Type} (env : UpdateEnv Box) (camera : Camera Box)
    (index : List Nat) (hidx : ∀ k ∈ index, k < camera.globalLightList.length) :
    ∀ (rest : List ShadowMapTexDef) (idx : Nat) (st : CameraSetupState),
      idx + rest.length ≤ st.slots.length → idx + rest.length ≤ st.texCameras.length →
      (∀ i c, idx ≤ i → st.texCameras[i]? = some c → c.viewportMaterialScheme ≠ none) →
      ∃ out, setupCameras env camera index idx rest st = some out := by
  intro rest
  induction rest with
  | nil => intro idx st _ _ _; exact ⟨st, rfl⟩
  | cons texDef rest ih =>
    intro idx st hs hc hv
    simp only [List.length_cons] at hs hc
    rcases setupCamera_defined env camera index hidx idx texDef st (by omega) (by omega)
      (fun c h => hv idx c (Nat.le_refl _) h) with ⟨st1, h1⟩
    rcases setupCamera_some env camera index idx texDef st st1 h1
      with ⟨_, hother, hl1, hl2, _⟩
    rcases ih (idx + 1) st1 (by omega) (by omega)
      (fun i c hi hci => hv i c (by omega) (by rw [← (hother i (by omega)).2]; exact hci))
      with ⟨out, hout⟩
    refine ⟨out, ?_⟩
    simp only [setupCameras, h1]
    exact hout

/-- A recomputing `_update` returns when `mMinRq <= mMaxRq`, culling does not shorten the vector
of per-queue boxes, and the node has one slot and one camera with a viewport per definition. -/
theorem _update_defined {Box : Type} (ops : BoxOps Box) (lsc : Nat) (env : UpdateEnv Box)
    (s : CompositorShadowNode Box) (texCameras : List TexCamera) (stage : Nat)
    (camera : Camera Box) (frame : Nat)
    (hnew : ¬(s.mLastCamera = some camera.id ∧ s.mLastFrame = frame))
    (hrq : s.mDefinition.mMinRq ≤ s.mDefinition.mMaxRq)
    (hcull : ∀ v i j, v.length ≤ (camera.cullReceiversBox v i j).length)
    (hslots : s.mShadowMapCameras.length = s.mDefinition.mShadowMapTexDefinitions.length)
    (hcams : texCameras.length = s.mDefinition.mShadowMapTexDefinitions.length)
    (hview : ∀ c ∈ texCameras, c.viewportMaterialScheme ≠ none) :
    ∃ r, _update ops lsc env s texCameras stage camera frame = some r := by
  rcases buildClosestLightList_recompute ops lsc s camera frame hnew hrq hcull
    with ⟨s1, hs1, _, _, hdef, hsl, _⟩
  rcases buildClosestLightList_inv ops lsc s s1 camera frame hnew hs1
    with ⟨_, _, hrange, _⟩
  rcases setupCameras_defined env camera s1.mShadowMapLightIndex hrange
      s1.mDefinition.mShadowMapTexDefinitions 0
      { slots := s1.mShadowMapCameras, texCameras := texCameras, setupCalls := [] }
      (by simp only [hsl, hdef, hslots]; omega) (by simp only [hdef, hcams]; omega)
      (fun i c _ hc => hview c (List.getElem?_mem hc)) with ⟨st, hst⟩
  unfold _update
  rw [hs1]
  simp only []
  rw [hst]
  simp only []
  cases (env.subRender env.irsRenderToTexture).failure with
  | none => exact ⟨_, rfl⟩
  | some e => exact ⟨_, rfl⟩

/-! ## Claims about _update -/

/-- C13: in every `_update` that returns to its caller without exception (the sub-render
completed normally), the sub-render was entered with the render stage `IRS_RENDER_TO_TEXTURE`
and the scene manager holds, when `_update` returns, the render stage that was in force when it
was called.  A recomputing `_update` whose sub-render does not throw does return so, when
`mMinRq <= mMaxRq`, culling does not shorten the vector of per-queue boxes and the node has one
slot and one camera with a viewport per definition. -/
theorem _update_restores_render_stage {Box : Type} (ops : BoxOps Box) (layerShadowCaster : Nat)
    (env : UpdateEnv Box) (s : CompositorShadowNode Box) (texCameras : List TexCamera)
    (previous : Nat) (camera : Camera Box) (frame : Nat)
    (hsub : (env.subRender env.irsRenderToTexture).failure = none) :
    (∀ r, _update ops layerShadowCaster env s texCameras previous camera frame = some r →
      r.failure = none ∧ r.subRenderStage = env.irsRenderToTexture ∧
      r.currentRenderStage = previous) ∧
    (¬(s.mLastCamera = some camera.id ∧ s.mLastFrame = frame) →
      s.mDefinition.mMinRq ≤ s.mDefinition.mMaxRq →
      (∀ v i j, v.length ≤ (camera.cullReceiversBox v i j).length) →
      s.mShadowMapCameras.length = s.mDefinition.mShadowMapTexDefinitions.length →
      texCameras.length = s.mDefinition.mShadowMapTexDefinitions.length →
      (∀ c ∈ texCameras, c.viewportMaterialScheme ≠ none) →
      ∃ r, _update ops layerShadowCaster env s texCameras previous camera frame = some r) := by
  constructor
  · intro r h
    rcases _update_some ops layerShadowCaster env s texCameras previous camera frame r h
      with ⟨_, _, _, _, _, _, _, hstage, hfail, hok, _⟩
    exact ⟨by rw [hfail, hsub], hstage, hok hsub⟩
  · intro hnew hrq hcull hslots hcams hview
    exact _update_defined ops layerShadowCaster env s texCameras previous camera frame hnew hrq
      hcull hslots hcams hview

/-- Instance of `_update_restores_render_stage`: called in render stage 0, with
`IRS_RENDER_TO_TEXTURE = 1`, the sub-render is entered in stage 1 and stage 0 is in force
again at the end. -/
theorem _update_restores_render_stage_witness :
    ((((exampleEnv none).subRender (exampleEnv none).irsRenderToTexture).failure = none) ∧
      (_update exampleBoxOps exampleLayerShadowCaster (exampleEnv none) (exampleNode 3)
          exampleTexCameras 0 (exampleCamera mixedLights) 1).map
        (fun r => (r.failure, r.subRenderStage, r.currentRenderStage)) = some (none, 1, 0)) ∧
    ((∀ r, _update exampleBoxOps exampleLayerShadowCaster (exampleEnv none) (exampleNode 3)
          exampleTexCameras 0 (exampleCamera mixedLights) 1 = some r →
        r.failure = none ∧ r.subRenderStage = (exampleEnv none).irsRenderToTexture ∧
        r.currentRenderStage = 0) ∧
      (¬((exampleNode 3).mLastCamera = some (exampleCamera mixedLights).id ∧
          (exampleNode 3).mLastFrame = 1) →
        (exampleNode 3).mDefinition.mMinRq ≤ (exampleNode 3).mDefinition.mMaxRq →
        (∀ v i j, v.length ≤ ((exampleCamera mixedLights).cullReceiversBox v i j).length) →
        (exampleNode 3).mShadowMapCameras.length =
          (exampleNode 3).mDefinition.mShadowMapTexDefinitions.length →
        exampleTexCameras.length =
          (exampleNode 3).mDefinition.mShadowMapTexDefinitions.length →
        (∀ c ∈ exampleTexCameras, c.viewportMaterialScheme ≠ none) →
        ∃ r, _update exampleBoxOps exampleLayerShadowCaster (exampleEnv none) (exampleNode 3)
          exampleTexCameras 0 (exampleCamera mixedLights) 1 = some r)) :=
  ⟨⟨by decide, by decide⟩,
    _update_restores_render_stage exampleBoxOps exampleLayerShadowCaster (exampleEnv none)
      (exampleNode 3) exampleTexCameras 0 (exampleCamera mixedLights) 1 (by decide)⟩

/-- C14 (counterexample): `_update` is called while render stage 0 is in force, with
`IRS_RENDER_TO_TEXTURE = 1`, and its sub-render throws without touching the render stage: the
exception reaches the caller and the scene manager is left in render stage 1, not 0. -/
theorem _update_failure_leaves_render_to_texture :
    (_update exampleBoxOps exampleLayerShadowCaster
        (exampleEnv (some Exception.ERR_RENDERINGAPI_ERROR)) (exampleNode 3) exampleTexCameras 0
        (exampleCamera mixedLights) 1).map (fun r => (r.failure, r.currentRenderStage)) =
      some (some Exception.ERR_RENDERINGAPI_ERROR, 1) ∧
    ¬(∀ r, _update exampleBoxOps exampleLayerShadowCaster
        (exampleEnv (some Exception.ERR_RENDERINGAPI_ERROR)) (exampleNode 3) exampleTexCameras 0
        (exampleCamera mixedLights) 1 = some r → r.currentRenderStage = 0) := by
  have h : (_update exampleBoxOps exampleLayerShadowCaster
        (exampleEnv (some Exception.ERR_RENDERINGAPI_ERROR)) (exampleNode 3) exampleTexCameras 0
        (exampleCamera mixedLights) 1).map (fun r => (r.failure, r.currentRenderStage)) =
      some (some Exception.ERR_RENDERINGAPI_ERROR, 1) := by decide
  refine ⟨h, ?_⟩
  intro hall
  cases hr : _update exampleBoxOps exampleLayerShadowCaster
      (exampleEnv (some Exception.ERR_RENDERINGAPI_ERROR)) (exampleNode 3) exampleTexCameras 0
      (exampleCamera mixedLights) 1 with
  | none => rw [hr] at h; simp at h
  | some r =>
    have h0 := hall r hr
    rw [hr] at h
    simp only [Option.map_some', Option.some.injEq, Prod.mk.injEq] at h
    omega

/-- C14 (amended): in every `_update` whose sub-render throws, the exception reaches the
caller, line 360 is not executed, and the render stage the caller finds is the one the
sub-render left behind: `IRS_RENDER_TO_TEXTURE` when the sub-render does not change the stage,
whatever stage was in force before the call.  A recomputing `_update` does return so under the
conditions of definedness of the light list build and the camera loop. -/
theorem _update_failure_render_stage {Box : Type} (ops : BoxOps Box) (layerShadowCaster : Nat)
    (env : UpdateEnv Box) (s : CompositorShadowNode Box) (texCameras : List TexCamera)
    (previous : Nat) (camera : Camera Box) (frame : Nat) (e : Exception)
    (hsub : (env.subRender env.irsRenderToTexture).failure = some e) :
    (∀ r, _update ops layerShadowCaster env s texCameras previous camera frame = some r →
      r.failure = some e ∧ r.subRenderStage = env.irsRenderToTexture ∧
      r.currentRenderStage = (env.subRender env.irsRenderToTexture).currentRenderStage ∧
      ((env.subRender env.irsRenderToTexture).currentRenderStage = env.irsRenderToTexture →
        r.currentRenderStage = env.irsRenderToTexture)) ∧
    (¬(s.mLastCamera = some camera.id ∧ s.mLastFrame = frame) →
      s.mDefinition.mMinRq ≤ s.mDefinition.mMaxRq →
      (∀ v i j, v.length ≤ (camera.cullReceiversBox v i j).length) →
      s.mShadowMapCameras.length = s.mDefinition.mShadowMapTexDefinitions.length →
      texCameras.length = s.mDefinition.mShadowMapTexDefinitions.length →
      (∀ c ∈ texCameras, c.viewportMaterialScheme ≠ none) →
      ∃ r, _update ops layerShadowCaster env s texCameras previous camera frame = some r) := by
  constructor
  · intro r h
    rcases _update_some ops layerShadowCaster env s texCameras previous camera frame r h
      with ⟨_, _, _, _, _, _, _, hstage, hfail, _, hthrow⟩
    have hne : (env.subRender env.irsRenderToTexture).failure ≠ none := by rw [hsub]; simp
    refine ⟨by rw [hfail, hsub], hstage, hthrow hne, ?_⟩
    intro hkeep
    rw [hthrow hne, hkeep]
  · intro hnew hrq hcull hslots hcams hview
    exact _update_defined ops layerShadowCaster env s texCameras previous camera frame hnew hrq
      hcull hslots hcams hview

/-- Instance of `_update_failure_render_stage` for a sub-render that throws in the example
scene. -/
theorem _update_failure_render_stage_witness :
    (((exampleEnv (some Exception.ERR_RENDERINGAPI_ERROR)).subRender
        (exampleEnv (some Exception.ERR_RENDERINGAPI_ERROR)).irsRenderToTexture).failure =
      some Exception.ERR_RENDERINGAPI_ERROR) ∧
    ((∀ r, _update exampleBoxOps exampleLayerShadowCaster
          (exampleEnv (some Exception.ERR_RENDERINGAPI_ERROR)) (exampleNode 3)
          exampleTexCameras 0 (exampleCamera mixedLights) 1 = some r →
        r.failure = some Exception.ERR_RENDERINGAPI_ERROR ∧
        r.subRenderStage = (exampleEnv (some Exception.ERR_RENDERINGAPI_ERROR)).irsRenderToTexture ∧
        r.currentRenderStage =
          ((exampleEnv (some Exception.ERR_RENDERINGAPI_ERROR)).subRender
            (exampleEnv (some Exception.ERR_RENDERINGAPI_ERROR)).irsRenderToTexture).currentRenderStage ∧
        (((exampleEnv (some Exception.ERR_RENDERINGAPI_ERROR)).subRender
            (exampleEnv (some Exception.ERR_RENDERINGAPI_ERROR)).irsRenderToTexture).currentRenderStage =
            (exampleEnv (some Exception.ERR_RENDERINGAPI_ERROR)).irsRenderToTexture →
          r.currentRenderStage =
            (exampleEnv (some Exception.ERR_RENDERINGAPI_ERROR)).irsRenderToTexture)) ∧
      (¬((exampleNode 3).mLastCamera = some (exampleCamera mixedLights).id ∧
          (exampleNode 3).mLastFrame = 1) →
        (exampleNode 3).mDefinition.mMinRq ≤ (exampleNode 3).mDefinition.mMaxRq →
        (∀ v i j, v.length ≤ ((exampleCamera mixedLights).cullReceiversBox v i j).length) →
        (exampleNode 3).mShadowMapCameras.length =
          (exampleNode 3).mDefinition.mShadowMapTexDefinitions.length →
        exampleTexCameras.length =
          (exampleNode 3).mDefinition.mShadowMapTexDefinitions.length →
        (∀ c ∈ exampleTexCameras, c.viewportMaterialScheme ≠ none) →
        ∃ r, _update exampleBoxOps exampleLayerShadowCaster
          (exampleEnv (some Exception.ERR_RENDERINGAPI_ERROR)) (exampleNode 3)
          exampleTexCameras 0 (exampleCamera mixedLights) 1 = some r)) :=
  ⟨by decide,
    _update_failure_render_stage exampleBoxOps exampleLayerShadowCaster
      (exampleEnv (some Exception.ERR_RENDERINGAPI_ERROR)) (exampleNode 3) exampleTexCameras 0
      (exampleCamera mixedLights) 1 Exception.ERR_RENDERINGAPI_ERROR (by decide)⟩

/-- A returning `mergeReceiversBoxes` changes `mReceiverBox` only. -/
theorem mergeReceiversBoxes_some {Box : Type} (ops : BoxOps Box) (s s1 : CompositorShadowNode Box)
    (camera : Camera Box) (calls : List (Nat × Nat))
    (h : mergeReceiversBoxes ops s camera = some (s1, calls)) :
    ∃ box, s1 = { s with mReceiverBox := box } := by
  unfold mergeReceiversBoxes at h
  simp only [] at h
  split at h
  · simp at h
  · split at h
    · simp at h
    · simp only [Option.some.injEq, Prod.mk.injEq] at h
      exact ⟨_, h.1.symm⟩

/-- A returning `buildClosestLightList` leaves the definition, the slots and the local textures
as they are. -/
theorem buildClosestLightList_keeps {Box : Type} (ops : BoxOps Box) (lsc : Nat)
    (s s1 : CompositorShadowNode Box) (camera : Camera Box) (frame : Nat)
    (h : buildClosestLightList ops lsc s camera frame = some s1) :
    s1.mDefinition = s.mDefinition ∧ s1.mShadowMapCameras = s.mShadowMapCameras ∧
      s1.mLocalTextures = s.mLocalTextures := by
  unfold buildClosestLightList at h
  by_cases hhit : s.mLastCamera = some camera.id ∧ s.mLastFrame = frame
  · rw [if_pos hhit] at h
    simp only [Option.some.injEq] at h
    subst h
    exact ⟨rfl, rfl, rfl⟩
  · rw [if_neg hhit] at h
    cases hm : mergeReceiversBoxes ops
        { s with mLastFrame := frame, mLastCamera := some camera.id } camera with
    | none => rw [hm] at h; simp at h
    | some r =>
      rw [hm] at h
      simp only [Option.some.injEq] at h
      rcases mergeReceiversBoxes_some ops _ r.1 camera r.2 hm with ⟨box, hbox⟩
      rw [← h, hbox]
      exact ⟨rfl, rfl, rfl⟩

/-- C15: in every `_update` that gets past the per-slot loop, a slot whose definition is bound
to a light rank not below the length of the selected light list has the same camera identity,
setup, `minDistance` and `maxDistance` after the loop as before, its camera is in the same
state, and `getShadowCamera` is not called for it.  A recomputing `_update` does get there under
the conditions of definedness of the light list build and the camera loop. -/
theorem _update_leaves_unbound_slot {Box : Type} (ops : BoxOps Box) (layerShadowCaster : Nat)
    (env : UpdateEnv Box) (s : CompositorShadowNode Box) (texCameras : List TexCamera)
    (previous : Nat) (camera : Camera Box) (frame : Nat) :
    (∀ r, _update ops layerShadowCaster env s texCameras previous camera frame = some r →
      ∀ t texDef, s.mDefinition.mShadowMapTexDefinitions[t]? = some texDef →
        r.node.mShadowMapLightIndex.length ≤ texDef.light →
        r.node.mShadowMapCameras[t]? = s.mShadowMapCameras[t]? ∧
        r.texCameras[t]? = texCameras[t]? ∧
        ∀ c ∈ r.setupCalls, c.1 ≠ t) ∧
    (¬(s.mLastCamera = some camera.id ∧ s.mLastFrame = frame) →
      s.mDefinition.mMinRq ≤ s.mDefinition.mMaxRq →
      (∀ v i j, v.length ≤ (camera.cullReceiversBox v i j).length) →
      s.mShadowMapCameras.length = s.mDefinition.mShadowMapTexDefinitions.length →
      texCameras.length = s.mDefinition.mShadowMapTexDefinitions.length →
      (∀ c ∈ texCameras, c.viewportMaterialScheme ≠ none) →
      ∃ r, _update ops layerShadowCaster env s texCameras previous camera frame = some r) := by
  constructor
  · intro r h t texDef hdef hrank
    rcases _update_some ops layerShadowCaster env s texCameras previous camera frame r h
      with ⟨s1, st, hb, hs, hnode, hcams, hcalls, _⟩
    rcases buildClosestLightList_keeps ops layerShadowCaster s s1 camera frame hb
      with ⟨hd, hsl, _⟩
    have hidx : r.node.mShadowMapLightIndex = s1.mShadowMapLightIndex := by rw [hnode]
    rw [hidx] at hrank
    rcases setupCameras_some env camera s1.mShadowMapLightIndex
        s1.mDefinition.mShadowMapTexDefinitions 0 _ st hs
      with ⟨hkeep, _, _, calls, hcallsEq, hprop⟩
    have hun : ∀ d, 0 ≤ t → s1.mDefinition.mShadowMapTexDefinitions[t - 0]? = some d →
        s1.mShadowMapLightIndex.length ≤ d.light := by
      intro d _ hd2
      rw [Nat.sub_zero, hd, hdef] at hd2
      simp only [Option.some.injEq] at hd2
      rw [← hd2]; exact hrank
    rcases hkeep t hun with ⟨hslot, hcam⟩
    refine ⟨?_, ?_, ?_⟩
    · rw [hnode]
      simp only []
      rw [hslot, hsl]
    · rw [hcams, hcam]
    · intro c hc hct
      rw [hcalls, hcallsEq] at hc
      simp only [List.nil_append] at hc
      rcases hprop c hc with ⟨_, d, hd2, hlt, _⟩
      rw [Nat.sub_zero, hct, hd, hdef] at hd2
      simp only [Option.some.injEq] at hd2
      rw [← hd2] at hlt
      omega
  · intro hnew hrq hcull hslots hcams hview
    exact _update_defined ops layerShadowCaster env s texCameras previous camera frame hnew hrq
      hcull hslots hcams hview

/-- Evaluation of `_update` in the example scene: three lights are selected, the slots 0 to 2
are configured from the lights 0, 1, 2 and record the reported depth range, the slot 3, bound
to rank 3, keeps its depth range and its camera. -/
theorem _update_example :
    (_update exampleBoxOps exampleLayerShadowCaster (exampleEnv none) (exampleNode 3)
        exampleTexCameras 0 (exampleCamera mixedLights) 1).map
      (fun r => (r.node.mShadowMapLightIndex, r.setupCalls)) =
      some ([0, 1, 2], [(0, 0, 0), (1, 1, 0), (2, 2, 0)]) ∧
    (_update exampleBoxOps exampleLayerShadowCaster (exampleEnv none) (exampleNode 3)
        exampleTexCameras 0 (exampleCamera mixedLights) 1).map
      (fun r => r.node.mShadowMapCameras.map (fun slot => (slot.minDistance, slot.maxDistance))) =
      some [(Real.fin 1, Real.fin 100), (Real.fin 1, Real.fin 100), (Real.fin 1, Real.fin 100),
         (Real.fin 3, Real.fin 70)] ∧
    (_update exampleBoxOps exampleLayerShadowCaster (exampleEnv none) (exampleNode 3)
        exampleTexCameras 0 (exampleCamera mixedLights) 1).map
      (fun r => (r.texCameras[3]?, r.node.mShadowMapCameras[3]?)) =
      some (exampleTexCameras[3]?, (exampleNode 3).mShadowMapCameras[3]?) := by
  refine ⟨by decide, by decide, by decide⟩

/-! ## Constructor -/

/-- The `switch` of lines 125-157 fails, with `ERR_NOT_IMPLEMENTED`, exactly for a technique
other than the four it has a case for, and gives the setup of the case otherwise. -/
theorem createShadowCameraSetup_cases (technique : ShadowMapTechniques) :
    (createShadowCameraSetup technique = Except.error Exception.ERR_NOT_IMPLEMENTED ∧
      technique ≠ ShadowMapTechniques.SHADOWMAP_DEFAULT ∧
      technique ≠ ShadowMapTechniques.SHADOWMAP_FOCUSED ∧
      technique ≠ ShadowMapTechniques.SHADOWMAP_LiPSSM ∧
      technique ≠ ShadowMapTechniques.SHADOWMAP_PSSM) ∨
    (technique = ShadowMapTechniques.SHADOWMAP_DEFAULT ∧
      createShadowCameraSetup technique =
        Except.ok ShadowCameraSetup.DefaultShadowCameraSetup) ∨
    (technique = ShadowMapTechniques.SHADOWMAP_FOCUSED ∧
      createShadowCameraSetup technique =
        Except.ok ShadowCameraSetup.FocusedShadowCameraSetup) ∨
    (technique = ShadowMapTechniques.SHADOWMAP_LiPSSM ∧
      createShadowCameraSetup technique =
        Except.ok (ShadowCameraSetup.LiSPSMShadowCameraSetup 5 false)) ∨
    (technique = ShadowMapTechniques.SHADOWMAP_PSSM ∧
      createShadowCameraSetup technique =
        Except.ok ShadowCameraSetup.PSSMShadowCameraSetup) := by
  cases technique <;> simp [createShadowCameraSetup]

theorem createLocalTextures_length (createManual : Nat → Option Nat → PixelFormat → Nat)
    (shadowMapIdx : Nat) (texDef : ShadowMapTexDef) :
    (createLocalTextures createManual shadowMapIdx texDef).textures.length =
      texDef.formatList.length := by
  unfold createLocalTextures
  split
  · next h => simp [h]
  · next h => simp [h]
  · simp

/-- A failure of the constructor loop is `ERR_NOT_IMPLEMENTED`, raised for a definition whose
technique has no case. -/
theorem createShadowMaps_error (createManual : Nat → Option Nat → PixelFormat → Nat)
    (createCamera : Nat → Nat) :
    ∀ (rest : List ShadowMapTexDef) (idx : Nat)
      (st : List CompositorChannel × List ShadowMapCamera) (e : Exception),
      createShadowMaps createManual createCamera idx rest st = Except.error e →
      e = Exception.ERR_NOT_IMPLEMENTED ∧
        ∃ d ∈ rest, createShadowCameraSetup d.shadowMapTechnique =
          Except.error Exception.ERR_NOT_IMPLEMENTED := by
  intro rest
  induction rest with
  | nil => intro idx st e h; simp [createShadowMaps] at h
  | cons texDef rest ih =>
    intro idx st e h
    simp only [createShadowMaps] at h
    rcases createShadowCameraSetup_cases texDef.shadowMapTechnique
      with ⟨hc, _⟩ | ⟨_, hc⟩ | ⟨_, hc⟩ | ⟨_, hc⟩ | ⟨_, hc⟩
    · rw [hc] at h
      simp only [Except.error.injEq] at h
      exact ⟨h.symm, texDef, List.mem_cons_self _ _, hc⟩
    all_goals
      rw [hc] at h
      simp only [] at h
      rcases ih _ _ e h with ⟨he, d, hd, hbad⟩
      exact ⟨he, d, List.mem_cons_of_mem _ hd, hbad⟩

/-- A definition whose technique has no case makes the constructor loop fail. -/
theorem createShadowMaps_fails (createManual : Nat → Option Nat → PixelFormat → Nat)
    (createCamera : Nat → Nat) :
    ∀ (rest : List ShadowMapTexDef) (idx : Nat)
      (st : List CompositorChannel × List ShadowMapCamera),
      (∃ d ∈ rest, createShadowCameraSetup d.shadowMapTechnique =
        Except.error Exception.ERR_NOT_IMPLEMENTED) →
      createShadowMaps createManual createCamera idx rest st =
        Except.error Exception.ERR_NOT_IMPLEMENTED := by
  intro rest
  induction rest with
  | nil => intro idx st h; simp at h
  | cons texDef rest ih =>
    intro idx st h
    simp only [createShadowMaps]
    rcases createShadowCameraSetup_cases texDef.shadowMapTechnique
      with ⟨hc, _⟩ | ⟨_, hc⟩ | ⟨_, hc⟩ | ⟨_, hc⟩ | ⟨_, hc⟩
    · rw [hc]
    all_goals
      rw [hc]
      simp only []
      apply ih
      rcases h with ⟨d, hd, hbad⟩
      rcases List.mem_cons.mp hd with hd | hd
      · subst hd; rw [hc] at hbad; simp at hbad
      · exact ⟨d, hd, hbad⟩

/-- A returning constructor loop keeps what was there and appends, for each definition in
order, its channel and a slot with a new camera, the setup of its technique and the depth range
`(0, 100000)`. -/
theorem createShadowMaps_ok (createManual : Nat → Option Nat → PixelFormat → Nat)
    (createCamera : Nat → Nat) :
    ∀ (rest : List ShadowMapTexDef) (idx : Nat)
      (st out : List CompositorChannel × List ShadowMapCamera),
      createShadowMaps createManual createCamera idx rest st = Except.ok out →
      out.1.length = st.1.length + rest.length ∧ out.2.length = st.2.length + rest.length ∧
      (∀ i, i < st.1.length → out.1[i]? = st.1[i]?) ∧
      (∀ i, i < st.2.length → out.2[i]? = st.2[i]?) ∧
      ∀ i d, rest[i]? = some d →
        out.1[st.1.length + i]? = some (createLocalTextures createManual (idx + i) d) ∧
        ∃ setup, createShadowCameraSetup d.shadowMapTechnique = Except.ok setup ∧
          out.2[st.2.length + i]? =
            some { camera := createCamera (idx + i), shadowCameraSetup := setup,
                   minDistance := Real.fin 0, maxDistance := Real.fin 100000 } := by
  intro rest
  induction rest with
  | nil =>
    intro idx st out h
    simp only [createShadowMaps, Except.ok.injEq] at h
    subst h
    exact ⟨rfl, rfl, fun _ _ => rfl, fun _ _ => rfl, fun i d hd => by simp at hd⟩
  | cons texDef rest ih =>
    intro idx st out h
    simp only [createShadowMaps] at h
    cases hc : createShadowCameraSetup texDef.shadowMapTechnique with
    | error e => rw [hc] at h; simp at h
    | ok setup =>
      rw [hc] at h
      simp only [] at h
      rcases ih _ _ out h with ⟨hl1, hl2, hk1, hk2, hnew⟩
      simp only [List.length_append, List.length_singleton] at hl1 hl2 hk1 hk2 hnew
      refine ⟨by simp only [List.length_cons]; omega, by simp only [List.length_cons]; omega,
        ?_, ?_, ?_⟩
      · intro i hi
        rw [hk1 i (by omega), List.getElem?_append_left hi]
      · intro i hi
        rw [hk2 i (by omega), List.getElem?_append_left hi]
      · intro i d hd
        cases i with
        | zero =>
          simp only [List.getElem?_cons_zero, Option.some.injEq] at hd
          subst hd
          refine ⟨?_, setup, hc, ?_⟩
          · rw [Nat.add_zero, hk1 _ (by omega), List.getElem?_append_right (Nat.le_refl _)]
            simp
          · rw [Nat.add_zero, hk2 _ (by omega), List.getElem?_append_right (Nat.le_refl _)]
            simp
        | succ i =>
          rcases hnew i d (by simpa using hd) with ⟨h1, setup2, hs2, h2⟩
          refine ⟨?_, setup2, hs2, ?_⟩
          · rw [show st.1.length + (i + 1) = st.1.length + 1 + i by omega,
              show idx + (i + 1) = idx + 1 + i by omega]
            exact h1
          · rw [show st.2.length + (i + 1) = st.2.length + 1 + i by omega,
              show idx + (i + 1) = idx + 1 + i by omega]
            exact h2

/-- C16: the constructor fails with `ERR_NOT_IMPLEMENTED` if and only if some shadow map
definition has a technique other than `SHADOWMAP_DEFAULT`, `SHADOWMAP_FOCUSED`,
`SHADOWMAP_LiPSSM` and `SHADOWMAP_PSSM`, and it fails in no other way; when it succeeds the node
has exactly one slot per definition, in the order of the definitions, each with the setup of
its technique (default, focused, LiSPSM, PSSM) and the depth range `(0, 100000)`, and the node
is well formed. -/
theorem newCompositorShadowNode_slots {Box : Type}
    (createManual : Nat → Option Nat → PixelFormat → Nat) (createCamera : Nat → Nat)
    (defaultBox : Box) (definition : CompositorShadowNodeDef) :
    ((newCompositorShadowNode createManual createCamera defaultBox definition =
        Except.error Exception.ERR_NOT_IMPLEMENTED) ↔
      ∃ d ∈ definition.mShadowMapTexDefinitions,
        d.shadowMapTechnique ≠ ShadowMapTechniques.SHADOWMAP_DEFAULT ∧
        d.shadowMapTechnique ≠ ShadowMapTechniques.SHADOWMAP_FOCUSED ∧
        d.shadowMapTechnique ≠ ShadowMapTechniques.SHADOWMAP_LiPSSM ∧
        d.shadowMapTechnique ≠ ShadowMapTechniques.SHADOWMAP_PSSM) ∧
    (∀ e, newCompositorShadowNode createManual createCamera defaultBox definition =
        Except.error e → e = Exception.ERR_NOT_IMPLEMENTED) ∧
    (∀ node, newCompositorShadowNode createManual createCamera defaultBox definition =
        Except.ok node →
      node.mDefinition = definition ∧
      node.mShadowMapCameras.length = definition.mShadowMapTexDefinitions.length ∧
      wellFormed node = true ∧
      ∀ i d, definition.mShadowMapTexDefinitions[i]? = some d →
        ∃ slot, node.mShadowMapCameras[i]? = some slot ∧
          slot.camera = createCamera i ∧
          slot.minDistance = Real.fin 0 ∧ slot.maxDistance = Real.fin 100000 ∧
          ((d.shadowMapTechnique = ShadowMapTechniques.SHADOWMAP_DEFAULT ∧
              slot.shadowCameraSetup = ShadowCameraSetup.DefaultShadowCameraSetup) ∨
            (d.shadowMapTechnique = ShadowMapTechniques.SHADOWMAP_FOCUSED ∧
              slot.shadowCameraSetup = ShadowCameraSetup.FocusedShadowCameraSetup) ∨
            (d.shadowMapTechnique = ShadowMapTechniques.SHADOWMAP_LiPSSM ∧
              slot.shadowCameraSetup = ShadowCameraSetup.LiSPSMShadowCameraSetup 5 false) ∨
            (d.shadowMapTechnique = ShadowMapTechniques.SHADOWMAP_PSSM ∧
              slot.shadowCameraSetup = ShadowCameraSetup.PSSMShadowCameraSetup))) := by
  have hbad : ∀ d : ShadowMapTexDef,
      createShadowCameraSetup d.shadowMapTechnique =
          Except.error Exception.ERR_NOT_IMPLEMENTED ↔
        (d.shadowMapTechnique ≠ ShadowMapTechniques.SHADOWMAP_DEFAULT ∧
          d.shadowMapTechnique ≠ ShadowMapTechniques.SHADOWMAP_FOCUSED ∧
          d.shadowMapTechnique ≠ ShadowMapTechniques.SHADOWMAP_LiPSSM ∧
          d.shadowMapTechnique ≠ ShadowMapTechniques.SHADOWMAP_PSSM) := by
    intro d
    cases d.shadowMapTechnique <;> simp [createShadowCameraSetup]
  refine ⟨⟨?_, ?_⟩, ?_, ?_⟩
  · intro h
    unfold newCompositorShadowNode at h
    cases hc : createShadowMaps createManual createCamera 0
        definition.mShadowMapTexDefinitions ([], []) with
    | ok out => rw [hc] at h; simp at h
    | error e =>
      rcases createShadowMaps_error createManual createCamera _ _ _ e hc with ⟨_, d, hd, hb⟩
      exact ⟨d, hd, (hbad d).mp hb⟩
  · rintro ⟨d, hd, hne⟩
    unfold newCompositorShadowNode
    rw [createShadowMaps_fails createManual createCamera _ 0 ([], [])
      ⟨d, hd, (hbad d).mpr hne⟩]
  · intro e h
    unfold newCompositorShadowNode at h
    cases hc : createShadowMaps createManual createCamera 0
        definition.mShadowMapTexDefinitions ([], []) with
    | ok out => rw [hc] at h; simp at h
    | error e2 =>
      rw [hc] at h
      simp only [Except.error.injEq] at h
      rw [← h]
      exact (createShadowMaps_error createManual createCamera _ _ _ e2 hc).1
  · intro node h
    unfold newCompositorShadowNode at h
    cases hc : createShadowMaps createManual createCamera 0
        definition.mShadowMapTexDefinitions ([], []) with
    | error e => rw [hc] at h; simp at h
    | ok out =>
      rw [hc] at h
      simp only [Except.ok.injEq] at h
      subst h
      rcases createShadowMaps_ok createManual createCamera _ 0 ([], []) out hc
        with ⟨hl1, hl2, _, _, hnew⟩
      simp only [List.length_nil, Nat.zero_add] at hl1 hl2 hnew
      refine ⟨rfl, hl2, ?_, ?_⟩
      · simp only [wellFormed, Bool.and_eq_true, beq_iff_eq, List.all_eq_true]
        refine ⟨⟨hl2, hl1⟩, ?_⟩
        intro p hp
        rcases List.mem_iff_getElem?.mp hp with ⟨i, hi⟩
        rw [List.getElem?_zip_eq_some] at hi
        rcases hi with ⟨hd, ht⟩
        rcases hnew i p.1 hd with ⟨h1, _⟩
        rw [ht] at h1
        simp only [Option.some.injEq] at h1
        rw [h1, createLocalTextures_length]
      · intro i d hd
        rcases hnew i d hd with ⟨_, setup, hs, hslot⟩
        refine ⟨_, hslot, rfl, rfl, rfl, ?_⟩
        simp only []
        rcases createShadowCameraSetup_cases d.shadowMapTechnique
          with ⟨hc2, _⟩ | ⟨ht, hc2⟩ | ⟨ht, hc2⟩ | ⟨ht, hc2⟩ | ⟨ht, hc2⟩
        · rw [hc2] at hs; simp at hs
        · rw [hc2] at hs; simp only [Except.ok.injEq] at hs
          exact Or.inl ⟨ht, hs.symm⟩
        · rw [hc2] at hs; simp only [Except.ok.injEq] at hs
          exact Or.inr (Or.inl ⟨ht, hs.symm⟩)
        · rw [hc2] at hs; simp only [Except.ok.injEq] at hs
          exact Or.inr (Or.inr (Or.inl ⟨ht, hs.symm⟩))
        · rw [hc2] at hs; simp only [Except.ok.injEq] at hs
          exact Or.inr (Or.inr (Or.inr ⟨ht, hs.symm⟩))

/-! ## Claims about the candidates and the result of the selection -/

/-- Every index the selection loops push belongs to a light that passes the test of lines
218-219. -/
theorem selectLights_eligible (lsc cvf mNumLights : Nat) (lights : List GlobalLight) :
    ∀ k ∈ (selectLights lsc cvf mNumLights lights).mShadowMapLightIndex,
      ∃ l, lights[k]? = some l ∧ passesVisibility lsc cvf l.visibilityMask = true := by
  have hstep : ∀ (st : LightScan) (j : Nat) (l : GlobalLight),
      (ScanInv lights st ∧ ∀ k ∈ st.mShadowMapLightIndex,
        ∃ l, lights[k]? = some l ∧ passesVisibility lsc cvf l.visibilityMask = true) →
      lights[j]? = some l →
      (ScanInv lights (scanStep lsc cvf j l st) ∧
        ∀ k ∈ (scanStep lsc cvf j l st).mShadowMapLightIndex,
          ∃ l, lights[k]? = some l ∧ passesVisibility lsc cvf l.visibilityMask = true) := by
    intro st j l hst hl
    refine ⟨scanStep_inv lsc cvf hst.1 hl, ?_⟩
    rcases scanStep_cases lsc cvf hst.1 hl with h | ⟨h, _, _, hv⟩
    · rw [h]; exact hst.2
    · rw [h]
      intro k hk
      simp only [selected, List.mem_append, List.mem_singleton] at hk
      rcases hk with hk | hk
      · exact hst.2 k hk
      · subst hk; exact ⟨l, hl, hv⟩
  have hscan : ∀ (rest : List GlobalLight) (j : Nat) (st : LightScan),
      (∀ i l, rest[i]? = some l → lights[j + i]? = some l) →
      (ScanInv lights st ∧ ∀ k ∈ st.mShadowMapLightIndex,
        ∃ l, lights[k]? = some l ∧ passesVisibility lsc cvf l.visibilityMask = true) →
      (ScanInv lights (scanLights lsc cvf j rest st) ∧
        ∀ k ∈ (scanLights lsc cvf j rest st).mShadowMapLightIndex,
          ∃ l, lights[k]? = some l ∧ passesVisibility lsc cvf l.visibilityMask = true) := by
    intro rest
    induction rest with
    | nil => intro j st _ h; exact h
    | cons l rest ih =>
      intro j st hrest hst
      simp only [scanLights]
      apply ih
      · intro i l2 hi
        have := hrest (i + 1) l2 (by simpa using hi)
        rw [← this]; congr 1; omega
      · exact hstep st j l hst (by simpa using hrest 0 l (by simp))
  have hloop : ∀ (n : Nat) (st : LightScan),
      (ScanInv lights st ∧ ∀ k ∈ st.mShadowMapLightIndex,
        ∃ l, lights[k]? = some l ∧ passesVisibility lsc cvf l.visibilityMask = true) →
      (ScanInv lights (selectLoop lsc cvf lights n st) ∧
        ∀ k ∈ (selectLoop lsc cvf lights n st).mShadowMapLightIndex,
          ∃ l, lights[k]? = some l ∧ passesVisibility lsc cvf l.visibilityMask = true) := by
    intro n
    induction n with
    | zero => intro st h; exact h
    | succ n ih =>
      intro st hst
      simp only [selectLoop]
      apply ih
      apply hscan
      · intro i l h; simpa using h
      · exact ⟨⟨hst.1.nodup, hst.1.inRange, hst.1.last, hst.1.bound, hst.1.sorted,
          hst.1.affLen, hst.1.aff⟩, hst.2⟩
  unfold selectLights
  refine (hloop _ _ ⟨?_, by simp⟩).2
  refine ⟨by simp, by simp, by simp, by simp, by simp, by simp, ?_⟩
  intro i
  simp only [List.not_mem_nil, iff_false]
  intro h
  rcases List.getElem?_eq_some_iff.mp h with ⟨_, heq⟩
  simp at heq

/-- The test of lines 218-219 holds exactly when the mask meets the combined visibility flags
and, separately, meets `LAYER_SHADOW_CASTER`. -/
theorem passesVisibility_iff (lsc cvf m : Nat) :
    passesVisibility lsc cvf m = true ↔ (m &&& cvf ≠ 0 ∧ m &&& lsc ≠ 0) := by
  simp [passesVisibility]

/-- C17 (counterexample): with viewport and scene visibility masks 1 and
`LAYER_SHADOW_CASTER = 0x40000000`, the light of mask `0x40000001` is selected by
`buildClosestLightList`, although its mask has no bit in common with
`1 & 1 & LAYER_SHADOW_CASTER`; the same happens for every single-bit value of
`LAYER_SHADOW_CASTER` with a mask of that bit and one other bit. -/
theorem buildClosestLightList_candidate_without_common_bit :
    (buildClosestLightList exampleBoxOps 0x40000000 (exampleNode 1)
        (plainMaskCamera oneCasterLight) 1).map (fun s => s.mShadowMapLightIndex) = some [0] ∧
      passesVisibility 0x40000000 (1 &&& 1) 0x40000001 = true ∧
      0x40000001 &&& (1 &&& 1 &&& 0x40000000) = 0 ∧
      ∀ k, k < 32 →
        passesVisibility (2 ^ k) (2 ^ ((k + 1) % 32) &&& 2 ^ ((k + 1) % 32))
            (2 ^ k ||| 2 ^ ((k + 1) % 32)) = true ∧
          (2 ^ k ||| 2 ^ ((k + 1) % 32)) &&&
            (2 ^ ((k + 1) % 32) &&& 2 ^ ((k + 1) % 32) &&& 2 ^ k) = 0 := by
  refine ⟨by decide, by decide, by decide, by decide⟩

/-- C18: after a recomputing call of `buildClosestLightList` the affected-lights bitset has
exactly one entry per global light, its entry at index `i` is true if and only if `i` occurs
in `mShadowMapLightIndex`, and every selected index lies inside the global light list.  The
call returns when `mMinRq <= mMaxRq` and culling does not shorten the vector of per-queue
boxes. -/
theorem buildClosestLightList_affected_bitset {Box : Type} (ops : BoxOps Box)
    (layerShadowCaster : Nat) (s : CompositorShadowNode Box) (camera : Camera Box) (frame : Nat)
    (hnew : ¬(s.mLastCamera = some camera.id ∧ s.mLastFrame = frame)) :
    (∀ s', buildClosestLightList ops layerShadowCaster s camera frame = some s' →
      s'.mAffectedLights.length = camera.globalLightList.length ∧
      (∀ i, i < camera.globalLightList.length →
        s'.mAffectedLights[i]? = some (decide (i ∈ s'.mShadowMapLightIndex))) ∧
      (∀ k ∈ s'.mShadowMapLightIndex, k < camera.globalLightList.length)) ∧
    (s.mDefinition.mMinRq ≤ s.mDefinition.mMaxRq →
      (∀ v i j, v.length ≤ (camera.cullReceiversBox v i j).length) →
      ∃ s', buildClosestLightList ops layerShadowCaster s camera frame = some s') := by
  constructor
  · intro s' hs
    rcases buildClosestLightList_inv ops layerShadowCaster s s' camera frame hnew hs
      with ⟨_, _, hrange, hlen, haff, _⟩
    refine ⟨hlen, ?_, hrange⟩
    intro i hi
    have hlt : i < s'.mAffectedLights.length := by omega
    rw [List.getElem?_eq_getElem hlt]
    have h := haff i
    rw [List.getElem?_eq_getElem hlt] at h
    simp only [Option.some.injEq] at h ⊢
    by_cases hm : i ∈ s'.mShadowMapLightIndex
    · simp only [hm, decide_True]
      exact h.mpr hm
    · simp only [hm, decide_False]
      cases hb : s'.mAffectedLights[i] with
      | false => rfl
      | true => exact absurd (h.mp hb) hm
  · intro hrq hcull
    rcases buildClosestLightList_recompute ops layerShadowCaster s camera frame hnew hrq hcull
      with ⟨s', hs, _⟩
    exact ⟨s', hs⟩

/-- Instance of `buildClosestLightList_affected_bitset`: of the four lights of `mixedLights`
the lights 0, 1, 2 are selected and marked, the light 3 is not. -/
theorem buildClosestLightList_affected_bitset_witness :
    (¬((exampleNode 3).mLastCamera = some (exampleCamera mixedLights).id ∧
        (exampleNode 3).mLastFrame = 1) ∧
      (buildClosestLightList exampleBoxOps exampleLayerShadowCaster (exampleNode 3)
        (exampleCamera mixedLights) 1).map (fun s => (s.mShadowMapLightIndex, s.mAffectedLights)) =
        some ([0, 1, 2], [true, true, true, false])) ∧
    ((∀ s', buildClosestLightList exampleBoxOps exampleLayerShadowCaster (exampleNode 3)
          (exampleCamera mixedLights) 1 = some s' →
        s'.mAffectedLights.length = (exampleCamera mixedLights).globalLightList.length ∧
        (∀ i, i < (exampleCamera mixedLights).globalLightList.length →
          s'.mAffectedLights[i]? = some (decide (i ∈ s'.mShadowMapLightIndex))) ∧
        (∀ k ∈ s'.mShadowMapLightIndex, k < (exampleCamera mixedLights).globalLightList.length)) ∧
      ((exampleNode 3).mDefinition.mMinRq ≤ (exampleNode 3).mDefinition.mMaxRq →
        (∀ v i j, v.length ≤ ((exampleCamera mixedLights).cullReceiversBox v i j).length) →
        ∃ s', buildClosestLightList exampleBoxOps exampleLayerShadowCaster (exampleNode 3)
          (exampleCamera mixedLights) 1 = some s')) :=
  ⟨⟨by decide, by decide⟩,
    buildClosestLightList_affected_bitset exampleBoxOps exampleLayerShadowCaster (exampleNode 3)
      (exampleCamera mixedLights) 1 (by decide)⟩

/-- C19: after a recomputing call of `buildClosestLightList` no global light index occurs more
than once in `mShadowMapLightIndex`, whatever the distances of the lights (equal, within
`1e-6` of each other, or all `-infinity`).  The call returns when `mMinRq <= mMaxRq` and
culling does not shorten the vector of per-queue boxes. -/
theorem buildClosestLightList_no_duplicates {Box : Type} (ops : BoxOps Box)
    (layerShadowCaster : Nat) (s : CompositorShadowNode Box) (camera : Camera Box) (frame : Nat)
    (hnew : ¬(s.mLastCamera = some camera.id ∧ s.mLastFrame = frame)) :
    (∀ s', buildClosestLightList ops layerShadowCaster s camera frame = some s' →
      s'.mShadowMapLightIndex.Nodup) ∧
    (s.mDefinition.mMinRq ≤ s.mDefinition.mMaxRq →
      (∀ v i j, v.length ≤ (camera.cullReceiversBox v i j).length) →
      ∃ s', buildClosestLightList ops layerShadowCaster s camera frame = some s') := by
  constructor
  · intro s' hs
    exact (buildClosestLightList_inv ops layerShadowCaster s s' camera frame hnew hs).2.1
  · intro hrq hcull
    rcases buildClosestLightList_recompute ops layerShadowCaster s camera frame hnew hrq hcull
      with ⟨s', hs, _⟩
    exact ⟨s', hs⟩

/-- Instance of `buildClosestLightList_no_duplicates` for two directional lights, which tie at
every rank: each is selected once. -/
theorem buildClosestLightList_no_duplicates_witness :
    (¬((exampleNode 3).mLastCamera = some (exampleCamera twoDirectionalLights).id ∧
        (exampleNode 3).mLastFrame = 1) ∧
      (buildClosestLightList exampleBoxOps exampleLayerShadowCaster (exampleNode 3)
        (exampleCamera twoDirectionalLights) 1).map (fun s => s.mShadowMapLightIndex) =
        some [0, 1]) ∧
    ((∀ s', buildClosestLightList exampleBoxOps exampleLayerShadowCaster (exampleNode 3)
          (exampleCamera twoDirectionalLights) 1 = some s' → s'.mShadowMapLightIndex.Nodup) ∧
      ((exampleNode 3).mDefinition.mMinRq ≤ (exampleNode 3).mDefinition.mMaxRq →
        (∀ v i j,
          v.length ≤ ((exampleCamera twoDirectionalLights).cullReceiversBox v i j).length) →
        ∃ s', buildClosestLightList exampleBoxOps exampleLayerShadowCaster (exampleNode 3)
          (exampleCamera twoDirectionalLights) 1 = some s')) :=
  ⟨⟨by decide, by decide⟩,
    buildClosestLightList_no_duplicates exampleBoxOps exampleLayerShadowCaster (exampleNode 3)
      (exampleCamera twoDirectionalLights) 1 (by decide)⟩

/-! ## HlmsLowLevel::fillBuffersFor -/

theorem find?_name_eq_none (compositorTextures : List CompositorTexture) (name : Nat) :
    compositorTextures.find? (fun t => t.name == name) = none ↔
      ∀ t ∈ compositorTextures, t.name ≠ name := by
  simp [List.find?_eq_none]

/-- The loop over the texture units raises `ERR_ITEM_NOT_FOUND` when a unit still to visit
refers to an unknown compositor texture. -/
theorem fillTextureUnits_error (casterPass : Bool)
    (compositorTextures : List CompositorTexture) :
    ∀ (rest : List TextureUnitState) (unit : Nat) (st : TextureUnitsBound),
      mrtIndicesInRange compositorTextures rest →
      (∃ u ∈ rest, referencesUnknownTexture compositorTextures u) →
      fillTextureUnits casterPass compositorTextures unit rest st =
        some (Except.error Exception.ERR_ITEM_NOT_FOUND) := by
  intro rest
  induction rest with
  | nil => intro unit st _ h; simp at h
  | cons pTex rest ih =>
    intro unit st hmrt hbad
    have hmrt2 : mrtIndicesInRange compositorTextures rest :=
      fun u hu => hmrt u (List.mem_cons_of_mem _ hu)
    simp only [fillTextureUnits]
    by_cases hc : pTex.contentType = ContentType.CONTENT_COMPOSITOR
    · have hc2 : (pTex.contentType == ContentType.CONTENT_COMPOSITOR) = true := by simp [hc]
      rw [if_pos hc2]
      cases hf : compositorTextures.find? (fun t => t.name == pTex.referencedTextureName) with
      | none => rfl
      | some found =>
        simp only []
        have hlt := hmrt pTex (List.mem_cons_self _ _) hc found hf
        rw [List.getElem?_eq_getElem hlt]
        simp only []
        apply ih _ _ hmrt2
        rcases hbad with ⟨u, hu, hub⟩
        rcases List.mem_cons.mp hu with hu | hu
        · subst hu
          have := (find?_name_eq_none compositorTextures u.referencedTextureName).mpr hub.2
          rw [this] at hf; simp at hf
        · exact ⟨u, hu, hub⟩
    · have hc2 : (pTex.contentType == ContentType.CONTENT_COMPOSITOR) = false := by simp [hc]
      rw [hc2]
      simp only [Bool.false_eq_true, if_false]
      apply ih _ _ hmrt2
      rcases hbad with ⟨u, hu, hub⟩
      rcases List.mem_cons.mp hu with hu | hu
      · subst hu; exact absurd hub.1 hc
      · exact ⟨u, hu, hub⟩

/-- The loop over the texture units, when no unit still to visit refers to an unknown
compositor texture: it returns, keeps the units bound before, and binds each unit in order, a
unit of content type compositor with the texture it refers to and any other unit as it is. -/
theorem fillTextureUnits_ok (casterPass : Bool) (compositorTextures : List CompositorTexture) :
    ∀ (rest : List TextureUnitState) (unit : Nat) (st : TextureUnitsBound),
      mrtIndicesInRange compositorTextures rest →
      (∀ u ∈ rest, ¬referencesUnknownTexture compositorTextures u) →
      ∃ out, fillTextureUnits casterPass compositorTextures unit rest st =
          some (Except.ok out) ∧
        out.textureUnits.length = st.textureUnits.length + rest.length ∧
        (∀ i, i < st.textureUnits.length → out.textureUnits[i]? = st.textureUnits[i]?) ∧
        ∀ (i : Nat) (u : TextureUnitState), rest[i]? = some u →
          (u.contentType = ContentType.CONTENT_COMPOSITOR →
            ∃ tex, referencedCompositorTexture compositorTextures u = some tex ∧
              out.textureUnits[st.textureUnits.length + i]? =
                some { u with texturePtr := some tex }) ∧
          (u.contentType ≠ ContentType.CONTENT_COMPOSITOR →
            out.textureUnits[st.textureUnits.length + i]? = some u) := by
  intro rest
  induction rest with
  | nil =>
    intro unit st _ _
    exact ⟨st, rfl, rfl, fun _ _ => rfl, fun i u h => by simp at h⟩
  | cons pTex rest ih =>
    intro unit st hmrt hgood
    have hmrt2 : mrtIndicesInRange compositorTextures rest :=
      fun u hu => hmrt u (List.mem_cons_of_mem _ hu)
    have hgood2 : ∀ u ∈ rest, ¬referencesUnknownTexture compositorTextures u :=
      fun u hu => hgood u (List.mem_cons_of_mem _ hu)
    simp only [fillTextureUnits]
    by_cases hc : pTex.contentType = ContentType.CONTENT_COMPOSITOR
    · have hc2 : (pTex.contentType == ContentType.CONTENT_COMPOSITOR) = true := by simp [hc]
      rw [if_pos hc2]
      cases hf : compositorTextures.find? (fun t => t.name == pTex.referencedTextureName) with
      | none =>
        exact absurd ⟨hc, (find?_name_eq_none _ _).mp hf⟩ (hgood pTex (List.mem_cons_self _ _))
      | some found =>
        simp only []
        have hlt := hmrt pTex (List.mem_cons_self _ _) hc found hf
        rw [List.getElem?_eq_getElem hlt]
        simp only []
        rcases ih (unit + 1)
          ⟨st.textureUnits ++
            [{ pTex with texturePtr := some found.textures[pTex.referencedMRTIndex] }], _⟩
          hmrt2 hgood2 with ⟨out, hout, hlen, hkeep, hnew⟩
        simp only [List.length_append, List.length_singleton] at hlen hkeep hnew
        refine ⟨out, hout, by simp only [List.length_cons]; omega, ?_, ?_⟩
        · intro i hi
          rw [hkeep i (by omega), List.getElem?_append_left hi]
        · intro i u hu
          cases i with
          | zero =>
            simp only [List.getElem?_cons_zero, Option.some.injEq] at hu
            subst hu
            refine ⟨fun _ => ⟨found.textures[pTex.referencedMRTIndex], ?_, ?_⟩,
              fun hne => absurd hc hne⟩
            · simp only [referencedCompositorTexture, hf]
              exact List.getElem?_eq_getElem hlt
            · rw [Nat.add_zero, hkeep _ (by omega),
                List.getElem?_append_right (Nat.le_refl _)]
              simp
          | succ i =>
            have := hnew i u (by simpa using hu)
            rw [show st.textureUnits.length + (i + 1) = st.textureUnits.length + 1 + i by omega]
            exact this
    · have hc2 : (pTex.contentType == ContentType.CONTENT_COMPOSITOR) = false := by simp [hc]
      rw [hc2]
      simp only [Bool.false_eq_true, if_false]
      rcases ih (unit + 1) ⟨st.textureUnits ++ [pTex], _⟩ hmrt2 hgood2 with
        ⟨out, hout, hlen, hkeep, hnew⟩
      simp only [List.length_append, List.length_singleton] at hlen hkeep hnew
      refine ⟨out, hout, by simp only [List.length_cons]; omega, ?_, ?_⟩
      · intro i hi
        rw [hkeep i (by omega), List.getElem?_append_left hi]
      · intro i u hu
        cases i with
        | zero =>
          simp only [List.getElem?_cons_zero, Option.some.injEq] at hu
          subst hu
          refine ⟨fun h => absurd h hc, fun _ => ?_⟩
          rw [Nat.add_zero, hkeep _ (by omega), List.getElem?_append_right (Nat.le_refl _)]
          simp
        | succ i =>
          have := hnew i u (by simpa using hu)
          rw [show st.textureUnits.length + (i + 1) = st.textureUnits.length + 1 + i by omega]
          exact this

/-- C20: for a pass whose compositor units have their MRT index inside the textures of the
compositor texture they name, `HlmsLowLevel::fillBuffersFor` fails with `ERR_ITEM_NOT_FOUND` if
and only if some texture unit of the pass has content type `CONTENT_COMPOSITOR` and refers to a
name that no compositor texture of the scene manager has; otherwise it returns 0, having set
the texture of every such unit to the texture, at the unit's MRT index, of the compositor
texture it refers to, and having left the texture of the other units as it was. -/
theorem fillBuffersFor_item_not_found (casterPass : Bool)
    (compositorTextures : List CompositorTexture) (textureUnitStates : List TextureUnitState)
    (hmrt : mrtIndicesInRange compositorTextures textureUnitStates) :
    ((fillBuffersFor casterPass compositorTextures textureUnitStates =
        some (Except.error Exception.ERR_ITEM_NOT_FOUND)) ↔
      ∃ u ∈ textureUnitStates, referencesUnknownTexture compositorTextures u) ∧
    ((¬∃ u ∈ textureUnitStates, referencesUnknownTexture compositorTextures u) →
      ∃ bound, fillBuffersFor casterPass compositorTextures textureUnitStates =
          some (Except.ok (0, bound)) ∧
        bound.textureUnits.length = textureUnitStates.length ∧
        ∀ (i : Nat) (u : TextureUnitState), textureUnitStates[i]? = some u →
          (u.contentType = ContentType.CONTENT_COMPOSITOR →
            ∃ tex, referencedCompositorTexture compositorTextures u = some tex ∧
              bound.textureUnits[i]? = some { u with texturePtr := some tex }) ∧
          (u.contentType ≠ ContentType.CONTENT_COMPOSITOR →
            bound.textureUnits[i]? = some u)) := by
  have hok : (¬∃ u ∈ textureUnitStates, referencesUnknownTexture compositorTextures u) →
      ∃ bound, fillBuffersFor casterPass compositorTextures textureUnitStates =
          some (Except.ok (0, bound)) ∧
        bound.textureUnits.length = textureUnitStates.length ∧
        ∀ (i : Nat) (u : TextureUnitState), textureUnitStates[i]? = some u →
          (u.contentType = ContentType.CONTENT_COMPOSITOR →
            ∃ tex, referencedCompositorTexture compositorTextures u = some tex ∧
              bound.textureUnits[i]? = some { u with texturePtr := some tex }) ∧
          (u.contentType ≠ ContentType.CONTENT_COMPOSITOR →
            bound.textureUnits[i]? = some u) := by
    intro hnone
    rcases fillTextureUnits_ok casterPass compositorTextures textureUnitStates 0
        { textureUnits := [], projectors := [] } hmrt
        (fun u hu hb => hnone ⟨u, hu, hb⟩) with ⟨out, hout, hlen, _, hnew⟩
    simp only [List.length_nil, Nat.zero_add] at hlen hnew
    refine ⟨out, ?_, hlen, hnew⟩
    unfold fillBuffersFor
    rw [hout]
  refine ⟨⟨?_, ?_⟩, hok⟩
  · intro h
    by_contra hnone
    rcases hok hnone with ⟨bound, hb, _⟩
    rw [hb] at h
    simp at h
  · intro hbad
    unfold fillBuffersFor
    rw [fillTextureUnits_error casterPass compositorTextures textureUnitStates 0 _ hmrt hbad]

/-- Instance of `fillBuffersFor_item_not_found`: the example pass is bound with the compositor
unit set to texture 401, and the same pass with a unit referring to the unknown name 42
fails. -/
theorem fillBuffersFor_item_not_found_witness :
    ((∀ u ∈ exampleTextureUnits, u.contentType = ContentType.CONTENT_COMPOSITOR →
        ∀ found, exampleCompositorTextures.find?
            (fun t => t.name == u.referencedTextureName) = some found →
          u.referencedMRTIndex < found.textures.length) ∧
      (fillBuffersFor false exampleCompositorTextures exampleTextureUnits).map
          (fun r => r.toOption.map
            (fun p => (p.1, p.2.textureUnits.map (fun u => u.texturePtr), p.2.projectors))) =
        some (some (0, [some 300, none, some 401], [(9, 0)])) ∧
      fillBuffersFor false exampleCompositorTextures
          (exampleTextureUnits ++ [unknownCompositorUnit]) =
        some (Except.error Exception.ERR_ITEM_NOT_FOUND)) ∧
    (((fillBuffersFor false exampleCompositorTextures exampleTextureUnits =
          some (Except.error Exception.ERR_ITEM_NOT_FOUND)) ↔
        ∃ u ∈ exampleTextureUnits, referencesUnknownTexture exampleCompositorTextures u) ∧
      ((¬∃ u ∈ exampleTextureUnits, referencesUnknownTexture exampleCompositorTextures u) →
        ∃ bound, fillBuffersFor false exampleCompositorTextures exampleTextureUnits =
            some (Except.ok (0, bound)) ∧
          bound.textureUnits.length = exampleTextureUnits.length ∧
          ∀ (i : Nat) (u : TextureUnitState), exampleTextureUnits[i]? = some u →
            (u.contentType = ContentType.CONTENT_COMPOSITOR →
              ∃ tex, referencedCompositorTexture exampleCompositorTextures u = some tex ∧
                bound.textureUnits[i]? = some { u with texturePtr := some tex }) ∧
            (u.contentType ≠ ContentType.CONTENT_COMPOSITOR →
              bound.textureUnits[i]? = some u))) :=
  have hmrt : mrtIndicesInRange exampleCompositorTextures exampleTextureUnits := by
    intro u hu hc found hf
    simp only [exampleTextureUnits, List.mem_cons, List.mem_singleton, List.not_mem_nil,
      or_false] at hu
    rcases hu with rfl | rfl | rfl
    · simp at hc
    · simp at hc
    · simp only [exampleCompositorTextures, List.find?, beq_self_eq_true,
        Option.some.injEq] at hf
      subst hf
      decide
  ⟨⟨hmrt, by decide, rfl⟩,
    fillBuffersFor_item_not_found false exampleCompositorTextures exampleTextureUnits hmrt⟩

/-! ## The shader cache of HlmsLowLevel -/

/-- C22 (evaluation at the failing input): `preparePassHash` leaves in `mShaderCache` whatever
the base class function leaves there of the entries present at the call, line 128 being the
query `empty()`.  With a base class function that writes no member, a second pass after a first
pass with one `createShaderCacheEntry` starts with one entry in the cache and not with none,
and after one further `createShaderCacheEntry` the cache holds two entries and not one, the
returned entry being at position 1. -/
theorem preparePassHash_keeps_shader_cache :
    (∀ hlmsPreparePassHash s shadowNode casterPass dualParaboloid sceneManager cameraInProgress,
      (preparePassHash hlmsPreparePassHash s shadowNode casterPass dualParaboloid sceneManager
        cameraInProgress).1.mShaderCache =
      (hlmsPreparePassHash { s with mCurrentSceneManager := some sceneManager } shadowNode
        casterPass dualParaboloid sceneManager).1.mShaderCache) ∧
    (hlmsAfterFirstPass.toOption.map
      (fun s =>
        (preparePassHash exampleHlmsPreparePassHash s none false false 1 7).1.mShaderCache.length)
      = some 1) ∧
    (hlmsAfterFirstPass.toOption.bind
      (fun s => (createShaderCacheEntry 0
        (preparePassHash exampleHlmsPreparePassHash s none false false 1 7).1
        examplePrograms).toOption.map (fun r => (r.1.mShaderCache.length, r.2)))
      = some (2, 1)) := by
  refine ⟨fun _ _ _ _ _ _ _ => rfl, by decide, by decide⟩

/-! ## Slot textures and the lights of the returned list -/

/-- C23 (evaluation at the failing input): the node built for the seven lights has the lights
0, 1, 2 at the ranks 0, 1, 2, so the maps of the slots 1 and 2 are rendered from the lights 1
and 2.  For a renderable whose closest lights are the global lights 0, 2, 1 in this order,
`setShadowMapsToPass` returns these lights in this order and binds the rendered textures 200,
201, 202 of the slots 0, 1, 2: the slot 1, of rank 1, has its texture bound while the light at
position 1 of the returned list has global index 2, not 1. -/
theorem setShadowMapsToPass_binds_map_of_other_light :
    buildClosestLightList exampleBoxOps exampleLayerShadowCaster (exampleNode 3)
        (exampleCamera sevenLights) 1 = some sevenLightsNode ∧
      sevenLightsNode.mShadowMapLightIndex = [0, 1, 2] ∧
      (sevenLightsNode.mDefinition.mShadowMapTexDefinitions.map (fun d => d.light)) =
        [0, 1, 2, 3] ∧
      (setShadowMapsToPass 28 sevenLightsNode swappedRenderableLights examplePass 0).map
        (fun r => (r.1.mCurrentLightList.map (fun l => l.globalIndex),
          r.2.map (fun u => u.texture))) =
        some ([0, 2, 1],
          [ShadowTexture.localTexture 200, ShadowTexture.localTexture 201,
           ShadowTexture.localTexture 202, ShadowTexture.nullShadowTexture 14]) := by
  exact ⟨sevenLightsNode_built, by decide, by decide, by decide⟩

/-! ## Configuration of the bound slots by _update -/

/-- One round of the loop of lines 320-352 for a definition whose rank is below the number of
selected lights configures the slot of the round. -/
theorem setupCamera_bound {Box : Type} (env : UpdateEnv Box) (camera : Camera Box)
    (index : List Nat) (idx : Nat) (texDef : ShadowMapTexDef) (st st1 : CameraSetupState)
    (h : setupCamera env camera index idx texDef st = some st1)
    (hr : texDef.light < index.length) :
    slotConfigured env camera index idx texDef st.slots st.texCameras st1.slots st1.texCameras
      st1.setupCalls := by
  unfold setupCamera at h
  rw [if_pos hr] at h
  cases hi : index[texDef.light]? with
  | none => rw [hi] at h; simp at h
  | some lightIdx =>
    rw [hi] at h
    simp only [] at h
    cases hg : camera.globalLightList[lightIdx]? with
    | none => rw [hg] at h; simp at h
    | some globalLight =>
      rw [hg] at h
      simp only [] at h
      cases hs : st.slots[idx]? with
      | none => rw [hs] at h; simp at h
      | some slot =>
        cases hc : st.texCameras[idx]? with
        | none => rw [hs, hc] at h; simp at h
        | some texCamera =>
          rw [hs, hc] at h
          simp only [] at h
          cases hv : texCamera.viewportMaterialScheme with
          | none => rw [hv] at h; simp at h
          | some v =>
            rw [hv] at h
            simp only [Option.some.injEq] at h
            subst h
            have hsl : idx < st.slots.length := by
              rcases List.getElem?_eq_some_iff.mp hs with ⟨hlt, _⟩; exact hlt
            have hcl : idx < st.texCameras.length := by
              rcases List.getElem?_eq_some_iff.mp hc with ⟨hlt, _⟩; exact hlt
            refine ⟨lightIdx, globalLight, slot, texCamera,
              { viewportMaterialScheme := some env.materialScheme,
                lodCamera := some camera.id,
                direction :=
                  if (env.lightAt globalLight.light).lightType = LightTypes.LT_POINT then
                    texCamera.direction
                  else (env.lightAt globalLight.light).derivedDirection,
                position :=
                  if (env.lightAt globalLight.light).lightType = LightTypes.LT_DIRECTIONAL then
                    texCamera.position
                  else (env.lightAt globalLight.light).derivedPosition },
              hi, hg, hs, hc, rfl, rfl, rfl, rfl, ?_, ?_, ?_⟩
            · simp only []
              rw [List.getElem?_set_self hsl]
              cases hty : (env.lightAt globalLight.light).lightType <;> simp
            · simp only []
              rw [List.getElem?_set_self hcl]
              cases hty : (env.lightAt globalLight.light).lightType <;> simp
            · simp

/-- The loop of lines 320-352 configures every slot it visits whose definition has a rank below
the number of selected lights. -/
theorem setupCameras_bound {Box : Type} (env : UpdateEnv Box) (camera : Camera Box)
    (index : List Nat) :
    ∀ (rest : List ShadowMapTexDef) (idx : Nat) (st out : CameraSetupState),
      setupCameras env camera index idx rest st = some out →
      ∀ t texDef, idx ≤ t → rest[t - idx]? = some texDef → texDef.light < index.length →
        slotConfigured env camera index t texDef st.slots st.texCameras out.slots
          out.texCameras out.setupCalls := by
  intro rest
  induction rest with
  | nil => intro idx st out _ t texDef _ h; simp at h
  | cons d rest ih =>
    intro idx st out h t texDef hle hdef hr
    simp only [setupCameras] at h
    cases h1 : setupCamera env camera index idx d st with
    | none => rw [h1] at h; simp at h
    | some st1 =>
      rw [h1] at h
      simp only [] at h
      rcases setupCamera_some env camera index idx d st st1 h1 with ⟨_, hother, _, _, _⟩
      by_cases hti : t = idx
      · subst hti
        simp only [Nat.sub_self, List.getElem?_cons_zero, Option.some.injEq] at hdef
        subst hdef
        rcases setupCamera_bound env camera index t d st st1 h1 hr with
          ⟨lightIdx, globalLight, slot, texCamera, handed, hi, hg, hs, hc, h1a, h1b, h1c, h1d,
            hslot, hcam, hcall⟩
        rcases setupCameras_some env camera index rest (t + 1) st1 out h with
          ⟨hkeep, _, _, calls, hcalls, _⟩
        rcases hkeep t (fun _ hlt _ => absurd hlt (by omega)) with ⟨hks, hkc⟩
        refine ⟨lightIdx, globalLight, slot, texCamera, handed, hi, hg, hs, hc, h1a, h1b, h1c,
          h1d, ?_, ?_, ?_⟩
        · rw [hks]; exact hslot
        · rw [hkc]; exact hcam
        · rw [hcalls]; exact List.mem_append_left _ hcall
      · have hdef2 : rest[t - (idx + 1)]? = some texDef := by
          rw [show t - idx = (t - (idx + 1)) + 1 by omega] at hdef
          simpa using hdef
        rcases ih (idx + 1) st1 out h t texDef (by omega) hdef2 hr with
          ⟨lightIdx, globalLight, slot, texCamera, handed, hi, hg, hs, hc, h1a, h1b, h1c, h1d,
            hslot, hcam, hcall⟩
        rcases hother t hti with ⟨hos, hoc⟩
        exact ⟨lightIdx, globalLight, slot, texCamera, handed, hi, hg, by rw [← hos]; exact hs,
          by rw [← hoc]; exact hc, h1a, h1b, h1c, h1d, hslot, hcam, hcall⟩

/-- C21: in every `_update` that gets past the per-slot loop, for every slot `t` whose
definition is bound to a light rank `r` below the length of the selected light list: the light
of the slot is the global light at the index `mShadowMapLightIndex[r]`; the camera handed to
`getShadowCamera` has the direction of that light if the light is not a point light and the
direction the camera had before if it is, and the position of that light if the light is not
directional and the position the camera had before if it is; `getShadowCamera` is called for
the slot with that light and the split index of the definition; the slot then records the
`minDistance` and `maxDistance` reported by its own camera setup.  A recomputing `_update` does
get there under the conditions of definedness of the light list build and the camera loop. -/
theorem _update_configures_bound_slot {Box : Type} (ops : BoxOps Box)
    (layerShadowCaster : Nat) (env : UpdateEnv Box) (s : CompositorShadowNode Box)
    (texCameras : List TexCamera) (previous : Nat) (camera : Camera Box) (frame : Nat) :
    (∀ r, _update ops layerShadowCaster env s texCameras previous camera frame = some r →
      ∀ t texDef, s.mDefinition.mShadowMapTexDefinitions[t]? = some texDef →
        texDef.light < r.node.mShadowMapLightIndex.length →
        ∃ lightIdx globalLight slot texCamera handed,
          r.node.mShadowMapLightIndex[texDef.light]? = some lightIdx ∧
          camera.globalLightList[lightIdx]? = some globalLight ∧
          s.mShadowMapCameras[t]? = some slot ∧ texCameras[t]? = some texCamera ∧
          handed.viewportMaterialScheme = some env.materialScheme ∧
          handed.lodCamera = some camera.id ∧
          handed.direction =
            (if (env.lightAt globalLight.light).lightType = LightTypes.LT_POINT then
              texCamera.direction
            else (env.lightAt globalLight.light).derivedDirection) ∧
          handed.position =
            (if (env.lightAt globalLight.light).lightType = LightTypes.LT_DIRECTIONAL then
              texCamera.position
            else (env.lightAt globalLight.light).derivedPosition) ∧
          r.node.mShadowMapCameras[t]? = some
            { slot with
              minDistance := (env.getShadowCamera slot.shadowCameraSetup camera
                (env.lightAt globalLight.light) handed texDef.split).2.1,
              maxDistance := (env.getShadowCamera slot.shadowCameraSetup camera
                (env.lightAt globalLight.light) handed texDef.split).2.2 } ∧
          r.texCameras[t]? = some (env.getShadowCamera slot.shadowCameraSetup camera
            (env.lightAt globalLight.light) handed texDef.split).1 ∧
          (t, lightIdx, texDef.split) ∈ r.setupCalls) ∧
    (¬(s.mLastCamera = some camera.id ∧ s.mLastFrame = frame) →
      s.mDefinition.mMinRq ≤ s.mDefinition.mMaxRq →
      (∀ v i j, v.length ≤ (camera.cullReceiversBox v i j).length) →
      s.mShadowMapCameras.length = s.mDefinition.mShadowMapTexDefinitions.length →
      texCameras.length = s.mDefinition.mShadowMapTexDefinitions.length →
      (∀ c ∈ texCameras, c.viewportMaterialScheme ≠ none) →
      ∃ r, _update ops layerShadowCaster env s texCameras previous camera frame = some r) := by
  constructor
  · intro r h t texDef hdef hrank
    rcases _update_some ops layerShadowCaster env s texCameras previous camera frame r h
      with ⟨s1, st, hb, hs, hnode, hcams, hcalls, _⟩
    rcases buildClosestLightList_keeps ops layerShadowCaster s s1 camera frame hb
      with ⟨hd, hsl, _⟩
    have hidx : r.node.mShadowMapLightIndex = s1.mShadowMapLightIndex := by rw [hnode]
    have hslots : r.node.mShadowMapCameras = st.slots := by rw [hnode]
    rw [hidx] at hrank ⊢
    rw [hslots, hcams, hcalls, ← hsl]
    exact setupCameras_bound env camera s1.mShadowMapLightIndex
      s1.mDefinition.mShadowMapTexDefinitions 0 _ st hs t texDef (Nat.zero_le _)
      (by rw [Nat.sub_zero, hd]; exact hdef) hrank
  · intro hnew hrq hcull hslots hcams hview
    exact _update_defined ops layerShadowCaster env s texCameras previous camera frame hnew hrq
      hcull hslots hcams hview

/-- Instance of `_update_configures_bound_slot` in the example scene, where the lights 0, 1, 2
are selected, light 0 is directional and the lights 1 and 2 are point lights: `_update`
returns; the camera of slot 0 gets the direction of light 0 and keeps its position, the
cameras of the slots 1 and 2 keep their direction and get the position of their light, and
the camera of slot 3, of rank 3, is left as it was. -/
theorem _update_configures_bound_slot_witness :
    (_update exampleBoxOps exampleLayerShadowCaster (exampleEnv none) (exampleNode 3)
        exampleTexCameras 0 (exampleCamera mixedLights) 1).map
      (fun r => r.texCameras.map (fun c => (c.direction, c.position))) =
      some [({ x := 0, y := -1, z := 0 }, { x := 0, y := 0, z := 0 }),
        ({ x := 0, y := 0, z := 0 }, { x := 3, y := 4, z := 5 }),
        ({ x := 0, y := 0, z := 0 }, { x := 3, y := 4, z := 5 }),
        ({ x := 0, y := 0, z := 0 }, { x := 0, y := 0, z := 0 })] ∧
    ∃ r, _update exampleBoxOps exampleLayerShadowCaster (exampleEnv none) (exampleNode 3)
      exampleTexCameras 0 (exampleCamera mixedLights) 1 = some r :=
  ⟨by decide,
    (_update_configures_bound_slot exampleBoxOps exampleLayerShadowCaster (exampleEnv none)
      (exampleNode 3) exampleTexCameras 0 (exampleCamera mixedLights) 1).2 (by decide)
      (by decide) (fun _ _ _ => Nat.le_refl _) (by decide) (by decide) (by decide)⟩

/-! ## Selection from a global light list sorted by distance -/

theorem distanceStep_fin (p q : ℚ) :
    distanceStep (Real.fin p) (Real.fin q) = true ↔ p + EPSILON ≤ q := by
  simp only [distanceStep, Real.absDiffLtEpsilon_fin, Bool.and_eq_true, decide_eq_true_eq,
    Bool.not_eq_true', decide_eq_false_iff_not, not_lt]
  have he : (0 : ℚ) < EPSILON := by norm_num [EPSILON]
  constructor
  · rintro ⟨hlt, habs⟩
    rw [abs_of_pos (by linarith)] at habs
    linarith
  · intro h
    have hlt : p < q := by linarith
    refine ⟨hlt, ?_⟩
    rw [abs_of_pos (by linarith)]
    linarith

theorem distanceStep_cases {a b : Real} (h : distanceStep a b = true) :
    ∃ p q, a = Real.fin p ∧ b = Real.fin q ∧ p + EPSILON ≤ q := by
  cases a with
  | negInf => simp [distanceStep] at h
  | fin p =>
    cases b with
    | negInf => simp [distanceStep] at h
    | fin q => exact ⟨p, q, rfl, rfl, (distanceStep_fin p q).mp h⟩

theorem distanceStep_chain {a b c : Real} (hab : distanceStep a b = true)
    (hbc : distanceStep b c = true) : distanceStep a c = true := by
  rcases distanceStep_cases hab with ⟨p, q, rfl, rfl, h1⟩
  rcases distanceStep_cases hbc with ⟨q', r, hq, rfl, h2⟩
  simp only [Real.fin.injEq] at hq
  subst hq
  have he : (0 : ℚ) < EPSILON := by norm_num [EPSILON]
  exact (distanceStep_fin p r).mpr (by linarith)

/-- A light is skipped when it is nearer than `minMaxDistance`. -/
theorem considerLight_below (j : Nat) (d : Real) (st : LightScan)
    (h : Real.le st.minMaxDistance d = false) : considerLight j d st = st := by
  unfold considerLight; simp [h]

/-- A light is skipped when it is farther than `minDistance`. -/
theorem considerLight_above (j : Nat) (d : Real) (st : LightScan)
    (h : Real.le d st.minDistance = false) : considerLight j d st = st := by
  unfold considerLight; simp [h]

/-- The light selected last is skipped when it is met again. -/
theorem considerLight_last (j : Nat) (q : ℚ) (st : LightScan) (hm : st.minIdx = some j)
    (hd : st.minMaxDistance = Real.fin q) : considerLight j (Real.fin q) st = st := by
  unfold considerLight
  simp [hm, hd, Real.absDiffLtEpsilon_self]

/-- A light is taken when it is finite, within `[minMaxDistance, minDistance]` and not within
`EPSILON` of `minMaxDistance`. -/
theorem considerLight_taken (j : Nat) (q : ℚ) (st : LightScan)
    (h1 : Real.le (Real.fin q) st.minDistance = true)
    (h2 : Real.le st.minMaxDistance (Real.fin q) = true)
    (h3 : Real.absDiffLtEpsilon (Real.fin q) st.minMaxDistance = false) :
    considerLight j (Real.fin q) st =
      { st with minIdx := some j, minDistance := Real.fin q, minMaxDistance := Real.fin q } := by
  unfold considerLight
  simp [h1, h2, h3]

theorem scanLights_append (lsc cvf : Nat) :
    ∀ (a b : List GlobalLight) (j : Nat) (st : LightScan),
      scanLights lsc cvf j (a ++ b) st =
        scanLights lsc cvf (j + a.length) b (scanLights lsc cvf j a st) := by
  intro a
  induction a with
  | nil => intro b j st; simp [scanLights]
  | cons l a ih =>
    intro b j st
    simp only [List.cons_append, scanLights, List.length_cons, List.append_eq]
    rw [ih]
    congr 1
    omega

/-- A stretch of lights leaves the state as it is when nothing is waiting to be pushed and the
candidate test leaves the state as it is for each eligible light of the stretch. -/
theorem scanLights_idle (lsc cvf : Nat) (st : LightScan) (hpush : pushMinIdx st = st) :
    ∀ (seg : List GlobalLight) (j : Nat),
      (∀ i l, seg[i]? = some l → passesVisibility lsc cvf l.visibilityMask = true →
        considerLight (j + i) l.fDist st = st) →
      scanLights lsc cvf j seg st = st := by
  intro seg
  induction seg with
  | nil => intro j _; rfl
  | cons l seg ih =>
    intro j h
    have hstep : scanStep lsc cvf j l st = st := by
      unfold scanStep
      by_cases hv : passesVisibility lsc cvf l.visibilityMask = true
      · rw [if_pos hv]
        have := h 0 l (by simp) hv
        rw [Nat.add_zero] at this
        rw [this, hpush]
      · rw [if_neg hv, hpush]
    simp only [scanLights, hstep]
    apply ih
    intro i x hx hv
    have := h (i + 1) x (by simpa using hx) hv
    rw [show j + (i + 1) = j + 1 + i by omega] at this
    exact this

theorem eligibleIndicesFrom_append (lsc cvf : Nat) :
    ∀ (a b : List GlobalLight) (j : Nat),
      eligibleIndicesFrom lsc cvf j (a ++ b) =
        eligibleIndicesFrom lsc cvf j a ++ eligibleIndicesFrom lsc cvf (j + a.length) b := by
  intro a
  induction a with
  | nil => intro b j; simp [eligibleIndicesFrom]
  | cons l a ih =>
    intro b j
    simp only [List.cons_append, eligibleIndicesFrom, List.length_cons, List.append_eq]
    rw [ih, show j + 1 + a.length = j + (a.length + 1) by omega]
    split <;> simp

theorem eligibleIndicesFrom_none (lsc cvf : Nat) :
    ∀ (a : List GlobalLight) (j : Nat),
      (∀ l ∈ a, passesVisibility lsc cvf l.visibilityMask ≠ true) →
      eligibleIndicesFrom lsc cvf j a = [] := by
  intro a
  induction a with
  | nil => intro j _; rfl
  | cons l a ih =>
    intro j h
    simp only [eligibleIndicesFrom]
    rw [if_neg (h l (List.mem_cons_self _ _))]
    exact ih (j + 1) (fun x hx => h x (List.mem_cons_of_mem _ hx))

theorem eligibleIndicesFrom_range (lsc cvf : Nat) :
    ∀ (a : List GlobalLight) (j : Nat), ∀ k ∈ eligibleIndicesFrom lsc cvf j a,
      j ≤ k ∧ k < j + a.length := by
  intro a
  induction a with
  | nil => intro j k hk; simp [eligibleIndicesFrom] at hk
  | cons l a ih =>
    intro j k hk
    simp only [eligibleIndicesFrom] at hk
    simp only [List.length_cons]
    split at hk
    · rcases List.mem_cons.mp hk with hk | hk
      · subst hk; omega
      · have := ih (j + 1) k hk; omega
    · have := ih (j + 1) k hk; omega

/-- A list of lights has no eligible light, or splits at its first eligible light. -/
theorem first_eligible (lsc cvf : Nat) :
    ∀ post : List GlobalLight,
      (∀ l ∈ post, passesVisibility lsc cvf l.visibilityMask ≠ true) ∨
      ∃ mid l rest, post = mid ++ l :: rest ∧
        (∀ x ∈ mid, passesVisibility lsc cvf x.visibilityMask ≠ true) ∧
        passesVisibility lsc cvf l.visibilityMask = true := by
  intro post
  induction post with
  | nil => left; intro l hl; simp at hl
  | cons x post ih =>
    by_cases hv : passesVisibility lsc cvf x.visibilityMask = true
    · right
      exact ⟨[], x, post, rfl, fun y hy => by simp at hy, hv⟩
    · rcases ih with h | ⟨mid, l, rest, hsplit, hmid, hl⟩
      · left
        intro l hl
        rcases List.mem_cons.mp hl with hl | hl
        · subst hl; exact hv
        · exact h l hl
      · right
        refine ⟨x :: mid, l, rest, by rw [hsplit]; rfl, ?_, hl⟩
        intro y hy
        rcases List.mem_cons.mp hy with hy | hy
        · subst hy; exact hv
        · exact hmid y hy

theorem distanceStep_not_le {a b : Real} (h : distanceStep a b = true) :
    Real.le b a = false := by
  rcases distanceStep_cases h with ⟨p, q, rfl, rfl, hpq⟩
  have he : (0 : ℚ) < EPSILON := by norm_num [EPSILON]
  simp only [Real.le, decide_eq_false_iff_not, not_le]
  linarith

theorem distanceStep_le {a b : Real} (h : distanceStep a b = true) : Real.le a b = true := by
  rcases distanceStep_cases h with ⟨p, q, rfl, rfl, hpq⟩
  have he : (0 : ℚ) < EPSILON := by norm_num [EPSILON]
  simp only [Real.le, decide_eq_true_eq]
  linarith

theorem distanceStep_absDiff {a b : Real} (h : distanceStep a b = true) :
    Real.absDiffLtEpsilon b a = false := by
  cases a with
  | negInf => simp [distanceStep] at h
  | fin p =>
    cases b with
    | negInf => simp [distanceStep] at h
    | fin q =>
      simp only [distanceStep, Bool.and_eq_true, Bool.not_eq_true'] at h
      exact h.2

theorem finiteDistance_cases {a : Real} (h : finiteDistance a = true) :
    ∃ q, a = Real.fin q ∧ Real.le (Real.fin q) (Real.fin REAL_MAX) = true := by
  cases a with
  | negInf => simp [finiteDistance] at h
  | fin q =>
    simp only [finiteDistance, decide_eq_true_eq] at h
    exact ⟨q, rfl, by simp [Real.le, h]⟩

/-- In a list whose eligible distances are pairwise a step apart, an eligible light is a step
beyond every eligible light before it and a step before every eligible light behind it. -/
theorem eligibleDistances_split (lsc cvf : Nat) (a b : List GlobalLight) (l : GlobalLight)
    (hl : passesVisibility lsc cvf l.visibilityMask = true)
    (hpw : (eligibleDistances lsc cvf (a ++ l :: b)).Pairwise
      (fun x y => distanceStep x y = true)) :
    (∀ x ∈ a, passesVisibility lsc cvf x.visibilityMask = true →
      distanceStep x.fDist l.fDist = true) ∧
    (∀ y ∈ b, passesVisibility lsc cvf y.visibilityMask = true →
      distanceStep l.fDist y.fDist = true) := by
  unfold eligibleDistances at hpw
  rw [List.filter_append, List.filter_cons_of_pos (by simpa using hl), List.map_append,
    List.map_cons, List.pairwise_append] at hpw
  rcases hpw with ⟨_, hcons, hcross⟩
  rw [List.pairwise_cons] at hcons
  constructor
  · intro x hx hv
    apply hcross x.fDist (List.mem_map.mpr ⟨x, List.mem_filter.mpr ⟨hx, by simpa using hv⟩, rfl⟩)
    exact List.mem_cons_self _ _
  · intro y hy hv
    exact hcons.1 y.fDist (List.mem_map.mpr ⟨y, List.mem_filter.mpr ⟨hy, by simpa using hv⟩, rfl⟩)

/-- Between two scans nothing is waiting to be pushed. -/
theorem selectedUpTo_push (lsc cvf : Nat) (pre : List GlobalLight) (st : LightScan)
    (hm : selectedUpTo lsc cvf pre st) : pushMinIdx st = st := by
  apply pushMinIdx_of_last
  rcases hm with ⟨hL, ⟨hpre, hmin, _⟩ | ⟨pre0, lm, hpre, hlm, hmin, _⟩⟩
  · rw [hL, hpre, hmin]; rfl
  · rw [hL, hpre, hmin, eligibleIndicesFrom_append]
    simp [eligibleIndicesFrom, hlm]

/-- One scan of the inner loop over a global light list whose eligible lights are finite and
pairwise a step apart in index order, started between two scans with the lights of `pre`
behind: without eligible light in `post` the state stays as it is; otherwise the first eligible
light of `post` is selected and the lights up to it are behind. -/
theorem scanLights_sorted (lsc cvf : Nat) (pre post : List GlobalLight) (st : LightScan)
    (hfin : ∀ l ∈ pre ++ post, passesVisibility lsc cvf l.visibilityMask = true →
      finiteDistance l.fDist = true)
    (hpw : (eligibleDistances lsc cvf (pre ++ post)).Pairwise
      (fun x y => distanceStep x y = true))
    (hm : selectedUpTo lsc cvf pre st) (hmax : st.minDistance = Real.fin REAL_MAX) :
    ((∀ l ∈ post, passesVisibility lsc cvf l.visibilityMask ≠ true) →
      scanLights lsc cvf 0 (pre ++ post) st = st) ∧
    (∀ mid l rest, post = mid ++ l :: rest →
      (∀ x ∈ mid, passesVisibility lsc cvf x.visibilityMask ≠ true) →
      passesVisibility lsc cvf l.visibilityMask = true →
      selectedUpTo lsc cvf (pre ++ mid ++ [l]) (scanLights lsc cvf 0 (pre ++ post) st)) := by
  have hpush := selectedUpTo_push lsc cvf pre st hm
  have hidle : ∀ (seg : List GlobalLight) (j : Nat),
      (∀ l ∈ seg, passesVisibility lsc cvf l.visibilityMask ≠ true) →
      scanLights lsc cvf j seg st = st := by
    intro seg j hseg
    apply scanLights_idle lsc cvf st hpush
    intro i l hl hv
    exact absurd hv (hseg l (List.getElem?_mem hl))
  have hpre : scanLights lsc cvf 0 pre st = st := by
    apply scanLights_idle lsc cvf st hpush
    intro i l hl hv
    rcases hm with ⟨_, ⟨hp, _, _⟩ | ⟨pre0, lm, hp, hlm, hmin, hmmd⟩⟩
    · rw [hp] at hl; simp at hl
    · rw [hp] at hl hpw hfin
      rw [List.append_assoc, List.singleton_append] at hpw
      have hpair := (eligibleDistances_split lsc cvf pre0 post lm hlm hpw).1
      rw [Nat.zero_add]
      by_cases hi : i < pre0.length
      · rw [List.getElem?_append_left hi] at hl
        apply considerLight_below
        rw [hmmd]
        exact distanceStep_not_le (hpair l (List.getElem?_mem hl) hv)
      · have hlt : i < (pre0 ++ [lm]).length := by
          rcases List.getElem?_eq_some_iff.mp hl with ⟨hlt, _⟩; exact hlt
        simp only [List.length_append, List.length_singleton] at hlt
        have hie : i = pre0.length := by omega
        subst hie
        rw [List.getElem?_append_right (Nat.le_refl _)] at hl
        simp only [Nat.sub_self, List.getElem?_cons_zero, Option.some.injEq] at hl
        subst hl
        rcases finiteDistance_cases (hfin lm (by simp) hlm) with ⟨q, hq, _⟩
        rw [hq]
        exact considerLight_last _ q st hmin (by rw [hmmd, hq])
  constructor
  · intro hnone
    rw [scanLights_append, hpre]
    exact hidle post _ hnone
  · intro mid l rest hpost hmid hl
    subst hpost
    have hj : 0 + pre.length + mid.length = pre.length + mid.length := by omega
    rw [scanLights_append, hpre, scanLights_append, hidle mid _ hmid, hj]
    simp only [scanLights]
    rcases finiteDistance_cases (hfin l (by simp) hl) with ⟨q, hq, hqmax⟩
    have hsplit : pre ++ (mid ++ l :: rest) = (pre ++ mid) ++ l :: rest := by simp
    rw [hsplit] at hpw
    rcases eligibleDistances_split lsc cvf (pre ++ mid) rest l hl hpw with ⟨hbefore, hafter⟩
    have hL := hm.1
    have hnotin : pre.length + mid.length ∉ st.mShadowMapLightIndex := by
      intro hmem
      rw [hL] at hmem
      have := eligibleIndicesFrom_range lsc cvf pre 0 _ hmem
      omega
    have hle : Real.le st.minMaxDistance (Real.fin q) = true ∧
        Real.absDiffLtEpsilon (Real.fin q) st.minMaxDistance = false := by
      rcases hm.2 with ⟨_, _, hmmd⟩ | ⟨pre0, lm, hp, hlm, _, hmmd⟩
      · rw [hmmd]; exact ⟨rfl, rfl⟩
      · have hstep : distanceStep lm.fDist l.fDist = true :=
          hbefore lm (by rw [hp]; simp) hlm
        rw [hmmd, ← hq]
        exact ⟨distanceStep_le hstep, distanceStep_absDiff hstep⟩
    have hstep : scanStep lsc cvf (pre.length + mid.length) l st =
        selected (pre.length + mid.length) (Real.fin q) st := by
      unfold scanStep
      rw [if_pos hl, hq, considerLight_taken _ q st (by rw [hmax]; exact hqmax) hle.1 hle.2]
      exact @pushMinIdx_of_new
        { st with minIdx := some (pre.length + mid.length), minDistance := Real.fin q,
                  minMaxDistance := Real.fin q } (pre.length + mid.length) rfl hnotin
    rw [hstep]
    have hpush2 : pushMinIdx (selected (pre.length + mid.length) (Real.fin q) st) =
        selected (pre.length + mid.length) (Real.fin q) st := by
      apply pushMinIdx_of_last
      simp [selected]
    have hrest : scanLights lsc cvf (pre.length + mid.length + 1) rest
        (selected (pre.length + mid.length) (Real.fin q) st) =
        selected (pre.length + mid.length) (Real.fin q) st := by
      apply scanLights_idle lsc cvf _ hpush2
      intro i y hy hv
      apply considerLight_above
      have := distanceStep_not_le (hafter y (List.getElem?_mem hy) hv)
      rw [hq] at this
      exact this
    rw [hrest]
    refine ⟨?_, Or.inr ⟨pre ++ mid, l, rfl, hl, ?_, ?_⟩⟩
    · simp only [selected]
      rw [eligibleIndicesFrom_append, eligibleIndicesFrom_append,
        eligibleIndicesFrom_none lsc cvf mid _ hmid, hL]
      simp [eligibleIndicesFrom, hl]
    · simp [selected]
    · simp [selected, hq]

/-- The outer loop on a global light list whose eligible lights are finite and pairwise a step
apart in index order: `n` scans started with the lights of `pre` behind select the first `n`
eligible lights of the rest, in index order. -/
theorem selectLoop_sorted (lsc cvf : Nat) (lights : List GlobalLight)
    (hfin : ∀ l ∈ lights, passesVisibility lsc cvf l.visibilityMask = true →
      finiteDistance l.fDist = true)
    (hpw : (eligibleDistances lsc cvf lights).Pairwise (fun x y => distanceStep x y = true)) :
    ∀ (n : Nat) (pre post : List GlobalLight) (st : LightScan),
      lights = pre ++ post → selectedUpTo lsc cvf pre st →
      (selectLoop lsc cvf lights n st).mShadowMapLightIndex =
        eligibleIndicesFrom lsc cvf 0 pre ++
          (eligibleIndicesFrom lsc cvf pre.length post).take n := by
  intro n
  induction n with
  | zero =>
    intro pre post st _ hm
    simp only [selectLoop, List.take_zero, List.append_nil]
    exact hm.1
  | succ n ih =>
    intro pre post st hsplit hm
    simp only [selectLoop]
    have hm1 : selectedUpTo lsc cvf pre { st with minDistance := Real.fin REAL_MAX } := hm
    have hscan := scanLights_sorted lsc cvf pre post
      { st with minDistance := Real.fin REAL_MAX } (hsplit ▸ hfin) (hsplit ▸ hpw) hm1 rfl
    rw [← hsplit] at hscan
    rcases first_eligible lsc cvf post with hnone | ⟨mid, l, rest, hpost, hmid, hl⟩
    · rw [hscan.1 hnone, ih pre post _ hsplit hm1,
        eligibleIndicesFrom_none lsc cvf post _ hnone]
      simp
    · have hm2 := hscan.2 mid l rest hpost hmid hl
      have hsplit2 : lights = (pre ++ mid ++ [l]) ++ rest := by
        rw [hsplit, hpost]; simp
      rw [ih (pre ++ mid ++ [l]) rest _ hsplit2 hm2, hpost]
      rw [eligibleIndicesFrom_append lsc cvf (pre ++ mid) [l],
        eligibleIndicesFrom_append lsc cvf pre mid,
        eligibleIndicesFrom_append lsc cvf mid (l :: rest),
        eligibleIndicesFrom_none lsc cvf mid _ hmid]
      simp only [eligibleIndicesFrom, hl, if_true, List.length_append, List.length_singleton,
        List.nil_append, List.append_nil, Nat.zero_add, List.take_succ_cons,
        List.append_assoc, List.singleton_append]
      rw [eligibleIndicesFrom_none lsc cvf mid pre.length hmid, List.nil_append,
        List.take_succ_cons, Nat.add_assoc]

/-- The selection on a global light list whose eligible lights are finite and pairwise a step
apart in index order selects the first `min mNumLights (number of lights)` eligible lights, in
index order. -/
theorem selectLights_sorted (lsc cvf mNumLights : Nat) (lights : List GlobalLight)
    (hfin : ∀ l ∈ lights, passesVisibility lsc cvf l.visibilityMask = true →
      finiteDistance l.fDist = true)
    (hpw : (eligibleDistances lsc cvf lights).Pairwise (fun x y => distanceStep x y = true)) :
    (selectLights lsc cvf mNumLights lights).mShadowMapLightIndex =
      (eligibleIndices lsc cvf lights).take (min mNumLights lights.length) := by
  unfold selectLights
  simp only []
  rw [selectLoop_sorted lsc cvf lights hfin hpw (min mNumLights lights.length) [] lights _ rfl
    ⟨rfl, Or.inl ⟨rfl, rfl, rfl⟩⟩]
  simp [eligibleIndicesFrom, eligibleIndices]

/-- A recomputing call leaves in `mShadowMapLightIndex` what the selection loops select. -/
theorem buildClosestLightList_index {Box : Type} (ops : BoxOps Box) (lsc : Nat)
    (s s1 : CompositorShadowNode Box) (camera : Camera Box) (frame : Nat)
    (hnew : ¬(s.mLastCamera = some camera.id ∧ s.mLastFrame = frame))
    (h : buildClosestLightList ops lsc s camera frame = some s1) :
    s1.mShadowMapLightIndex =
      (selectLights lsc (camera.viewportVisibilityMask &&& camera.sceneVisibilityMask)
        s.mDefinition.mNumLights camera.globalLightList).mShadowMapLightIndex := by
  unfold buildClosestLightList at h
  rw [if_neg hnew] at h
  cases hm : mergeReceiversBoxes ops
      { s with mLastFrame := frame, mLastCamera := some camera.id } camera with
  | none => rw [hm] at h; simp at h
  | some r =>
    rw [hm] at h
    simp only [Option.some.injEq] at h
    rcases mergeReceiversBoxes_some ops _ r.1 camera r.2 hm with ⟨box, hbox⟩
    rw [← h, hbox]

/-! ## Claim about a global light list sorted by distance -/

/-- C24: for a global light list whose eligible lights (those passing the visibility test)
have, in index order, finite distances of which each exceeds the one before by at least
`1e-6`: after a recomputing call of `buildClosestLightList`, `mShadowMapLightIndex` is the list
of the indices of the first `min numLights (number of eligible lights)` eligible lights, in
index order, where `numLights = min mNumLights (number of lights)`.  The call returns when
`mMinRq <= mMaxRq` and culling does not shorten the vector of per-queue boxes. -/
theorem buildClosestLightList_sorted_lights {Box : Type} (ops : BoxOps Box)
    (layerShadowCaster : Nat) (s : CompositorShadowNode Box) (camera : Camera Box) (frame : Nat)
    (hnew : ¬(s.mLastCamera = some camera.id ∧ s.mLastFrame = frame))
    (hfin : ∀ l ∈ camera.globalLightList,
      passesVisibility layerShadowCaster
        (camera.viewportVisibilityMask &&& camera.sceneVisibilityMask) l.visibilityMask = true →
      finiteDistance l.fDist = true)
    (hstep : List.Chain' (fun a b => distanceStep a b = true)
      (eligibleDistances layerShadowCaster
        (camera.viewportVisibilityMask &&& camera.sceneVisibilityMask)
        camera.globalLightList)) :
    (∀ s', buildClosestLightList ops layerShadowCaster s camera frame = some s' →
      s'.mShadowMapLightIndex =
        (eligibleIndices layerShadowCaster
          (camera.viewportVisibilityMask &&& camera.sceneVisibilityMask)
          camera.globalLightList).take
          (min (min s.mDefinition.mNumLights camera.globalLightList.length)
            (eligibleIndices layerShadowCaster
              (camera.viewportVisibilityMask &&& camera.sceneVisibilityMask)
              camera.globalLightList).length)) ∧
    (s.mDefinition.mMinRq ≤ s.mDefinition.mMaxRq →
      (∀ v i j, v.length ≤ (camera.cullReceiversBox v i j).length) →
      ∃ s', buildClosestLightList ops layerShadowCaster s camera frame = some s') := by
  constructor
  · intro s' hs
    haveI : IsTrans Real (fun a b => distanceStep a b = true) :=
      ⟨fun _ _ _ hab hbc => distanceStep_chain hab hbc⟩
    have hpw := List.chain'_iff_pairwise.mp hstep
    rw [buildClosestLightList_index ops layerShadowCaster s s' camera frame hnew hs,
      selectLights_sorted layerShadowCaster _ s.mDefinition.mNumLights camera.globalLightList
        hfin hpw]
    rw [List.take_eq_take]
    simp
  · intro hrq hcull
    rcases buildClosestLightList_recompute ops layerShadowCaster s camera frame hnew hrq hcull
      with ⟨s', hs, _⟩
    exact ⟨s', hs⟩

/-- Instance of `buildClosestLightList_sorted_lights`: of the five lights of `spacedLights` the
lights 0, 2 and 4 are eligible, at the distances 1, 2 and 3; with `mNumLights = 2` the lights
0 and 2 are selected, in this order. -/
theorem buildClosestLightList_sorted_lights_witness :
    (¬((exampleNode 2).mLastCamera = some (exampleCamera spacedLights).id ∧
        (exampleNode 2).mLastFrame = 1) ∧
      (∀ l ∈ (exampleCamera spacedLights).globalLightList,
        passesVisibility exampleLayerShadowCaster
          ((exampleCamera spacedLights).viewportVisibilityMask &&&
            (exampleCamera spacedLights).sceneVisibilityMask) l.visibilityMask = true →
        finiteDistance l.fDist = true) ∧
      List.Chain' (fun a b => distanceStep a b = true)
        (eligibleDistances exampleLayerShadowCaster
          ((exampleCamera spacedLights).viewportVisibilityMask &&&
            (exampleCamera spacedLights).sceneVisibilityMask)
          (exampleCamera spacedLights).globalLightList) ∧
      eligibleIndices exampleLayerShadowCaster
        ((exampleCamera spacedLights).viewportVisibilityMask &&&
          (exampleCamera spacedLights).sceneVisibilityMask)
        (exampleCamera spacedLights).globalLightList = [0, 2, 4] ∧
      (buildClosestLightList exampleBoxOps exampleLayerShadowCaster (exampleNode 2)
        (exampleCamera spacedLights) 1).map (fun s => s.mShadowMapLightIndex) =
        some [0, 2]) ∧
    ((∀ s', buildClosestLightList exampleBoxOps exampleLayerShadowCaster (exampleNode 2)
          (exampleCamera spacedLights) 1 = some s' →
        s'.mShadowMapLightIndex =
          (eligibleIndices exampleLayerShadowCaster
            ((exampleCamera spacedLights).viewportVisibilityMask &&&
              (exampleCamera spacedLights).sceneVisibilityMask)
            (exampleCamera spacedLights).globalLightList).take
            (min (min (exampleNode 2).mDefinition.mNumLights
                (exampleCamera spacedLights).globalLightList.length)
              (eligibleIndices exampleLayerShadowCaster
                ((exampleCamera spacedLights).viewportVisibilityMask &&&
                  (exampleCamera spacedLights).sceneVisibilityMask)
                (exampleCamera spacedLights).globalLightList).length)) ∧
      ((exampleNode 2).mDefinition.mMinRq ≤ (exampleNode 2).mDefinition.mMaxRq →
        (∀ v i j, v.length ≤ ((exampleCamera spacedLights).cullReceiversBox v i j).length) →
        ∃ s', buildClosestLightList exampleBoxOps exampleLayerShadowCaster (exampleNode 2)
          (exampleCamera spacedLights) 1 = some s')) :=
  have hd : eligibleDistances exampleLayerShadowCaster
      ((exampleCamera spacedLights).viewportVisibilityMask &&&
        (exampleCamera spacedLights).sceneVisibilityMask)
      (exampleCamera spacedLights).globalLightList = [Real.fin 1, Real.fin 2, Real.fin 3] := by
    decide
  have hc : List.Chain' (fun a b => distanceStep a b = true)
      (eligibleDistances exampleLayerShadowCaster
        ((exampleCamera spacedLights).viewportVisibilityMask &&&
          (exampleCamera spacedLights).sceneVisibilityMask)
        (exampleCamera spacedLights).globalLightList) := by
    rw [hd]
    exact List.Chain'.cons (by decide)
      (List.Chain'.cons (by decide) (List.chain'_singleton _))
  ⟨⟨by decide, by decide, hc, by decide, by decide⟩,
    buildClosestLightList_sorted_lights exampleBoxOps exampleLayerShadowCaster (exampleNode 2)
      (exampleCamera spacedLights) 1 (by decide) (by decide) hc⟩

/-! ## The candidates of the selection -/

theorem considerLight_index (j : Nat) (d : Real) (st : LightScan) :
    (considerLight j d st).mShadowMapLightIndex = st.mShadowMapLightIndex := by
  simp only [considerLight]
  split_ifs <;> rfl

theorem pushMinIdx_mono (st : LightScan) (k : Nat) (hk : k ∈ st.mShadowMapLightIndex) :
    k ∈ (pushMinIdx st).mShadowMapLightIndex := by
  unfold pushMinIdx
  cases st.minIdx with
  | none => exact hk
  | some m =>
    simp only []
    split
    · exact List.mem_append_left _ hk
    · exact hk

theorem scanStep_mono (lsc cvf j : Nat) (l : GlobalLight) (st : LightScan) (k : Nat)
    (hk : k ∈ st.mShadowMapLightIndex) :
    k ∈ (scanStep lsc cvf j l st).mShadowMapLightIndex := by
  unfold scanStep
  apply pushMinIdx_mono
  split
  · rw [considerLight_index]; exact hk
  · exact hk

theorem scanLights_mono (lsc cvf : Nat) :
    ∀ (seg : List GlobalLight) (j : Nat) (st : LightScan) (k : Nat),
      k ∈ st.mShadowMapLightIndex → k ∈ (scanLights lsc cvf j seg st).mShadowMapLightIndex := by
  intro seg
  induction seg with
  | nil => intro j st k hk; exact hk
  | cons l seg ih =>
    intro j st k hk
    simp only [scanLights]
    exact ih _ _ k (scanStep_mono lsc cvf j l st k hk)

theorem selectLoop_mono (lsc cvf : Nat) (lights : List GlobalLight) :
    ∀ (n : Nat) (st : LightScan) (k : Nat),
      k ∈ st.mShadowMapLightIndex →
      k ∈ (selectLoop lsc cvf lights n st).mShadowMapLightIndex := by
  intro n
  induction n with
  | zero => intro st k hk; exact hk
  | succ n ih =>
    intro st k hk
    simp only [selectLoop]
    exact ih _ k (scanLights_mono lsc cvf lights 0 _ k hk)

/-- The first light of the global list that passes the test of lines 218-219 is selected,
wherever it stands, when its distance is `-infinity` or a number up to the largest `Real` and
the node selects at least one light. -/
theorem selectLights_first (lsc cvf mNumLights : Nat) (pre post : List GlobalLight)
    (l : GlobalLight) (hpre : ∀ x ∈ pre, passesVisibility lsc cvf x.visibilityMask ≠ true)
    (hl : passesVisibility lsc cvf l.visibilityMask = true)
    (hmax : Real.le l.fDist (Real.fin REAL_MAX) = true) (hnum : 0 < mNumLights) :
    pre.length ∈ (selectLights lsc cvf mNumLights (pre ++ l :: post)).mShadowMapLightIndex := by
  unfold selectLights
  simp only []
  obtain ⟨n, hn⟩ : ∃ n, min mNumLights (pre ++ l :: post).length = n + 1 := by
    refine ⟨min mNumLights (pre ++ l :: post).length - 1, ?_⟩
    simp only [List.length_append, List.length_cons]
    omega
  rw [hn]
  simp only [selectLoop]
  apply selectLoop_mono
  rw [scanLights_append, scanLights_idle lsc cvf _ rfl pre 0
    (fun i x hx hv => absurd hv (hpre x (List.getElem?_mem hx)))]
  simp only [scanLights]
  apply scanLights_mono
  rw [Nat.zero_add]
  cases hf : l.fDist with
  | negInf =>
    simp [scanStep, hl, considerLight, hf, Real.le, pushMinIdx, Real.absDiffLtEpsilon]
  | fin q =>
    have hq : q ≤ REAL_MAX := by
      rw [hf] at hmax; simpa [Real.le] using hmax
    simp [scanStep, hl, considerLight, hf, Real.le, pushMinIdx, Real.absDiffLtEpsilon, hq]

/-- One round of the inner loop sees of the light only whether it passes the test of lines
218-219 and, if it does, its distance. -/
theorem scanStep_view (lsc cvf j : Nat) (l l2 : GlobalLight) (st : LightScan)
    (h : candidateView lsc cvf [l] = candidateView lsc cvf [l2]) :
    scanStep lsc cvf j l st = scanStep lsc cvf j l2 st := by
  simp only [candidateView, List.map_cons, List.map_nil, List.cons.injEq, and_true] at h
  unfold scanStep
  by_cases h1 : passesVisibility lsc cvf l.visibilityMask = true
  · by_cases h2 : passesVisibility lsc cvf l2.visibilityMask = true
    · rw [if_pos h1, if_pos h2] at h
      simp only [Option.some.injEq] at h
      rw [if_pos h1, if_pos h2, h]
    · rw [if_pos h1, if_neg h2] at h; simp at h
  · by_cases h2 : passesVisibility lsc cvf l2.visibilityMask = true
    · rw [if_neg h1, if_pos h2] at h; simp at h
    · rw [if_neg h1, if_neg h2]

theorem scanLights_view (lsc cvf : Nat) :
    ∀ (a b : List GlobalLight) (j : Nat) (st : LightScan),
      candidateView lsc cvf a = candidateView lsc cvf b →
      scanLights lsc cvf j a st = scanLights lsc cvf j b st := by
  intro a
  induction a with
  | nil =>
    intro b j st h
    cases b with
    | nil => rfl
    | cons y b => simp [candidateView] at h
  | cons x a ih =>
    intro b j st h
    cases b with
    | nil => simp [candidateView] at h
    | cons y b =>
      simp only [candidateView, List.map_cons, List.cons.injEq] at h
      simp only [scanLights]
      rw [scanStep_view lsc cvf j x y st
        (by simp only [candidateView, List.map_cons, List.map_nil, h.1])]
      exact ih b (j + 1) _ h.2

theorem selectLoop_view (lsc cvf : Nat) (a b : List GlobalLight)
    (h : candidateView lsc cvf a = candidateView lsc cvf b) :
    ∀ (n : Nat) (st : LightScan), selectLoop lsc cvf a n st = selectLoop lsc cvf b n st := by
  intro n
  induction n with
  | zero => intro st; rfl
  | succ n ih =>
    intro st
    simp only [selectLoop]
    rw [scanLights_view lsc cvf a b 0 _ h, ih]

/-- The selection sees of the global light list only, for each light, whether it passes the
test of lines 218-219 and, if it does, its distance. -/
theorem selectLights_view (lsc cvf mNumLights : Nat) (a b : List GlobalLight)
    (h : candidateView lsc cvf a = candidateView lsc cvf b) :
    selectLights lsc cvf mNumLights a = selectLights lsc cvf mNumLights b := by
  have hlen : a.length = b.length := by
    have := congrArg List.length h
    simpa [candidateView] using this
  unfold selectLights
  simp only [hlen]
  exact selectLoop_view lsc cvf a b h _ _

theorem mem_eligibleIndicesFrom (lsc cvf : Nat) :
    ∀ (a : List GlobalLight) (j k : Nat),
      k ∈ eligibleIndicesFrom lsc cvf j a ↔
        j ≤ k ∧ ∃ l, a[k - j]? = some l ∧ passesVisibility lsc cvf l.visibilityMask = true := by
  intro a
  induction a with
  | nil => intro j k; simp [eligibleIndicesFrom]
  | cons x a ih =>
    intro j k
    simp only [eligibleIndicesFrom]
    have hrec := ih (j + 1) k
    by_cases hjk : k = j
    · subst hjk
      have hnot : k ∉ eligibleIndicesFrom lsc cvf (k + 1) a := by
        intro hm
        have := (eligibleIndicesFrom_range lsc cvf a (k + 1) k hm).1
        omega
      by_cases hv : passesVisibility lsc cvf x.visibilityMask = true
      · simp [hv]
      · simp [hv, hnot]
    · by_cases hle : j + 1 ≤ k
      · have hcons : ∀ l, (x :: a)[k - j]? = some l ↔ a[k - (j + 1)]? = some l := by
          intro l
          rw [show k - j = (k - (j + 1)) + 1 by omega, List.getElem?_cons_succ]
        have hmem : k ∈ eligibleIndicesFrom lsc cvf (j + 1) a ↔
            j ≤ k ∧ ∃ l, (x :: a)[k - j]? = some l ∧
              passesVisibility lsc cvf l.visibilityMask = true := by
          rw [hrec]
          constructor
          · rintro ⟨_, l, hl, hv⟩
            exact ⟨by omega, l, (hcons l).mpr hl, hv⟩
          · rintro ⟨_, l, hl, hv⟩
            exact ⟨hle, l, (hcons l).mp hl, hv⟩
        split
        · rw [List.mem_cons, ← hmem]
          exact ⟨fun h => h.resolve_left hjk, Or.inr⟩
        · exact hmem
      · have hlt : k < j := by omega
        have hnot : k ∉ eligibleIndicesFrom lsc cvf (j + 1) a := by
          intro hm
          have := (eligibleIndicesFrom_range lsc cvf a (j + 1) k hm).1
          omega
        split
        · simp only [List.mem_cons, hjk, hnot, or_self, false_iff]
          rintro ⟨h, _⟩; omega
        · simp only [hnot, false_iff]
          rintro ⟨h, _⟩; omega

theorem eligibleIndicesFrom_length (lsc cvf : Nat) :
    ∀ (a : List GlobalLight) (j : Nat), (eligibleIndicesFrom lsc cvf j a).length ≤ a.length := by
  intro a
  induction a with
  | nil => intro j; simp [eligibleIndicesFrom]
  | cons x a ih =>
    intro j
    simp only [eligibleIndicesFrom, List.length_cons]
    have := ih (j + 1)
    split
    · simp only [List.length_cons]; omega
    · omega

/-- A recomputing call leaves in `mShadowMapLightIndex` and `mAffectedLights` what the
selection loops leave. -/
theorem buildClosestLightList_selection {Box : Type} (ops : BoxOps Box) (lsc : Nat)
    (s s1 : CompositorShadowNode Box) (camera : Camera Box) (frame : Nat)
    (hnew : ¬(s.mLastCamera = some camera.id ∧ s.mLastFrame = frame))
    (h : buildClosestLightList ops lsc s camera frame = some s1) :
    s1.mShadowMapLightIndex =
      (selectLights lsc (camera.viewportVisibilityMask &&& camera.sceneVisibilityMask)
        s.mDefinition.mNumLights camera.globalLightList).mShadowMapLightIndex ∧
    s1.mAffectedLights =
      (selectLights lsc (camera.viewportVisibilityMask &&& camera.sceneVisibilityMask)
        s.mDefinition.mNumLights camera.globalLightList).mAffectedLights := by
  unfold buildClosestLightList at h
  rw [if_neg hnew] at h
  cases hm : mergeReceiversBoxes ops
      { s with mLastFrame := frame, mLastCamera := some camera.id } camera with
  | none => rw [hm] at h; simp at h
  | some r =>
    rw [hm] at h
    simp only [Option.some.injEq] at h
    rcases mergeReceiversBoxes_some ops _ r.1 camera r.2 hm with ⟨box, hbox⟩
    rw [← h, hbox]
    exact ⟨rfl, rfl⟩

/-- C17 (amended): `buildClosestLightList` treats a light of visibility mask `m` as a selection
candidate exactly when `m` has a non-zero bitwise AND with the viewport mask AND the scene mask
and, separately, a non-zero bitwise AND with `LAYER_SHADOW_CASTER`.  For every global light
list, after a recomputing call: every selected light passes both tests; the first light of the
list that passes both tests is selected, at whatever index it stands (its distance being
`-infinity` or at most the largest `Real`, and `mNumLights` not zero); when the lights passing
both tests are at finite distances at least `1e-6` apart in index order and `mNumLights` is at
least their number, the light at an index is selected if and only if it passes both tests; the
selected indices and the affected bits are the same for any other global light list in which
the same indices pass both tests, with the same distances there, whatever the masks and the
distances of the other lights; and a light alone in the list is selected if and only if it
passes both tests.  The call returns when `mMinRq <= mMaxRq` and culling does not shorten the
vector of per-queue boxes. -/
theorem buildClosestLightList_candidate_iff {Box : Type} (ops : BoxOps Box)
    (layerShadowCaster : Nat) (s : CompositorShadowNode Box) (camera : Camera Box) (frame : Nat)
    (hnew : ¬(s.mLastCamera = some camera.id ∧ s.mLastFrame = frame)) :
    (∀ s', buildClosestLightList ops layerShadowCaster s camera frame = some s' →
      (∀ k ∈ s'.mShadowMapLightIndex, ∃ l, camera.globalLightList[k]? = some l ∧
        l.visibilityMask &&& (camera.viewportVisibilityMask &&& camera.sceneVisibilityMask) ≠ 0 ∧
        l.visibilityMask &&& layerShadowCaster ≠ 0) ∧
      (∀ j l, camera.globalLightList[j]? = some l →
        l.visibilityMask &&& (camera.viewportVisibilityMask &&& camera.sceneVisibilityMask) ≠ 0 →
        l.visibilityMask &&& layerShadowCaster ≠ 0 →
        (∀ x ∈ camera.globalLightList.take j,
          ¬(x.visibilityMask &&&
              (camera.viewportVisibilityMask &&& camera.sceneVisibilityMask) ≠ 0 ∧
            x.visibilityMask &&& layerShadowCaster ≠ 0)) →
        l.fDist ≤ Real.fin REAL_MAX → 0 < s.mDefinition.mNumLights →
        j ∈ s'.mShadowMapLightIndex) ∧
      ((∀ l ∈ camera.globalLightList,
          l.visibilityMask &&&
            (camera.viewportVisibilityMask &&& camera.sceneVisibilityMask) ≠ 0 →
          l.visibilityMask &&& layerShadowCaster ≠ 0 → finiteDistance l.fDist = true) →
        List.Chain' (fun a b => distanceStep a b = true)
          (eligibleDistances layerShadowCaster
            (camera.viewportVisibilityMask &&& camera.sceneVisibilityMask)
            camera.globalLightList) →
        (eligibleIndices layerShadowCaster
          (camera.viewportVisibilityMask &&& camera.sceneVisibilityMask)
          camera.globalLightList).length ≤ s.mDefinition.mNumLights →
        ∀ j l, camera.globalLightList[j]? = some l →
          (j ∈ s'.mShadowMapLightIndex ↔
            (l.visibilityMask &&&
                (camera.viewportVisibilityMask &&& camera.sceneVisibilityMask) ≠ 0 ∧
              l.visibilityMask &&& layerShadowCaster ≠ 0))) ∧
      (∀ lights2 s2,
        candidateView layerShadowCaster
            (camera.viewportVisibilityMask &&& camera.sceneVisibilityMask) lights2 =
          candidateView layerShadowCaster
            (camera.viewportVisibilityMask &&& camera.sceneVisibilityMask)
            camera.globalLightList →
        buildClosestLightList ops layerShadowCaster s
          { camera with globalLightList := lights2 } frame = some s2 →
        s2.mShadowMapLightIndex = s'.mShadowMapLightIndex ∧
          s2.mAffectedLights = s'.mAffectedLights) ∧
      (∀ l, camera.globalLightList = [l] → 0 < s.mDefinition.mNumLights →
        l.fDist ≤ Real.fin REAL_MAX →
        (s'.mShadowMapLightIndex = [0] ↔
          (l.visibilityMask &&&
              (camera.viewportVisibilityMask &&& camera.sceneVisibilityMask) ≠ 0 ∧
            l.visibilityMask &&& layerShadowCaster ≠ 0)))) ∧
    (s.mDefinition.mMinRq ≤ s.mDefinition.mMaxRq →
      (∀ v i j, v.length ≤ (camera.cullReceiversBox v i j).length) →
      ∃ s', buildClosestLightList ops layerShadowCaster s camera frame = some s') := by
  constructor
  · intro s' hs
    rcases buildClosestLightList_selection ops layerShadowCaster s s' camera frame hnew hs
      with ⟨hidx, haff⟩
    refine ⟨?_, ?_, ?_, ?_, ?_⟩
    · intro k hk
      rw [hidx] at hk
      rcases selectLights_eligible _ _ _ _ k hk with ⟨l, hl, hv⟩
      exact ⟨l, hl, (passesVisibility_iff _ _ _).mp hv⟩
    · intro j l hl h1 h2 hpre hmax hnum
      rcases List.getElem?_eq_some_iff.mp hl with ⟨hlt, heq⟩
      have hsplit : camera.globalLightList.take j ++ l :: camera.globalLightList.drop (j + 1) =
          camera.globalLightList := by
        rw [← heq, ← List.drop_eq_getElem_cons hlt, List.take_append_drop]
      have hfirst := selectLights_first layerShadowCaster
        (camera.viewportVisibilityMask &&& camera.sceneVisibilityMask) s.mDefinition.mNumLights
        (camera.globalLightList.take j) (camera.globalLightList.drop (j + 1)) l
        (fun x hx hv => hpre x hx ((passesVisibility_iff _ _ _).mp hv))
        ((passesVisibility_iff _ _ _).mpr ⟨h1, h2⟩) hmax hnum
      rw [hsplit, List.length_take, Nat.min_eq_left (Nat.le_of_lt hlt)] at hfirst
      rw [hidx]
      exact hfirst
    · intro hfin hstep hcount j l hl
      haveI : IsTrans Real (fun a b => distanceStep a b = true) :=
        ⟨fun _ _ _ hab hbc => distanceStep_chain hab hbc⟩
      have hpw := List.chain'_iff_pairwise.mp hstep
      have hlen := eligibleIndicesFrom_length layerShadowCaster
        (camera.viewportVisibilityMask &&& camera.sceneVisibilityMask) camera.globalLightList 0
      rw [hidx, selectLights_sorted layerShadowCaster _ s.mDefinition.mNumLights
        camera.globalLightList
        (fun x hx hv => hfin x hx ((passesVisibility_iff _ _ _).mp hv).1
          ((passesVisibility_iff _ _ _).mp hv).2) hpw,
        List.take_of_length_le (by unfold eligibleIndices at hcount ⊢; omega)]
      unfold eligibleIndices
      rw [mem_eligibleIndicesFrom, Nat.sub_zero, hl]
      constructor
      · rintro ⟨_, l', hl', hv⟩
        simp only [Option.some.injEq] at hl'
        subst hl'
        exact (passesVisibility_iff _ _ _).mp hv
      · intro h
        exact ⟨Nat.zero_le _, l, rfl, (passesVisibility_iff _ _ _).mpr h⟩
    · intro lights2 s2 hview hs2
      rcases buildClosestLightList_selection ops layerShadowCaster s s2
        { camera with globalLightList := lights2 } frame hnew hs2 with ⟨hidx2, haff2⟩
      simp only [] at hidx2 haff2
      rw [hidx, haff, hidx2, haff2, selectLights_view layerShadowCaster _ _ _ _ hview]
      exact ⟨rfl, rfl⟩
    · intro l hl hnum hmax
      rw [hidx, hl]
      have hn : min s.mDefinition.mNumLights 1 = 1 := by omega
      have hle : Real.le l.fDist (Real.fin REAL_MAX) = true := hmax
      by_cases hv : passesVisibility layerShadowCaster
          (camera.viewportVisibilityMask &&& camera.sceneVisibilityMask) l.visibilityMask = true
      · have hsel : (selectLights layerShadowCaster
            (camera.viewportVisibilityMask &&& camera.sceneVisibilityMask)
            s.mDefinition.mNumLights [l]).mShadowMapLightIndex = [0] := by
          cases hf : l.fDist with
          | negInf =>
            simp [selectLights, hn, selectLoop, scanLights, scanStep, hv, considerLight, hf,
              Real.le, pushMinIdx, Real.absDiffLtEpsilon]
          | fin q =>
            have hq : q ≤ REAL_MAX := by
              rw [hf] at hle; simpa [Real.le] using hle
            simp [selectLights, hn, selectLoop, scanLights, scanStep, hv, considerLight, hf,
              Real.le, pushMinIdx, Real.absDiffLtEpsilon, hq]
        rw [hsel]
        exact ⟨fun _ => (passesVisibility_iff _ _ _).mp hv, fun _ => rfl⟩
      · have hsel : (selectLights layerShadowCaster
            (camera.viewportVisibilityMask &&& camera.sceneVisibilityMask)
            s.mDefinition.mNumLights [l]).mShadowMapLightIndex = [] := by
          simp [selectLights, hn, selectLoop, scanLights, scanStep, hv, pushMinIdx]
        rw [hsel]
        constructor
        · intro h; simp at h
        · intro h; exact absurd ((passesVisibility_iff _ _ _).mpr h) hv
  · intro hrq hcull
    rcases buildClosestLightList_recompute ops layerShadowCaster s camera frame hnew hrq hcull
      with ⟨s', hs, _⟩
    exact ⟨s', hs⟩

/-- Instance of `buildClosestLightList_candidate_iff` for four lights seen through the masks 1
and 1: the lights 1 and 2, of mask `0x40000001`, are selected; light 0, without the shadow
caster bit, and light 3, with that bit only, are not, although they are the nearest; light 1,
the first to pass both tests, is selected, and the call returns. -/
theorem buildClosestLightList_candidate_iff_witness :
    (¬((exampleNode 3).mLastCamera = some (plainMaskCamera maskedLights).id ∧
        (exampleNode 3).mLastFrame = 1) ∧
      (buildClosestLightList exampleBoxOps 0x40000000 (exampleNode 3)
        (plainMaskCamera maskedLights) 1).map (fun s => s.mShadowMapLightIndex) =
        some [1, 2]) ∧
    (∀ s', buildClosestLightList exampleBoxOps 0x40000000 (exampleNode 3)
        (plainMaskCamera maskedLights) 1 = some s' → 1 ∈ s'.mShadowMapLightIndex) ∧
    ∃ s', buildClosestLightList exampleBoxOps 0x40000000 (exampleNode 3)
      (plainMaskCamera maskedLights) 1 = some s' :=
  ⟨⟨by decide, by decide⟩,
    fun s' hs =>
      ((buildClosestLightList_candidate_iff exampleBoxOps 0x40000000 (exampleNode 3)
        (plainMaskCamera maskedLights) 1 (by decide)).1 s' hs).2.1 1
        { light := 1, visibilityMask := 0x40000001, fDist := Real.fin 2 }
        (by decide) (by decide) (by decide) (by decide) (by decide) (by decide),
    (buildClosestLightList_candidate_iff exampleBoxOps 0x40000000 (exampleNode 3)
      (plainMaskCamera maskedLights) 1 (by decide)).2 (by decide)
      (fun _ _ _ => Nat.le_refl _)⟩

end Ogre
